import Mathlib

/-! Verification of stunnel: the data pump `transfer()` of `src/src/client.c`.

A shallow embedding of the transfer loop (client.c, lines 357-648).  The loop body is
split at the places where the C code talks to the outside world; every such piece is a
function from the program variables and the answers of the outside world to the new
program variables.  Every external call is recorded, together with the program
variables at the moment of the call, in a trace.

The same is done for the STARTTLS negotiation of `src/protocol.c` with the line helpers
of `src/src/network.c`, for the poll abstraction of `network.c`, and for
`connect_remote` and `cleanup` of `client.c`.
-/

namespace Stunnel

/-! ## Data model -/

/-- A byte of payload.  The loop never looks inside the payload. -/
abbrev Byte := Nat

/-- The values of `get_last_socket_error()` that the switch statements name. -/
inductive Errno
  | EINTR
  | EWOULDBLOCK
  | EAGAIN
  | other
  deriving DecidableEq

/-- Outcome of `writesocket`: `-1` with an errno, or the number of bytes accepted. -/
inductive WriteResult
  | error (e : Errno)
  | count (n : Nat)
  deriving DecidableEq

/-- Outcome of `readsocket`: `-1` with an errno, or the bytes stored at the address
given to the call; the return value is their number (`0` for no bytes). -/
inductive ReadResult
  | error (e : Errno)
  | bytes (data : List Byte)
  deriving DecidableEq

/-- Outcome of `SSL_write` / `SSL_read` as classified by `SSL_get_error(c->ssl, num)`.
`NONE` carries what the call moved (a count for `SSL_write`, the stored bytes for
`SSL_read`), `SYSCALL` carries `num` and the errno, `unknown` is any other code. -/
inductive SSLResult (α : Type)
  | NONE (val : α)
  | WANT_WRITE
  | WANT_READ
  | WANT_X509_LOOKUP
  | SYSCALL (num : Int) (e : Errno)
  | ZERO_RETURN
  | SSL
  | unknown (err : Int)
  deriving DecidableEq

/-- The program variables of `transfer()`: the fields of `CLI` it uses (the four
half-channel flags are reached through the macros `sock_rd`, `sock_wr`, `ssl_rd`,
`ssl_wr`), its locals, and the four readiness answers read from `fds`.  The byte
counters `sock_bytes` and `ssl_bytes` are `int`s of 32 bits: the two additions of lines
464 and 488 go through `int32`. -/
structure Vars where
  sock_rd : Bool
  sock_wr : Bool
  ssl_rd : Bool
  ssl_wr : Bool
  sock_ptr : Int
  ssl_ptr : Int
  sock_buff : List Byte
  ssl_buff : List Byte
  sock_bytes : Int
  ssl_bytes : Int
  ssl_closing : Int
  watchdog : Int
  check_SSL_pending : Bool
  sock_can_rd : Bool
  sock_can_wr : Bool
  ssl_can_rd : Bool
  ssl_can_wr : Bool
  deriving DecidableEq

/-- The `s_poll_add` calls made while the readiness set is assembled (lines 373-395). -/
structure Interest where
  sock_rfd_rd : Bool
  ssl_rfd_rd : Bool
  sock_wfd_wr : Bool
  ssl_wfd_wr : Bool
  deriving DecidableEq

/-- An external call made by the loop, with its length argument and its result. -/
inductive Call
  | s_poll_wait (reg : Interest) (idle : Bool) (ret : Int)
  | SSL_shutdown (ret : Int)
  | writesocket (len : Int) (r : WriteResult)
  | shutdown_WR
  | SSL_write (len : Int) (r : SSLResult Nat)
  | readsocket (len : Int) (r : ReadResult)
  | SSL_read (len : Int) (r : SSLResult (List Byte))
  deriving DecidableEq

/-- A call together with the program variables at the moment it is made. -/
structure Event where
  pre : Vars
  call : Call
  deriving DecidableEq

/-- Where the control is: at the loop test, before one of the phases of the body, or
returned (with the return value and the source line of the `return`). -/
inductive PC
  | loop
  | shutdown
  | sock_write
  | ssl_write
  | sock_read
  | ssl_read
  | count
  | returned (code : Int) (line : Nat)
  deriving DecidableEq

/-- A point of a run: program variables, control point, and the calls made so far. -/
structure State extends Vars where
  pc : PC
  trace : List Event
  deriving DecidableEq

/-- The answers of the outside world during one phase: results of the poll, of the
TLS library queries and of the I/O calls.  A phase reads only the answers of the calls
it makes. -/
structure Env where
  s_poll_wait : Int := 1
  sock_can_rd : Bool := false
  sock_can_wr : Bool := false
  ssl_can_rd : Bool := false
  ssl_can_wr : Bool := false
  SSL_want_read : Bool := false
  SSL_want_write : Bool := false
  SSL_pending : Bool := false
  SSL_shutdown : Int := 0
  writesocket : WriteResult := WriteResult.count 0
  SSL_write : SSLResult Nat := SSLResult.WANT_WRITE
  readsocket : ReadResult := ReadResult.error Errno.EINTR
  SSL_read : SSLResult (List Byte) := SSLResult.WANT_READ

/-! ## Buffers and counters -/

/-- The value an `int` of 32 bits holds for the arithmetic result `x`.  An overflow of
signed arithmetic is undefined in C; the model takes the value that wraps around, as
two's-complement hardware produces it. -/
def int32 (x : Int) : Int :=
  (x + 2147483648) % 4294967296 - 2147483648

/-- `memmove(buf, buf+num, n)`: the first `n` cells receive the cells `num .. num+n`,
the other cells keep their content. -/
def memmove (buf : List Byte) (num n : Int) : List Byte :=
  (buf.drop num.toNat).take n.toNat ++ buf.drop n.toNat

/-- A read call storing `data` at `buf+off`. -/
def store (buf : List Byte) (off : Int) (data : List Byte) : List Byte :=
  buf.take off.toNat ++ data ++ buf.drop (off.toNat + data.length)

/-! ## The loop -/

/-- The loop test of line 370. -/
def loop_guard (c : Vars) : Prop :=
  ((c.sock_rd ∨ c.sock_ptr ≠ 0) ∧ c.ssl_wr) ∨ ((c.ssl_rd ∨ c.ssl_ptr ≠ 0) ∧ c.sock_wr)

instance : DecidablePred loop_guard := fun c => by
  unfold loop_guard; infer_instance

/-- The condition of lines 398-399 that selects `timeout_idle` over `timeout_close`. -/
def idle_selected (c : Vars) : Prop :=
  c.sock_rd ∨ (c.ssl_wr ∧ c.sock_ptr ≠ 0) ∨ (c.sock_wr ∧ c.ssl_ptr ≠ 0)

instance : DecidablePred idle_selected := fun c => by
  unfold idle_selected; infer_instance

/-- The registrations of lines 373-395. -/
def interest (B : Nat) (c : Vars) (e : Env) : Interest where
  sock_rfd_rd := decide (c.sock_rd ∧ c.sock_ptr < B)
  ssl_rfd_rd := decide (c.ssl_rd ∧
    (c.ssl_ptr < B ∨ ((c.sock_ptr ≠ 0 ∨ c.ssl_closing ≠ 0) ∧ e.SSL_want_read)))
  sock_wfd_wr := decide (c.sock_wr ∧ c.ssl_ptr ≠ 0)
  ssl_wfd_wr := decide (c.ssl_wr ∧
    (c.sock_ptr ≠ 0 ∨ c.ssl_closing = 1 ∨
      ((c.ssl_ptr < B ∨ c.ssl_closing = 2) ∧ e.SSL_want_write)))

/-- Record a call made in the current state. -/
def State.log (s : State) (c : Call) : State :=
  { s with trace := s.trace ++ [⟨s.toVars, c⟩] }

/-- Leave `transfer()` with the given value at the given source line. -/
def State.ret (s : State) (code : Int) (line : Nat) : State :=
  { s with pc := PC.returned code line }

/-- Move on to the given phase. -/
def State.goto (s : State) (p : PC) : State :=
  { s with pc := p }

/-- Lines 370-412: loop test, assembling the readiness set, and the wait. -/
def phase_wait (B : Nat) (s : State) (e : Env) : State :=
  if loop_guard s.toVars then
    let s1 := s.log (Call.s_poll_wait (interest B s.toVars e)
      (decide (idle_selected s.toVars)) e.s_poll_wait)
    if e.s_poll_wait = -1 then s1.ret (-1) 402
    else if e.s_poll_wait = 0 then
      if s.sock_rd then s1.ret (-1) 406 else s1.ret 0 410
    else
      { s1 with
        sock_can_rd := e.sock_can_rd, sock_can_wr := e.sock_can_wr,
        ssl_can_rd := e.ssl_can_rd, ssl_can_wr := e.ssl_can_wr,
        pc := PC.shutdown }
  else s.ret 0 647

/-- Lines 414-434: `SSL_shutdown`. -/
def phase_shutdown (s : State) (e : Env) : State :=
  if s.ssl_closing = 1 ∨ (s.ssl_closing = 2 ∧
      ((e.SSL_want_read ∧ s.ssl_can_rd) ∨ (e.SSL_want_write ∧ s.ssl_can_wr))) then
    let s1 := s.log (Call.SSL_shutdown e.SSL_shutdown)
    if e.SSL_shutdown = 1 then
      { s1 with ssl_wr := false, ssl_closing := 3, pc := PC.sock_write }
    else if e.SSL_shutdown = 0 then
      { s1 with ssl_closing := 2, pc := PC.sock_write }
    else if e.SSL_shutdown = -1 then s1.ret (-1) 432
    else s1.goto PC.sock_write
  else s.goto PC.sock_write

/-- Lines 438-473: write the TLS-side buffer to the plaintext descriptor. -/
def phase_sock_write (B : Nat) (s0 : State) (e : Env) : State :=
  let s : State := { s0 with check_SSL_pending := false }
  if s.sock_wr ∧ s.sock_can_wr then
    let s1 := s.log (Call.writesocket s.ssl_ptr e.writesocket)
    match e.writesocket with
    | WriteResult.error Errno.EINTR => s1.goto PC.ssl_write
    | WriteResult.error Errno.EWOULDBLOCK => s1.goto PC.ssl_write
    | WriteResult.error _ => s1.ret (-1) 453
    | WriteResult.count 0 => s1.goto PC.ssl_write
    | WriteResult.count (n + 1) =>
      let num : Int := ((n + 1 : Nat) : Int)
      let s2 : State := { s1 with
        ssl_buff := memmove s1.ssl_buff num (s1.ssl_ptr - num),
        check_SSL_pending := decide (s1.ssl_ptr = B),
        ssl_ptr := s1.ssl_ptr - num,
        sock_bytes := int32 (s1.sock_bytes + num),
        watchdog := 0 }
      if s2.ssl_rd = false ∧ s2.ssl_ptr = 0 then
        { s2.log Call.shutdown_WR with sock_wr := false, pc := PC.ssl_write }
      else s2.goto PC.ssl_write
  else s.goto PC.ssl_write

/-- Lines 475-529: `SSL_write` of the plaintext-side buffer. -/
def phase_ssl_write (s : State) (e : Env) : State :=
  if s.ssl_wr ∧ ((s.sock_ptr ≠ 0 ∧ s.ssl_can_wr) ∨ (e.SSL_want_read ∧ s.ssl_can_rd)) then
    let s1 := s.log (Call.SSL_write s.sock_ptr e.SSL_write)
    match e.SSL_write with
    | SSLResult.NONE n =>
      let num : Int := (n : Int)
      let s2 : State := { s1 with
        sock_buff := memmove s1.sock_buff num (s1.sock_ptr - num),
        sock_ptr := s1.sock_ptr - num,
        ssl_bytes := int32 (s1.ssl_bytes + num),
        watchdog := 0 }
      if s2.ssl_closing = 0 ∧ s2.sock_rd = false ∧ s2.sock_ptr = 0 ∧ s2.ssl_wr then
        { s2 with ssl_closing := 1, pc := PC.sock_read }
      else s2.goto PC.sock_read
    | SSLResult.WANT_WRITE => s1.goto PC.sock_read
    | SSLResult.WANT_READ => s1.goto PC.sock_read
    | SSLResult.WANT_X509_LOOKUP => s1.goto PC.sock_read
    | SSLResult.SYSCALL num errno =>
      if num < 0 then
        match errno with
        | Errno.EINTR => s1.goto PC.sock_read
        | Errno.EAGAIN => s1.goto PC.sock_read
        | _ => s1.ret (-1) 514
      else s1.goto PC.sock_read
    | SSLResult.ZERO_RETURN =>
      { s1 with ssl_rd := false, ssl_wr := false, pc := PC.sock_read }
    | SSLResult.SSL => s1.ret (-1) 524
    | SSLResult.unknown _ => s1.ret (-1) 527
  else s.goto PC.sock_read

/-- Lines 531-561: read from the plaintext descriptor into the plaintext-side buffer. -/
def phase_sock_read (B : Nat) (s : State) (e : Env) : State :=
  if s.sock_rd ∧ s.sock_can_rd then
    let s1 := s.log (Call.readsocket (B - s.sock_ptr) e.readsocket)
    match e.readsocket with
    | ReadResult.error Errno.EINTR => s1.goto PC.ssl_read
    | ReadResult.error Errno.EWOULDBLOCK => s1.goto PC.ssl_read
    | ReadResult.error _ => s1.ret (-1) 545
    | ReadResult.bytes [] =>
      let s2 : State := { s1 with sock_rd := false }
      if s2.ssl_closing = 0 ∧ s2.sock_ptr = 0 ∧ s2.ssl_wr then
        { s2 with ssl_closing := 1, pc := PC.ssl_read }
      else s2.goto PC.ssl_read
    | ReadResult.bytes (b :: bs) =>
      { s1 with
        sock_buff := store s1.sock_buff s1.sock_ptr (b :: bs),
        sock_ptr := s1.sock_ptr + ((b :: bs).length : Int),
        watchdog := 0,
        pc := PC.ssl_read }
  else s.goto PC.ssl_read

/-- Lines 563-626: `SSL_read` into the TLS-side buffer. -/
def phase_ssl_read (B : Nat) (s : State) (e : Env) : State :=
  if s.ssl_rd ∧ ((s.ssl_ptr < B ∧ s.ssl_can_rd) ∨ (e.SSL_want_write ∧ s.ssl_can_wr) ∨
      (s.check_SSL_pending ∧ e.SSL_pending)) then
    let s1 := s.log (Call.SSL_read (B - s.ssl_ptr) e.SSL_read)
    match e.SSL_read with
    | SSLResult.NONE data =>
      { s1 with
        ssl_buff := store s1.ssl_buff s1.ssl_ptr data,
        ssl_ptr := s1.ssl_ptr + (data.length : Int),
        watchdog := 0,
        pc := PC.count }
    | SSLResult.WANT_WRITE => s1.goto PC.count
    | SSLResult.WANT_READ => s1.goto PC.count
    | SSLResult.WANT_X509_LOOKUP => s1.goto PC.count
    | SSLResult.SYSCALL num errno =>
      if num < 0 then
        match errno with
        | Errno.EINTR => s1.goto PC.count
        | Errno.EAGAIN => s1.goto PC.count
        | _ => s1.ret (-1) 597
      else { s1 with ssl_rd := false, ssl_wr := false, pc := PC.count }
    | SSLResult.ZERO_RETURN =>
      let s2 : State := { s1 with ssl_rd := false }
      let s3 : State :=
        if s2.ssl_closing = 0 ∧ s2.sock_ptr = 0 ∧ s2.ssl_wr then
          { s2 with ssl_closing := 1 }
        else s2
      if s3.ssl_ptr = 0 ∧ s3.sock_wr then
        { s3.log Call.shutdown_WR with sock_wr := false, pc := PC.count }
      else s3.goto PC.count
    | SSLResult.SSL => s1.ret (-1) 621
    | SSLResult.unknown _ => s1.ret (-1) 624
  else s.goto PC.count

/-- Lines 628-643: the watchdog. -/
def phase_count (s : State) : State :=
  let s1 : State := { s with watchdog := s.watchdog + 1 }
  if s1.watchdog > 1000 then s1.ret (-1) 642 else s1.goto PC.loop

/-- One phase of the loop, chosen by the control point.  A returned run stays put. -/
def step (B : Nat) (s : State) (e : Env) : State :=
  match s.pc with
  | PC.loop => phase_wait B s e
  | PC.shutdown => phase_shutdown s e
  | PC.sock_write => phase_sock_write B s e
  | PC.ssl_write => phase_ssl_write s e
  | PC.sock_read => phase_sock_read B s e
  | PC.ssl_read => phase_ssl_read B s e
  | PC.count => phase_count s
  | PC.returned _ _ => s

/-- Lines 361-368: the state at entry of the loop.  The buffers keep whatever they
hold, everything else is initialised. -/
def start (c : Vars) : State :=
  { c with
    sock_ptr := 0, ssl_ptr := 0,
    sock_rd := true, sock_wr := true, ssl_rd := true, ssl_wr := true,
    sock_bytes := 0, ssl_bytes := 0,
    ssl_closing := 0, watchdog := 0,
    pc := PC.loop, trace := [] }

/-- Run the phases on the successive answers of the outside world. -/
def exec (B : Nat) (s : State) (es : List Env) : State :=
  es.foldl (step B) s

/-- The function `transfer()` driven by the answers `es` of the outside world: the
point of the run reached after them. -/
def transfer (B : Nat) (c : Vars) (es : List Env) : State :=
  exec B (start c) es

/-! ## Reading the trace -/

/-- Number of bytes a `writesocket` call reports as accepted (none on error). -/
def WriteResult.num : WriteResult → Nat
  | WriteResult.error _ => 0
  | WriteResult.count n => n

/-- The bytes a `readsocket` call stored (none on error). -/
def ReadResult.data : ReadResult → List Byte
  | ReadResult.error _ => []
  | ReadResult.bytes d => d

/-- What a TLS data call moved when it ended in `SSL_ERROR_NONE`, else the default. -/
def SSLResult.moved {α : Type} (dflt : α) : SSLResult α → α
  | SSLResult.NONE v => v
  | SSLResult.WANT_WRITE => dflt
  | SSLResult.WANT_READ => dflt
  | SSLResult.WANT_X509_LOOKUP => dflt
  | SSLResult.SYSCALL _ _ => dflt
  | SSLResult.ZERO_RETURN => dflt
  | SSLResult.SSL => dflt
  | SSLResult.unknown _ => dflt

/-- Whether a TLS data call ended in `SSL_ERROR_NONE`. -/
def SSLResult.is_none {α : Type} : SSLResult α → Bool
  | SSLResult.NONE _ => true
  | SSLResult.WANT_WRITE => false
  | SSLResult.WANT_READ => false
  | SSLResult.WANT_X509_LOOKUP => false
  | SSLResult.SYSCALL _ _ => false
  | SSLResult.ZERO_RETURN => false
  | SSLResult.SSL => false
  | SSLResult.unknown _ => false

/-- A data call that moves bytes reports at most the length it was given. -/
def Event.within_len (ev : Event) : Prop :=
  match ev.call with
  | Call.s_poll_wait _ _ _ => True
  | Call.SSL_shutdown _ => True
  | Call.writesocket len r => r.num = 0 ∨ (r.num : Int) ≤ len
  | Call.shutdown_WR => True
  | Call.SSL_write len r => r.moved 0 = 0 ∨ ((r.moved 0 : Nat) : Int) ≤ len
  | Call.readsocket len r => r.data.length = 0 ∨ (r.data.length : Int) ≤ len
  | Call.SSL_read len r => (r.moved []).length = 0 ∨ ((r.moved []).length : Int) ≤ len

instance : DecidablePred Event.within_len := fun ev => by
  unfold Event.within_len; split <;> infer_instance

/-- Memory safety of a recorded call: a read stores inside `[ptr, B)` of its buffer,
the compaction after a write has a non-negative length. -/
def Event.in_bounds (B : Nat) (ev : Event) : Prop :=
  match ev.call with
  | Call.s_poll_wait _ _ _ => True
  | Call.SSL_shutdown _ => True
  | Call.writesocket _ r => 0 ≤ ev.pre.ssl_ptr - (r.num : Int)
  | Call.shutdown_WR => True
  | Call.SSL_write _ r => 0 ≤ ev.pre.sock_ptr - ((r.moved 0 : Nat) : Int)
  | Call.readsocket _ r =>
    0 ≤ ev.pre.sock_ptr ∧ ev.pre.sock_ptr + (r.data.length : Int) ≤ B
  | Call.SSL_read _ r =>
    0 ≤ ev.pre.ssl_ptr ∧ ev.pre.ssl_ptr + ((r.moved []).length : Int) ≤ B

instance (B : Nat) : DecidablePred (Event.in_bounds B) := fun ev => by
  unfold Event.in_bounds; split <;> infer_instance

/-- Pointer bounds of a state together with memory safety of the calls made so far. -/
def PtrInv (B : Nat) (s : State) : Prop :=
  (0 ≤ s.sock_ptr ∧ s.sock_ptr ≤ B) ∧ (0 ≤ s.ssl_ptr ∧ s.ssl_ptr ≤ B) ∧
    ∀ ev ∈ s.trace, ev.in_bounds B

/-- The bytes delivered by a `readsocket` call. -/
def Event.from_sock (ev : Event) : List Byte :=
  match ev.call with
  | Call.s_poll_wait _ _ _ => []
  | Call.SSL_shutdown _ => []
  | Call.writesocket _ _ => []
  | Call.shutdown_WR => []
  | Call.SSL_write _ _ => []
  | Call.readsocket _ r => r.data
  | Call.SSL_read _ _ => []

/-- The bytes accepted by an `SSL_write` call: the front of the plaintext-side buffer. -/
def Event.to_ssl (ev : Event) : List Byte :=
  match ev.call with
  | Call.s_poll_wait _ _ _ => []
  | Call.SSL_shutdown _ => []
  | Call.writesocket _ _ => []
  | Call.shutdown_WR => []
  | Call.SSL_write _ r => ev.pre.sock_buff.take (r.moved 0)
  | Call.readsocket _ _ => []
  | Call.SSL_read _ _ => []

/-- The bytes delivered by an `SSL_read` call. -/
def Event.from_ssl (ev : Event) : List Byte :=
  match ev.call with
  | Call.s_poll_wait _ _ _ => []
  | Call.SSL_shutdown _ => []
  | Call.writesocket _ _ => []
  | Call.shutdown_WR => []
  | Call.SSL_write _ _ => []
  | Call.readsocket _ _ => []
  | Call.SSL_read _ r => r.moved []

/-- The bytes accepted by a `writesocket` call: the front of the TLS-side buffer. -/
def Event.to_sock (ev : Event) : List Byte :=
  match ev.call with
  | Call.s_poll_wait _ _ _ => []
  | Call.SSL_shutdown _ => []
  | Call.writesocket _ r => ev.pre.ssl_buff.take r.num
  | Call.shutdown_WR => []
  | Call.SSL_write _ _ => []
  | Call.readsocket _ _ => []
  | Call.SSL_read _ _ => []

/-- Concatenate, in trace order, the bytes that `f` reads off each call. -/
def gather (f : Event → List Byte) : List Event → List Byte
  | [] => []
  | ev :: tr => f ev ++ gather f tr

/-- The FIFO discipline of both buffers. -/
def FifoInv (B : Nat) (s : State) : Prop :=
  s.sock_buff.length = B ∧ s.ssl_buff.length = B ∧
  (0 ≤ s.sock_ptr ∧ s.sock_ptr ≤ B) ∧ (0 ≤ s.ssl_ptr ∧ s.ssl_ptr ≤ B) ∧
  gather Event.to_ssl s.trace ++ s.sock_buff.take s.sock_ptr.toNat =
    gather Event.from_sock s.trace ∧
  gather Event.to_sock s.trace ++ s.ssl_buff.take s.ssl_ptr.toNat =
    gather Event.from_ssl s.trace

/-- The call moves payload: these are the calls after which the loop resets its
watchdog (lines 465, 489, 559, 577). -/
def Event.moves (ev : Event) : Bool :=
  match ev.call with
  | Call.s_poll_wait _ _ _ => false
  | Call.SSL_shutdown _ => false
  | Call.writesocket _ r => decide (0 < r.num)
  | Call.shutdown_WR => false
  | Call.SSL_write _ r => r.is_none
  | Call.readsocket _ r => decide (0 < r.data.length)
  | Call.SSL_read _ r => r.is_none

/-- The call is `shutdown(c->sock_wfd->fd, SHUT_WR)`. -/
def Event.is_shutdown_WR (ev : Event) : Bool :=
  decide (ev.call = Call.shutdown_WR)

/-- The call is an `SSL_shutdown` that returned 1 (done). -/
def Event.is_shutdown_done (ev : Event) : Bool :=
  decide (ev.call = Call.SSL_shutdown 1)

/-- If the earlier call is an `SSL_shutdown` that returned 1, the later call is not an
`SSL_shutdown`. -/
def shutdown_final (a b : Event) : Prop :=
  a.call = Call.SSL_shutdown 1 → ∀ r, b.call ≠ Call.SSL_shutdown r

/-- The calls made while the answers `es` are consumed from `s` on. -/
def events_of (B : Nat) (s : State) (es : List Env) : List Event :=
  (exec B s es).trace.drop s.trace.length

/-- The number of loop iterations entered while the answers `es` are consumed from
`s` on: the phases run at the loop test with the test succeeding. -/
def iterations (B : Nat) : State → List Env → Nat
  | _, [] => 0
  | s, e :: es =>
    (if s.pc = PC.loop ∧ loop_guard s.toVars then 1 else 0) + iterations B (step B s e) es

/-- Whether `transfer()` has returned. -/
def PC.is_returned : PC → Bool
  | PC.returned _ _ => true
  | PC.loop => false
  | PC.shutdown => false
  | PC.sock_write => false
  | PC.ssl_write => false
  | PC.sock_read => false
  | PC.ssl_read => false
  | PC.count => false

/-- The iterations the watchdog still allows without a byte being moved. -/
def budget (s : State) : Int :=
  match s.pc with
  | PC.returned _ _ => 0
  | PC.loop => 1001 - s.watchdog
  | PC.shutdown => 1000 - s.watchdog
  | PC.sock_write => 1000 - s.watchdog
  | PC.ssl_write => 1000 - s.watchdog
  | PC.sock_read => 1000 - s.watchdog
  | PC.ssl_read => 1000 - s.watchdog
  | PC.count => 1000 - s.watchdog

/-- Range of the watchdog counter. -/
def WatchInv (s : State) : Prop :=
  0 ≤ s.watchdog ∧ (s.pc.is_returned = false → s.watchdog ≤ 1000)

/-- The result reports that the peer ended the TLS connection while `SSL_read` was
called: its close-notify (`ZERO_RETURN`) or the end of the stream (`SYSCALL` with
`num >= 0`, line 599). -/
def SSLResult.read_ended {α : Type} : SSLResult α → Bool
  | SSLResult.NONE _ => false
  | SSLResult.WANT_WRITE => false
  | SSLResult.WANT_READ => false
  | SSLResult.WANT_X509_LOOKUP => false
  | SSLResult.SYSCALL num _ => decide (0 ≤ num)
  | SSLResult.ZERO_RETURN => true
  | SSLResult.SSL => false
  | SSLResult.unknown _ => false

/-- The result reports that the peer ended the TLS connection while `SSL_write` was
called (`ZERO_RETURN`, line 518). -/
def SSLResult.write_ended {α : Type} : SSLResult α → Bool
  | SSLResult.NONE _ => false
  | SSLResult.WANT_WRITE => false
  | SSLResult.WANT_READ => false
  | SSLResult.WANT_X509_LOOKUP => false
  | SSLResult.SYSCALL _ _ => false
  | SSLResult.ZERO_RETURN => true
  | SSLResult.SSL => false
  | SSLResult.unknown _ => false

/-- The call reports that the TLS peer ended the connection. -/
def Event.peer_ended (ev : Event) : Bool :=
  match ev.call with
  | Call.s_poll_wait _ _ _ => false
  | Call.SSL_shutdown _ => false
  | Call.writesocket _ _ => false
  | Call.shutdown_WR => false
  | Call.SSL_write _ r => r.write_ended
  | Call.readsocket _ _ => false
  | Call.SSL_read _ r => r.read_ended

/-- If the call reports that the TLS peer ended the connection, it does so with the
plaintext input at its end and nothing of it left in `sock_buff`. -/
def Event.orderly (ev : Event) : Prop :=
  ev.peer_ended = true → ev.pre.sock_rd = false ∧ ev.pre.sock_ptr = 0

instance : DecidablePred Event.orderly := fun ev => by
  unfold Event.orderly; infer_instance

/-- Byte conservation: each counter is, as an `int` of 32 bits, what the read calls of
its direction delivered less what is still buffered; a closed plaintext write side
leaves nothing buffered for it; the `return 0` after the loop is taken with the loop
test false. -/
def ConsInv (s : State) : Prop :=
  s.sock_bytes = int32 (((gather Event.from_ssl s.trace).length : Int) - s.ssl_ptr) ∧
  s.ssl_bytes = int32 (((gather Event.from_sock s.trace).length : Int) - s.sock_ptr) ∧
  (s.sock_wr = false → s.ssl_ptr = 0 ∧ s.ssl_rd = false) ∧
  (s.pc = PC.returned 0 647 → ¬ loop_guard s.toVars)

/-- At the `return 0` of line 410 the last call made is the wait that timed out, made
with the program variables as they are at the return and with the timeout selected
from them. -/
def TimeoutInv (s : State) : Prop :=
  s.pc = PC.returned 0 410 →
    ∃ reg, s.trace.getLast? =
      some ⟨s.toVars, Call.s_poll_wait reg (decide (idle_selected s.toVars)) 0⟩

/-- Once the TLS shutdown is initiated, or the TLS write side is closed, the plaintext
input is at its end and `sock_buff` is empty. -/
def DrainInv (s : State) : Prop :=
  (s.ssl_closing ≠ 0 → s.sock_rd = false ∧ s.sock_ptr = 0) ∧
  (s.ssl_wr = false → s.sock_rd = false ∧ s.sock_ptr = 0)

/-- The `SSL_shutdown` discipline. -/
def ShutInv (s : State) : Prop :=
  List.Pairwise shutdown_final s.trace ∧
  ((∀ ev ∈ s.trace, ev.call ≠ Call.SSL_shutdown 1) ∨
    (s.ssl_wr = false ∧ s.ssl_closing = 3)) ∧
  0 ≤ s.ssl_closing ∧ s.ssl_closing ≤ 3

/-- The plaintext half-close discipline. -/
def HalfCloseInv (s : State) : Prop :=
  (s.sock_wr = true → s.trace.countP Event.is_shutdown_WR = 0) ∧
  s.trace.countP Event.is_shutdown_WR ≤ 1 ∧
  ∀ ev ∈ s.trace, ev.call = Call.shutdown_WR → ev.pre.ssl_rd = false ∧ ev.pre.ssl_ptr = 0

/-! ## Sample sessions -/

/-- A session whose two buffers have 8 cells. -/
def session8 : Vars where
  sock_rd := false
  sock_wr := false
  ssl_rd := false
  ssl_wr := false
  sock_ptr := 0
  ssl_ptr := 0
  sock_buff := List.replicate 8 0
  ssl_buff := List.replicate 8 0
  sock_bytes := 0
  ssl_bytes := 0
  ssl_closing := 0
  watchdog := 0
  check_SSL_pending := false
  sock_can_rd := false
  sock_can_wr := false
  ssl_can_rd := false
  ssl_can_wr := false

/-- A phase in which nothing is ready and nothing is answered. -/
def quiet : Env := {}

/-- Three iterations: 3 bytes arrive on the plaintext side; 2 of them are accepted by
TLS while 2 bytes arrive from TLS; 1 of those is written to the plaintext side. -/
def echo_answers : List Env :=
  [ { s_poll_wait := 1, sock_can_rd := true }, quiet, quiet, quiet,
    { readsocket := ReadResult.bytes [1, 2, 3] }, quiet, quiet,
    { s_poll_wait := 2, ssl_can_wr := true, ssl_can_rd := true }, quiet, quiet,
    { SSL_write := SSLResult.NONE 2 }, quiet, { SSL_read := SSLResult.NONE [7, 8] }, quiet,
    { s_poll_wait := 1, sock_can_wr := true }, quiet,
    { writesocket := WriteResult.count 1 }, quiet, quiet, quiet, quiet ]

/-- One iteration: 5 bytes arrive on the plaintext side, then `SSL_read` reports the
end of the TLS connection (`SSL_ERROR_SYSCALL` with `num == 0`); the loop test fails. -/
def tls_eof_answers : List Env :=
  [ { s_poll_wait := 2, sock_can_rd := true, ssl_can_rd := true }, quiet, quiet, quiet,
    { readsocket := ReadResult.bytes [1, 2, 3, 4, 5] },
    { SSL_read := SSLResult.SYSCALL 0 Errno.other }, quiet, quiet ]

/-- One iteration: the plaintext side reports end of file and, in the same iteration,
`SSL_read` reports the close-notify of the peer; the loop test fails. -/
def both_close_answers : List Env :=
  [ { s_poll_wait := 2, sock_can_rd := true, ssl_can_rd := true }, quiet, quiet, quiet,
    { readsocket := ReadResult.bytes [] },
    { SSL_read := SSLResult.ZERO_RETURN }, quiet, quiet ]

/-- Three iterations: 5 bytes arrive on the plaintext side; the plaintext side reports
end of file while TLS is not writable; then the wait times out. -/
def stalled_answers : List Env :=
  [ { s_poll_wait := 1, sock_can_rd := true }, quiet, quiet, quiet,
    { readsocket := ReadResult.bytes [1, 2, 3, 4, 5] }, quiet, quiet,
    { s_poll_wait := 1, sock_can_rd := true }, quiet, quiet, quiet,
    { readsocket := ReadResult.bytes [] }, quiet, quiet,
    { s_poll_wait := 0 } ]

/-- One iteration in which the wait reports one ready descriptor and no call moves a
byte. -/
def idle_answers : List Env :=
  [ { s_poll_wait := 1, ssl_can_rd := true }, quiet, quiet, quiet, quiet,
    { SSL_read := SSLResult.WANT_READ }, quiet ]

/-- Five iterations of an orderly session: 3 bytes arrive on the plaintext side and 2
from TLS; the 3 bytes are accepted by TLS, the 2 bytes are written to the plaintext
side and the plaintext side reports end of file; `SSL_shutdown` returns 1; `SSL_read`
reports the close-notify of the peer; the loop test fails. -/
def orderly_answers : List Env :=
  [ { s_poll_wait := 2, sock_can_rd := true, ssl_can_rd := true }, quiet, quiet, quiet,
    { readsocket := ReadResult.bytes [1, 2, 3] },
    { SSL_read := SSLResult.NONE [7, 8] }, quiet,
    { s_poll_wait := 3, sock_can_rd := true, sock_can_wr := true, ssl_can_wr := true },
    quiet, { writesocket := WriteResult.count 2 }, { SSL_write := SSLResult.NONE 3 },
    { readsocket := ReadResult.bytes [] }, quiet, quiet,
    { s_poll_wait := 1, ssl_can_wr := true }, { SSL_shutdown := 1 },
    quiet, quiet, quiet, quiet, quiet,
    { s_poll_wait := 1, ssl_can_rd := true }, quiet, quiet, quiet, quiet,
    { SSL_read := SSLResult.ZERO_RETURN }, quiet,
    quiet ]

/-- Two iterations: the plaintext side reports end of file with an empty buffer; then
the wait, made with the close timeout, times out. -/
def close_timeout_answers : List Env :=
  [ { s_poll_wait := 1, sock_can_rd := true }, quiet, quiet, quiet,
    { readsocket := ReadResult.bytes [] }, quiet, quiet,
    { s_poll_wait := 1, ssl_can_wr := true }, { SSL_shutdown := 1 },
    quiet, quiet, quiet, quiet, quiet,
    { s_poll_wait := 0 } ]

/-- A state at the watchdog phase of an iteration, with the counter at 1000. -/
def tripping : State where
  toVars := { session8 with watchdog := 1000 }
  pc := PC.count
  trace := []

/-! ## Line-oriented negotiation (`protocol.c`, helpers of `network.c`) -/

/-- The bytes of a C string literal. -/
def ascii (s : String) : List Byte :=
  s.toList.map Char.toNat

/-- The C library `isspace` in the "C" locale. -/
def isspace (b : Byte) : Bool :=
  decide (b = 32 ∨ (9 ≤ b ∧ b ≤ 13))

/-- The C library `tolower` in the "C" locale. -/
def tolower (b : Byte) : Byte :=
  if 65 ≤ b ∧ b ≤ 90 then b + 32 else b

/-- The C string held by a character array: its bytes up to the first NUL. -/
def cstr (mem : List Byte) : List Byte :=
  mem.takeWhile (fun b => decide (b ≠ 0))

/-- The test `strncmp(a, b, n) == 0` on C strings. -/
def strncmp_eq (a b : List Byte) (n : Nat) : Bool :=
  decide (a.take n = b.take n)

/-- One attempt of a helper to read from a descriptor: the result of `s_poll_wait`,
and the result of `readsocket` when the wait returned 1. -/
structure ReadEvent where
  s_poll_wait : Int := 1
  readsocket : ReadResult := ReadResult.bytes []
  deriving DecidableEq

/-- One attempt of a helper to write to a descriptor: the result of `s_poll_wait`,
and the result of `writesocket` when the wait returned 1. -/
structure WriteEvent where
  s_poll_wait : Int := 1
  writesocket : WriteResult := WriteResult.count 0
  deriving DecidableEq

/-- A descriptor as the helpers see it: what the coming read attempts and write
attempts will meet, and the bytes it has accepted so far.  When the read attempts are
used up the wait times out; when the write attempts are used up the descriptor accepts
whatever it is given. -/
structure Desc where
  input : List ReadEvent := []
  script : List WriteEvent := []
  written : List Byte := []
  deriving DecidableEq

/-- The three descriptors of a session. -/
inductive Fd
  | remote_fd
  | local_rfd
  | local_wfd
  deriving DecidableEq

/-- A call of one of the two line helpers, with its return value.  For `fdscanf` the
caller's buffer after the call is recorded, for `fdprintf` the bytes handed to
`write_blocking` (none when the call gave up before writing). -/
inductive Action
  | fdscanf (fd : Fd) (format : List Byte) (ret : Int) (buffer : List Byte)
  | fdprintf (fd : Fd) (format : List Byte) (args : List (List Byte))
      (line : Option (List Byte)) (ret : Int)
  deriving DecidableEq

/-- The part of `CLI` the negotiation uses, the answer of the zero-timeout `select` of
`RFC2487`, and the helper calls made so far. -/
structure CLI where
  remote_fd : Desc := {}
  local_rfd : Desc := {}
  local_wfd : Desc := {}
  select_ret : Int := 0
  actions : List Action := []
  deriving DecidableEq

/-- The descriptor behind a name. -/
def CLI.get (c : CLI) : Fd → Desc
  | Fd.remote_fd => c.remote_fd
  | Fd.local_rfd => c.local_rfd
  | Fd.local_wfd => c.local_wfd

/-- Replace the descriptor behind a name. -/
def CLI.set (c : CLI) (fd : Fd) (d : Desc) : CLI :=
  match fd with
  | Fd.remote_fd => { c with remote_fd := d }
  | Fd.local_rfd => { c with local_rfd := d }
  | Fd.local_wfd => { c with local_wfd := d }

/-- Record a helper call. -/
def CLI.log (c : CLI) (a : Action) : CLI :=
  { c with actions := c.actions ++ [a] }

/-! ### `sscanf` and `vsnprintf` of the C library, for the directives used -/

/-- A directive of a `scanf` format: white space, an ordinary character, or the
conversion `%[^c]`.  Other conversions are not modelled. -/
inductive Directive
  | space
  | lit (b : Byte)
  | scanset_not (b : Byte)
  | unsupported
  deriving DecidableEq

/-- Split a `scanf` format into directives. -/
def parse_format : List Byte → List Directive
  | [] => []
  | b :: rest =>
    if b = 37 then
      match rest with
      | 91 :: 94 :: x :: 93 :: tail => Directive.scanset_not x :: parse_format tail
      | _ => [Directive.unsupported]
    else if isspace b then Directive.space :: parse_format rest
    else Directive.lit b :: parse_format rest

/-- The value `sscanf` returns when the input ends: `EOF` before the first conversion,
else the number of conversions made. -/
def input_failure (converted : Nat) : Int :=
  if converted = 0 then -1 else converted

/-- Execute the directives on the input (ISO C 7.19.6.2): returns the return value of
`sscanf` and the string assigned to the argument, if one was assigned. -/
def scan_directives : List Directive → List Byte → Nat → Option (List Byte) →
    Int × Option (List Byte)
  | [], _, n, a => (n, a)
  | Directive.space :: ds, inp, n, a =>
    scan_directives ds (inp.dropWhile isspace) n a
  | Directive.lit _ :: _, [], n, a => (input_failure n, a)
  | Directive.lit b :: ds, x :: inp, n, a =>
    if x = b then scan_directives ds inp n a else (n, a)
  | Directive.scanset_not _ :: _, [], n, a => (input_failure n, a)
  | Directive.scanset_not b :: ds, x :: inp, n, a =>
    if x = b then (n, a)
    else
      scan_directives ds ((x :: inp).dropWhile (fun y => decide (y ≠ b))) (n + 1)
        (some ((x :: inp).takeWhile (fun y => decide (y ≠ b))))
  | Directive.unsupported :: _, _, n, a => (n, a)

/-- The call `sscanf(line, format, buffer)`: the return value and the buffer after
the call. -/
def sscanf (line format buffer : List Byte) : Int × List Byte :=
  let r := scan_directives (parse_format format) line 0 none
  (r.1, r.2.getD buffer)

/-- The text produced by a `printf` format with string arguments: `%%` and `%s` are
the conversions modelled; for any other conversion, or a `%s` without an argument, the
result is undefined (`none`). -/
def vsnprintf : List Byte → List (List Byte) → Option (List Byte)
  | [], _ => some []
  | b :: rest, args =>
    if b = 37 then
      match rest, args with
      | 37 :: tail, _ => (vsnprintf tail args).map (fun t => 37 :: t)
      | 115 :: tail, a :: more => (vsnprintf tail more).map (fun t => a ++ t)
      | _, _ => none
    else (vsnprintf rest args).map (fun t => b :: t)

/-! ### The helpers of `network.c` -/

/-- Outcome of `write_blocking`: return value, bytes accepted by the descriptor, and
the write attempts left. -/
structure WriteRun where
  ret : Int
  accepted : List Byte
  rest : List WriteEvent
  deriving DecidableEq

/-- The function `write_blocking` (network.c, lines 244-276) on the bytes `data` with
length argument `len`. -/
def write_blocking : List WriteEvent → List Byte → Int → List Byte → WriteRun
  | [], data, len, acc =>
    if len > 0 then ⟨0, acc ++ data.take len.toNat, []⟩ else ⟨0, acc, []⟩
  | ev :: script, data, len, acc =>
    if len > 0 then
      if ev.s_poll_wait = 1 then
        match ev.writesocket with
        | WriteResult.error _ => ⟨-1, acc, script⟩
        | WriteResult.count n =>
          write_blocking script (data.drop n) (len - n) (acc ++ data.take n)
      else ⟨-1, acc, script⟩
    else ⟨0, acc, ev :: script⟩

/-- The read loop of `fdscanf` (network.c, lines 347-378) with `n` iterations left:
the bytes stored in `line[0..ptr)` when the loop is left (none when the function
returns -1 from inside the loop), and the read attempts left. -/
def read_line : Nat → List ReadEvent → List Byte → Option (List Byte) × List ReadEvent
  | 0, input, acc => (some acc, input)
  | _ + 1, [], _ => (none, [])
  | n + 1, ev :: input, acc =>
    if ev.s_poll_wait = 1 then
      match ev.readsocket with
      | ReadResult.error _ => (none, input)
      | ReadResult.bytes [] => (none, input)
      | ReadResult.bytes (b :: _) =>
        if b = 13 then read_line n input (acc ++ [b])
        else if b = 10 then (some acc, input)
        else read_line n input (acc ++ [b])
    else (none, input)

/-- The line that `fdscanf` goes on to match against its format: the C string in
`line` after the read loop. -/
def scanned_line (STRLEN : Nat) (input : List ReadEvent) : Option (List Byte) :=
  (read_line (STRLEN - 1) input []).1.map cstr

/-- The function `fdscanf` (network.c, lines 342-390): return value and the caller's
buffer after the call. -/
def fdscanf (STRLEN : Nat) (c : CLI) (fd : Fd) (format buffer : List Byte) :
    Int × List Byte × CLI :=
  let r := read_line (STRLEN - 1) (c.get fd).input []
  let c1 := c.set fd { c.get fd with input := r.2 }
  match r.1 with
  | none => (-1, buffer, c1.log (Action.fdscanf fd format (-1) buffer))
  | some mem =>
    let line := cstr mem
    let first := sscanf line format buffer
    if first.1 ≥ 0 then (first.1, first.2, c1.log (Action.fdscanf fd format first.1 first.2))
    else
      let again := sscanf (line.map tolower) (format.map tolower) buffer
      (again.1, again.2, c1.log (Action.fdscanf fd format again.1 again.2))

/-- The function `fdprintf` (network.c, lines 315-340), built with `vsnprintf`.  The
C function does not test what `vsnprintf` returns; for a format whose expansion is
undefined the C standard leaves open what is written, and the model records such a call
as handing over nothing and ending with -1.  What is proved about `fdprintf` is stated
for formats with a defined expansion. -/
def fdprintf (STRLEN : Nat) (c : CLI) (fd : Fd) (format : List Byte)
    (args : List (List Byte)) : Int × CLI :=
  match vsnprintf format args with
  | none => (-1, c.log (Action.fdprintf fd format args none (-1)))
  | some text =>
    let len : Int := (text.length : Int) + 2
    if len ≥ STRLEN then (-1, c.log (Action.fdprintf fd format args none (-1)))
    else
      let line := text ++ [13, 10]
      let wr := write_blocking (c.get fd).script line len []
      let c1 := c.set fd
        { c.get fd with script := wr.rest, written := (c.get fd).written ++ wr.accepted }
      if wr.ret < 0 then (-1, c1.log (Action.fdprintf fd format args (some line) (-1)))
      else (len, c1.log (Action.fdprintf fd format args (some line) len))

/-! ### The negotiation routines of `protocol.c` -/

/-- Outcome of a `do ... while` loop of `smtp_client`: still running when the
iterations allowed are used up, left through `return -1`, or left through its test with
the last line read. -/
inductive Loop
  | running
  | failed (c : CLI)
  | done (line : List Byte) (c : CLI)
  deriving DecidableEq

/-- The first loop of `smtp_client` (lines 93-98): copy the multi-line greeting to the
local side. -/
def copy_greeting (STRLEN : Nat) : Nat → CLI → List Byte → Loop
  | 0, _, _ => Loop.running
  | fuel + 1, c, line =>
    let r := fdscanf STRLEN c Fd.remote_fd (ascii "%[^\n]") line
    if r.1 < 0 then Loop.failed r.2.2
    else
      let w := fdprintf STRLEN r.2.2 Fd.local_wfd r.2.1 []
      if w.1 < 0 then Loop.failed w.2
      else if strncmp_eq r.2.1 (ascii "220-") 4 then copy_greeting STRLEN fuel w.2 r.2.1
      else Loop.done r.2.1 w.2

/-- The second and third loop of `smtp_client` (lines 102-105, 113-116): skip the
lines of a multi-line reply that begin with `cont`. -/
def skip_reply (STRLEN : Nat) (cont : List Byte) : Nat → CLI → List Byte → Loop
  | 0, _, _ => Loop.running
  | fuel + 1, c, line =>
    let r := fdscanf STRLEN c Fd.remote_fd (ascii "%[^\n]") line
    if r.1 < 0 then Loop.failed r.2.2
    else if strncmp_eq r.2.1 cont 4 then skip_reply STRLEN cont fuel r.2.2 r.2.1
    else Loop.done r.2.1 r.2.2

/-- The function `smtp_client` (lines 90-122), each loop being given `fuel`
iterations; `line` is what the array `line` holds at entry.  No return value when a
loop is still running after `fuel` iterations. -/
def smtp_client_fuel (STRLEN : Nat) (fuel : Nat) (c : CLI) (line : List Byte) :
    Option Int × CLI :=
  match copy_greeting STRLEN fuel c line with
  | Loop.running => (none, c)
  | Loop.failed c1 => (some (-1), c1)
  | Loop.done line1 c1 =>
    let w1 := fdprintf STRLEN c1 Fd.remote_fd (ascii "EHLO localhost") []
    if w1.1 < 0 then (some (-1), w1.2)
    else
      match skip_reply STRLEN (ascii "250-") fuel w1.2 line1 with
      | Loop.running => (none, w1.2)
      | Loop.failed c2 => (some (-1), c2)
      | Loop.done line2 c2 =>
        if strncmp_eq line2 (ascii "250 ") 4 = false then (some (-1), c2)
        else
          let w2 := fdprintf STRLEN c2 Fd.remote_fd (ascii "STARTTLS") []
          if w2.1 < 0 then (some (-1), w2.2)
          else
            match skip_reply STRLEN (ascii "220-") fuel w2.2 line2 with
            | Loop.running => (none, w2.2)
            | Loop.failed c3 => (some (-1), c3)
            | Loop.done line3 c3 =>
              if strncmp_eq line3 (ascii "220 ") 4 = false then (some (-1), c3)
              else (some 0, c3)

/-- The function `smtp_client`: every loop iteration that does not return uses up at
least one read attempt of the remote descriptor, so one iteration more than there are
read attempts is enough. -/
def smtp_client (STRLEN : Nat) (c : CLI) (line : List Byte) : Option Int × CLI :=
  smtp_client_fuel STRLEN (c.remote_fd.input.length + 1) c line

/-- The function `RFC2487` (lines 224-242) on the result of its `select`. -/
def RFC2487 (select_ret : Int) : Int :=
  if select_ret = 0 then 1
  else if select_ret = 1 then 0
  else -1

/-- The function `smtp_server` (lines 124-151). -/
def smtp_server (STRLEN : Nat) (c : CLI) (line : List Byte) : Int × CLI :=
  if RFC2487 c.select_ret = 0 then (0, c)
  else
    let r1 := fdscanf STRLEN c Fd.remote_fd (ascii "220%[^\n]") line
    if r1.1 ≠ 1 then (-1, r1.2.2)
    else
      let w1 := fdprintf STRLEN r1.2.2 Fd.local_wfd (ascii "220%s + stunnel") [r1.2.1]
      if w1.1 < 0 then (-1, w1.2)
      else
        let r2 := fdscanf STRLEN w1.2 Fd.local_rfd (ascii "EHLO %[^\n]") r1.2.1
        if r2.1 ≠ 1 then (-1, r2.2.2)
        else
          let w2 := fdprintf STRLEN r2.2.2 Fd.local_wfd (ascii "250-%s Welcome") [r2.2.1]
          if w2.1 < 0 then (-1, w2.2)
          else
            let w3 := fdprintf STRLEN w2.2 Fd.local_wfd (ascii "250 STARTTLS") []
            if w3.1 < 0 then (-1, w3.2)
            else
              let r3 := fdscanf STRLEN w3.2 Fd.local_rfd (ascii "STARTTLS") r2.2.1
              if r3.1 < 0 then (-1, r3.2.2)
              else
                let w4 := fdprintf STRLEN r3.2.2 Fd.local_wfd (ascii "220 Go ahead")
                  [r3.2.1]
                if w4.1 < 0 then (-1, w4.2)
                else (0, w4.2)

/-- The function `pop3_client` (lines 153-171). -/
def pop3_client (STRLEN : Nat) (c : CLI) (line : List Byte) : Int × CLI :=
  let r1 := fdscanf STRLEN c Fd.remote_fd (ascii "%[^\n]") line
  if strncmp_eq r1.2.1 (ascii "+OK ") 4 = false then (-1, r1.2.2)
  else
    let w1 := fdprintf STRLEN r1.2.2 Fd.local_wfd r1.2.1 []
    if w1.1 < 0 then (-1, w1.2)
    else
      let w2 := fdprintf STRLEN w1.2 Fd.remote_fd (ascii "STLS") []
      if w2.1 < 0 then (-1, w2.2)
      else
        let r2 := fdscanf STRLEN w2.2 Fd.remote_fd (ascii "%[^\n]") r1.2.1
        if strncmp_eq r2.2.1 (ascii "+OK ") 4 = false then (-1, r2.2.2)
        else (0, r2.2.2)

/-- The function `nntp_client` (lines 178-196). -/
def nntp_client (STRLEN : Nat) (c : CLI) (line : List Byte) : Int × CLI :=
  let r1 := fdscanf STRLEN c Fd.remote_fd (ascii "%[^\n]") line
  if strncmp_eq r1.2.1 (ascii "200 ") 4 = false ∧
      strncmp_eq r1.2.1 (ascii "201 ") 4 = false then (-1, r1.2.2)
  else
    let w1 := fdprintf STRLEN r1.2.2 Fd.local_wfd r1.2.1 []
    if w1.1 < 0 then (-1, w1.2)
    else
      let w2 := fdprintf STRLEN w1.2 Fd.remote_fd (ascii "STARTTLS") []
      if w2.1 < 0 then (-1, w2.2)
      else
        let r2 := fdscanf STRLEN w2.2 Fd.remote_fd (ascii "%[^\n]") r1.2.1
        if strncmp_eq r2.2.1 (ascii "382 ") 4 = false then (-1, r2.2.2)
        else (0, r2.2.2)

/-- The functions `smb_client`, `smb_server`, `pop3_server`, `nntp_server`,
`telnet_client`, `telnet_server`: log and return -1. -/
def unsupported (c : CLI) : Int × CLI :=
  (-1, c)

/-- A routine that has returned, as seen by `negotiate`. -/
def returned (r : Int × CLI) : Option Int × Option CLI :=
  (some r.1, some r.2)

/-- The function `negotiate` (lines 38-78); `protocol` and `c` are none for a null
pointer.  No return value only when a loop of `smtp_client` is still running. -/
def negotiate (STRLEN : Nat) (protocol : Option (List Byte)) (client : Bool)
    (c : Option CLI) (line : List Byte) : Option Int × Option CLI :=
  match protocol with
  | none => (some 0, c)
  | some name =>
    match c with
    | none => (some 0, none)
    | some cli =>
      if name = ascii "smb" then
        if client then returned (unsupported cli) else returned (unsupported cli)
      else if name = ascii "smtp" then
        if client then
          ((smtp_client STRLEN cli line).1, some (smtp_client STRLEN cli line).2)
        else returned (smtp_server STRLEN cli line)
      else if name = ascii "pop3" then
        if client then returned (pop3_client STRLEN cli line)
        else returned (unsupported cli)
      else if name = ascii "nntp" then
        if client then returned (nntp_client STRLEN cli line)
        else returned (unsupported cli)
      else if name = ascii "telnet" then
        if client then returned (unsupported cli) else returned (unsupported cli)
      else (some (-1), some cli)

/-! ### Sample dialogues -/

/-- Read attempts that deliver the bytes of `s`, one byte per attempt. -/
def feed (s : String) : List ReadEvent :=
  (ascii s).map (fun b => { readsocket := ReadResult.bytes [b] })

/-- A read attempt that meets the end of the stream (`readsocket` returns 0). -/
def at_eof : ReadEvent :=
  { readsocket := ReadResult.bytes [] }

/-- POP3: the greeting, and after `STLS` the end of the stream instead of a reply. -/
def pop3_no_reply : CLI :=
  { remote_fd := { input := feed "+OK ready\r\n" ++ [at_eof] } }

/-- POP3: a greeting that holds the two characters `%%`, ended by a bare LF. -/
def pop3_percent : CLI :=
  { remote_fd := { input := feed "+OK 100%% up\n+OK begin\n" } }

/-- SMTP server: the client answers the 250 reply with `QUIT`. -/
def smtp_quit : CLI :=
  { remote_fd := { input := feed "220 mail ready\r\n" },
    local_rfd := { input := feed "EHLO example.org\r\nQUIT\r\n" } }

/-- SMTP server: a complete RFC 2487 dialogue. -/
def smtp_dialogue : CLI :=
  { remote_fd := { input := feed "220 mail ready\r\n" },
    local_rfd := { input := feed "EHLO example.org\r\nSTARTTLS\r\n" } }

/-- SMTP client: scenario S1 of the specification. -/
def smtp_s1 : CLI :=
  { remote_fd :=
      { input := feed "220-one\r\n220 ready\r\n250-hello\r\n250 OK\r\n220 go\r\n" } }

/-- SMTP client: scenario S1 of the specification with `554 no` as the reply to
`STARTTLS`. -/
def smtp_s1_refused : CLI :=
  { remote_fd :=
      { input := feed "220-one\r\n220 ready\r\n250-hello\r\n250 OK\r\n554 no\r\n" } }

/-- NNTP client: scenario S3 of the specification, with the reply to `STARTTLS`. -/
def nntp_s3 : CLI :=
  { remote_fd := { input := feed "200 ok\r\n382 go\r\n" } }

/-! ### Dialogues given by the lines the remote sends -/

/-- Read attempts that deliver the given bytes, one byte per attempt (`fdscanf` asks
`readsocket` for one byte at a time). -/
def deliver (bytes : List Byte) : List ReadEvent :=
  bytes.map (fun b => { readsocket := ReadResult.bytes [b] })

/-- The remote sends the given lines, each followed by LF; a line sent with CR LF has
the CR as its last byte. -/
def send_lines : List (List Byte) → List ReadEvent
  | [] => []
  | l :: ls => deliver (l ++ [10]) ++ send_lines ls

/-- A line of text that one call of `fdscanf` reads whole: not empty, free of NUL and
LF, and with its LF met before the read loop stops at `STRLEN - 1` bytes. -/
def text_line (STRLEN : Nat) (l : List Byte) : Prop :=
  l ≠ [] ∧ 0 ∉ l ∧ 10 ∉ l ∧ l.length + 1 < STRLEN

instance (STRLEN : Nat) (l : List Byte) : Decidable (text_line STRLEN l) := by
  unfold text_line; infer_instance

/-- The write attempt succeeds: the wait reports the descriptor writable and
`writesocket` returns a count. -/
def WriteEvent.succeeds (ev : WriteEvent) : Bool :=
  decide (ev.s_poll_wait = 1) &&
    match ev.writesocket with
    | WriteResult.count _ => true
    | WriteResult.error _ => false

/-- Every write attempt on the descriptor succeeds. -/
def Desc.writable (d : Desc) : Prop :=
  ∀ ev ∈ d.script, ev.succeeds = true

instance (d : Desc) : Decidable d.writable := by
  unfold Desc.writable; infer_instance

/-- The line can be relayed by `fdprintf(c, fd, line)`: taken as a format it has a
defined expansion, and the expansion followed by CR LF fits the buffer of `fdprintf`. -/
def relays (STRLEN : Nat) (l : List Byte) : Bool :=
  match vsnprintf l [] with
  | some text => decide (text.length + 2 < STRLEN)
  | none => false

/-- The bytes that relaying the lines by `fdprintf(c, fd, line)` puts on the
descriptor. -/
def relayed : List (List Byte) → List Byte
  | [] => []
  | l :: ls => (vsnprintf l []).getD [] ++ [13, 10] ++ relayed ls

/-- The last line of a multi-line reply at the head of `lines`: the first line that
does not begin with the continuation mark `cont`. -/
def reply_end (cont : List Byte) : List (List Byte) → Option (List Byte)
  | [] => none
  | l :: ls => if strncmp_eq l cont 4 then reply_end cont ls else some l

/-- The lines that follow the multi-line reply at the head of `lines`. -/
def after_reply (cont : List Byte) : List (List Byte) → List (List Byte)
  | [] => []
  | l :: ls => if strncmp_eq l cont 4 then after_reply cont ls else ls

/-- The lines of the multi-line reply at the head of `lines`, its last line
included. -/
def reply_lines (cont : List Byte) : List (List Byte) → List (List Byte)
  | [] => []
  | l :: ls => if strncmp_eq l cont 4 then l :: reply_lines cont ls else [l]

/-- Specification of the SMTP client dialogue (RFC 2487) on the lines the remote
sends: the greeting comes first, the reply to `EHLO` follows it, the reply to
`STARTTLS` follows that; the dialogue is accepted when the reply to `EHLO` ends with a
line beginning with `250 ` and the reply to `STARTTLS` ends with a line beginning with
`220 `. -/
def smtp_accepts (lines : List (List Byte)) : Bool :=
  match reply_end (ascii "250-") (after_reply (ascii "220-") lines),
    reply_end (ascii "220-")
      (after_reply (ascii "250-") (after_reply (ascii "220-") lines)) with
  | some ehlo, some starttls =>
    strncmp_eq ehlo (ascii "250 ") 4 && strncmp_eq starttls (ascii "220 ") 4
  | _, _ => false

/-- Specification of what the SMTP client sends to the remote: `EHLO localhost` once
the greeting is complete, and `STARTTLS` once the reply to `EHLO` has ended with a line
beginning with `250 `. -/
def smtp_commands (lines : List (List Byte)) : List Byte :=
  match reply_end (ascii "220-") lines with
  | none => []
  | some _ =>
    ascii "EHLO localhost\r\n" ++
      match reply_end (ascii "250-") (after_reply (ascii "220-") lines) with
      | some ehlo => if strncmp_eq ehlo (ascii "250 ") 4 then ascii "STARTTLS\r\n" else []
      | none => []

/-- The lines of scenario S1 as the remote sends them. -/
def s1_lines : List (List Byte) :=
  [ascii "220-one\r", ascii "220 ready\r", ascii "250-hello\r", ascii "250 OK\r",
    ascii "220 go\r"]

/-- The lines of scenario S1 with `554 no` as the reply to `STARTTLS`. -/
def s1_refused_lines : List (List Byte) :=
  [ascii "220-one\r", ascii "220 ready\r", ascii "250-hello\r", ascii "250 OK\r",
    ascii "554 no\r"]

/-- A reply to `EHLO` in one line of 261 bytes plus CR: `250-`, 251 times `x`, and
`250 OK`. -/
def long_line : List Byte :=
  ascii "250-" ++ List.replicate 251 120 ++ ascii "250 OK\r"

/-- SMTP client: a greeting, the one-line reply `long_line` to `EHLO`, and the line
`220 go`. -/
def smtp_long : CLI :=
  { remote_fd := { input := send_lines [ascii "220 ready\r", long_line, ascii "220 go\r"] } }

/-- NNTP client: scenario S3 with the greeting `201 ok`. -/
def nntp_s3_201 : CLI :=
  { remote_fd := { input := feed "201 ok\r\n382 go\r\n" } }

/-- NNTP client: scenario S3 with the greeting `400 bye`. -/
def nntp_s3_400 : CLI :=
  { remote_fd := { input := feed "400 bye\r\n" } }

/-! ### Reading the helper calls -/

/-- What `fdprintf` hands to `write_blocking`: the formatted text followed by CR LF,
or nothing when the expansion is undefined or too long. -/
def handed (STRLEN : Nat) (format : List Byte) (args : List (List Byte)) :
    Option (List Byte) :=
  match vsnprintf format args with
  | none => none
  | some text =>
    if (text.length : Int) + 2 ≥ STRLEN then none else some (text ++ [13, 10])

/-- The helper calls made between two states of a session. -/
def new_actions (c later : CLI) : List Action :=
  later.actions.drop c.actions.length

/-- The helper call succeeded: it did not return a negative value. -/
def Action.ok : Action → Prop
  | Action.fdscanf _ _ ret _ => 0 ≤ ret
  | Action.fdprintf _ _ _ _ ret => 0 ≤ ret

instance : DecidablePred Action.ok := fun a => by
  cases a <;> unfold Action.ok <;> infer_instance

/-! ### Sample sessions for the TLS data calls and the TLS shutdown -/

/-- Two iterations: TLS is readable and `SSL_read` ends in `WANT_READ`; TLS is readable
again, nothing is buffered for TLS, and `SSL_want_read` answers yes. -/
def want_read_answers : List Env :=
  [ { s_poll_wait := 1, ssl_can_rd := true }, quiet, quiet, quiet, quiet,
    { SSL_read := SSLResult.WANT_READ }, quiet,
    { s_poll_wait := 1, ssl_can_rd := true, SSL_want_read := true },
    { SSL_want_read := true }, { SSL_want_read := true },
    { SSL_want_read := true, SSL_write := SSLResult.WANT_READ } ]

/-- Two iterations: 5 bytes arrive on the plaintext side and 8 bytes from TLS fill the
TLS-side buffer; then TLS is writable, `SSL_write` ends in `WANT_WRITE`, and
`SSL_want_write` answers yes. -/
def want_write_answers : List Env :=
  [ { s_poll_wait := 2, sock_can_rd := true, ssl_can_rd := true }, quiet, quiet, quiet,
    { readsocket := ReadResult.bytes [1, 2, 3, 4, 5] },
    { SSL_read := SSLResult.NONE [11, 12, 13, 14, 15, 16, 17, 18] }, quiet,
    { s_poll_wait := 1, ssl_can_wr := true }, quiet, quiet,
    { SSL_write := SSLResult.WANT_WRITE },
    { SSL_want_write := true },
    { SSL_want_write := true, SSL_read := SSLResult.WANT_WRITE } ]

/-- Three iterations: 2 bytes arrive from TLS; the plaintext side reports end of file
and, in the same iteration, `SSL_read` reports the end of the TLS connection; then the
plaintext side is writable and `SSL_shutdown` fails. -/
def dead_tls_answers : List Env :=
  [ { s_poll_wait := 1, ssl_can_rd := true }, quiet, quiet, quiet, quiet,
    { SSL_read := SSLResult.NONE [7, 8] }, quiet,
    { s_poll_wait := 2, sock_can_rd := true, ssl_can_rd := true }, quiet, quiet, quiet,
    { readsocket := ReadResult.bytes [] },
    { SSL_read := SSLResult.SYSCALL 0 Errno.other }, quiet,
    { s_poll_wait := 1, sock_can_wr := true },
    { SSL_shutdown := -1 } ]

/-! ## The poll abstraction of `network.c` -/

/-- The mask `events` of a `struct pollfd`, reduced to the two bits that `s_poll_add`
sets: `events = 0` clears both, `events |= POLLIN` sets the first. -/
structure Events where
  POLLIN : Bool := false
  POLLOUT : Bool := false
  deriving DecidableEq

/-- The fields `fd` and `events` of a `struct pollfd`. -/
structure pollfd where
  fd : Int
  events : Events
  deriving DecidableEq

/-- The assignment `events |= POLLIN` on a slot. -/
def pollfd.or_POLLIN (p : pollfd) : pollfd :=
  { fd := p.fd, events := { POLLIN := true, POLLOUT := p.events.POLLOUT } }

/-- The assignment `events |= POLLOUT` on a slot. -/
def pollfd.or_POLLOUT (p : pollfd) : pollfd :=
  { fd := p.fd, events := { POLLIN := p.events.POLLIN, POLLOUT := true } }

/-- The type `s_poll_set` built with `HAVE_POLL`.  The array `ufds` is the memory from
its first slot on: slots `0 .. MAX_FD-1` are the array (`MAX_FD` is the bound tested at
line 90), a slot at `MAX_FD` or beyond lies outside of it. -/
structure Poll.s_poll_set where
  ufds : Nat → pollfd
  nfds : Nat

/-- The function `s_poll_zero` (lines 81-83). -/
def Poll.s_poll_zero (fds : Poll.s_poll_set) : Poll.s_poll_set :=
  { fds with nfds := 0 }

/-- The loop of lines 88-89 with `k` iterations left, at index `i`: the value of `i`
when the loop is left.  The loop runs at most `nfds` times. -/
def Poll.scan (fds : Poll.s_poll_set) (fd : Int) : Nat → Nat → Nat
  | 0, i => i
  | k + 1, i =>
    if i < fds.nfds ∧ (fds.ufds i).fd ≠ fd then Poll.scan fds fd k (i + 1) else i

/-- The function `s_poll_add` (lines 85-104). -/
def Poll.s_poll_add (MAX_FD : Nat) (fds : Poll.s_poll_set) (fd rd wr : Int) :
    Poll.s_poll_set :=
  let i := Poll.scan fds fd fds.nfds 0
  if i ≥ MAX_FD then fds
  else
    let fds1 : Poll.s_poll_set :=
      if i = fds.nfds then
        { ufds := Function.update fds.ufds i { fd := fd, events := {} },
          nfds := fds.nfds + 1 }
      else fds
    let fds2 : Poll.s_poll_set :=
      if rd ≠ 0 then
        { fds1 with ufds := Function.update fds1.ufds i (fds1.ufds i).or_POLLIN }
      else fds1
    if wr ≠ 0 then
      { fds2 with ufds := Function.update fds2.ufds i (fds2.ufds i).or_POLLOUT }
    else fds2

/-- An `fd_set` of `<sys/select.h>`: one bit per descriptor number. -/
abbrev fd_set := Int → Bool

/-- The macro `FD_ZERO`. -/
def FD_ZERO : fd_set := fun _ => false

/-- The macro `FD_SET`; it is defined for descriptors `0 ≤ fd < FD_SETSIZE` only. -/
def FD_SET (FD_SETSIZE : Nat) (fd : Int) (set : fd_set) : Option fd_set :=
  if 0 ≤ fd ∧ fd < FD_SETSIZE then some (Function.update set fd true) else none

/-- The macro `FD_ISSET`. -/
def FD_ISSET (fd : Int) (set : fd_set) : Bool :=
  set fd

/-- The type `s_poll_set` built without `HAVE_POLL`: the fields that `s_poll_zero` and
`s_poll_add` write. -/
structure Select.s_poll_set where
  irfds : fd_set
  iwfds : fd_set
  max : Int

/-- The function `s_poll_zero` (lines 140-144). -/
def Select.s_poll_zero : Select.s_poll_set :=
  { irfds := FD_ZERO, iwfds := FD_ZERO, max := 0 }

/-- The function `s_poll_add` (lines 146-153); no value when an `FD_SET` is undefined. -/
def Select.s_poll_add (FD_SETSIZE : Nat) (fds : Select.s_poll_set) (fd rd wr : Int) :
    Option Select.s_poll_set :=
  match (if rd ≠ 0 then FD_SET FD_SETSIZE fd fds.irfds else some fds.irfds) with
  | none => none
  | some irfds =>
    match (if wr ≠ 0 then FD_SET FD_SETSIZE fd fds.iwfds else some fds.iwfds) with
    | none => none
    | some iwfds =>
      some { irfds := irfds, iwfds := iwfds, max := if fd > fds.max then fd else fds.max }

/-- The arguments of one `s_poll_add` call. -/
structure Add where
  fd : Int
  rd : Int
  wr : Int
  deriving DecidableEq

/-- A call on a poll set: `s_poll_zero` or `s_poll_add`. -/
inductive SetCall
  | s_poll_zero
  | s_poll_add (a : Add)
  deriving DecidableEq

/-- A sequence of `s_poll_add` calls on a descriptor-array set. -/
def Poll.adds (MAX_FD : Nat) (fds : Poll.s_poll_set) (l : List Add) : Poll.s_poll_set :=
  l.foldl (fun s a => Poll.s_poll_add MAX_FD s a.fd a.rd a.wr) fds

/-- A sequence of `s_poll_zero` and `s_poll_add` calls on a descriptor-array set. -/
def Poll.calls (MAX_FD : Nat) (fds : Poll.s_poll_set) (l : List SetCall) :
    Poll.s_poll_set :=
  l.foldl (fun s c =>
    match c with
    | SetCall.s_poll_zero => Poll.s_poll_zero s
    | SetCall.s_poll_add a => Poll.s_poll_add MAX_FD s a.fd a.rd a.wr) fds

/-- A sequence of `s_poll_add` calls on a bit-set set. -/
def Select.adds (FD_SETSIZE : Nat) : Select.s_poll_set → List Add → Option Select.s_poll_set
  | fds, [] => some fds
  | fds, a :: l =>
    match Select.s_poll_add FD_SETSIZE fds a.fd a.rd a.wr with
    | none => none
    | some fds1 => Select.adds FD_SETSIZE fds1 l

/-- The descriptors `poll` is asked to watch for reading: those of the slots
`ufds[0 .. nfds)` with `POLLIN` in `events`. -/
def Poll.read_set (fds : Poll.s_poll_set) (fd : Int) : Prop :=
  ∃ i, i < fds.nfds ∧ (fds.ufds i).fd = fd ∧ (fds.ufds i).events.POLLIN = true

/-- The descriptors `poll` is asked to watch for writing. -/
def Poll.write_set (fds : Poll.s_poll_set) (fd : Int) : Prop :=
  ∃ i, i < fds.nfds ∧ (fds.ufds i).fd = fd ∧ (fds.ufds i).events.POLLOUT = true

instance (fds : Poll.s_poll_set) : DecidablePred (Poll.read_set fds) := fun fd => by
  unfold Poll.read_set; infer_instance

instance (fds : Poll.s_poll_set) : DecidablePred (Poll.write_set fds) := fun fd => by
  unfold Poll.write_set; infer_instance

/-- The descriptor has a slot among `ufds[0 .. nfds)`. -/
def Poll.has_slot (fds : Poll.s_poll_set) (fd : Int) : Prop :=
  ∃ i, i < fds.nfds ∧ (fds.ufds i).fd = fd

/-- The invariant of the descriptor-array set: at most `MAX_FD` slots in use, holding
pairwise distinct descriptors. -/
def Poll.Inv (MAX_FD : Nat) (fds : Poll.s_poll_set) : Prop :=
  fds.nfds ≤ MAX_FD ∧
  ∀ i j, i < fds.nfds → j < fds.nfds → (fds.ufds i).fd = (fds.ufds j).fd → i = j

/-- One answer of `poll` inside `s_poll_wait`: its return value, whether
`get_last_socket_error()` is `EINTR`, and whether the signal pipe is readable. -/
structure PollAnswer where
  retval : Int
  EINTR : Bool := false
  signal_pipe : Bool := false
  deriving DecidableEq

/-- Outcome of `s_poll_wait`: the return value (none while it is still retrying when
the answers are used up) and the timeout argument of every `poll` call made. -/
structure PollRun where
  ret : Option Int
  timeouts : List Int
  deriving DecidableEq

/-- The function `s_poll_wait` built with `HAVE_POLL` (lines 124-136), `timeout` being
an `int` of 32 bits. -/
def Poll.s_poll_wait (timeout : Int) : List PollAnswer → List Int → PollRun
  | [], made => ⟨none, made⟩
  | a :: answers, made =>
    let ms : Int := if timeout < 0 then -1 else int32 (1000 * timeout)
    let retry : Bool := decide (timeout < 0 ∧ a.retval > 0 ∧ a.signal_pipe = true)
    if retry = true ∨ (a.retval < 0 ∧ a.EINTR = true) then
      Poll.s_poll_wait timeout answers (made ++ [ms])
    else ⟨some a.retval, made ++ [ms]⟩

/-- The timeout set up by `s_poll_wait` built without `HAVE_POLL` (lines 171-177): no
`timeval` for a negative timeout, else `tv_sec` and `tv_usec`. -/
def Select.timeval (timeout : Int) : Option (Int × Int) :=
  if timeout < 0 then none else some (timeout, 0)

/-! ## Connection establishment and cleanup (`client.c`) -/

/-- The values of `get_last_socket_error()` that line 958 tells apart. -/
inductive ConnectError
  | EINPROGRESS
  | EWOULDBLOCK
  | other
  deriving DecidableEq

/-- The answers of the outside world to one pass of the loop of `connect_remote`: the
results of `socket`, `alloc_fd`, `bind`, `connect`, `get_last_socket_error` and
`connect_wait`. -/
structure ConnectEnv where
  socket : Int := 3
  alloc_fd : Int := 0
  bind : Int := 0
  connect : Int := -1
  error : ConnectError := ConnectError.other
  connect_wait : Int := -1
  deriving DecidableEq

/-- The fields `cur` and `num` of a `SOCKADDR_LIST`; an address is named by its index
in `addr`. -/
structure SOCKADDR_LIST where
  cur : Nat
  num : Nat
  deriving DecidableEq

/-- Outcome of the loop of `connect_remote`: the return value, the cursor of the list,
and the indices of the addresses copied at line 930, in order. -/
structure ConnectRun where
  ret : Int
  cur : Nat
  tried : List Nat
  deriving DecidableEq

/-- The loop of lines 929-967 on a list of `num` addresses, with `k` passes left before
the test `i < num` fails, at counter `i` and cursor `cur`.  `bind_num` is
`c->bind_addr.num`; `i` and the two fields of the list are 16-bit unsigned in the C
code, which `num` passes cannot overflow. -/
def connect_loop (bind_num : Nat) (num : Nat) (env : Nat → ConnectEnv) :
    Nat → Nat → Nat → List Nat → ConnectRun
  | 0, _, cur, tried => ⟨-1, cur, tried⟩
  | k + 1, i, cur, tried =>
    let e := env i
    let tried1 := tried ++ [cur]
    let cur1 := (cur + 1) % num
    if e.socket < 0 then ⟨-1, cur1, tried1⟩
    else if e.alloc_fd ≠ 0 then ⟨-1, cur1, tried1⟩
    else if bind_num ≠ 0 ∧ e.bind < 0 then ⟨-1, cur1, tried1⟩
    else if e.connect = 0 then ⟨e.socket, cur1, tried1⟩
    else if e.error ≠ ConnectError.EINPROGRESS ∧ e.error ≠ ConnectError.EWOULDBLOCK then
      connect_loop bind_num num env k (i + 1) cur1 tried1
    else if e.connect_wait = 0 then ⟨e.socket, cur1, tried1⟩
    else connect_loop bind_num num env k (i + 1) cur1 tried1

/-- Outcome of `connect_remote`: the return value, the pre-resolved list
`c->opt->remote_addr` after the call, and the indices of the addresses tried. -/
structure Connect where
  ret : Int
  remote_addr : SOCKADDR_LIST
  tried : List Nat
  deriving DecidableEq

/-- The function `connect_remote` (lines 911-969).  `resolved` is what `name2addrlist`
delivers in delayed-lookup mode (nothing when no host is resolved); `env i` answers pass
`i` of the loop. -/
def connect_remote (delayed_lookup : Bool) (resolved : Option SOCKADDR_LIST)
    (remote_addr : SOCKADDR_LIST) (bind_num : Nat) (env : Nat → ConnectEnv) : Connect :=
  if delayed_lookup then
    match resolved with
    | none => ⟨-1, remote_addr, []⟩
    | some l =>
      let r := connect_loop bind_num l.num env l.num 0 l.cur []
      ⟨r.ret, remote_addr, r.tried⟩
  else
    let r := connect_loop bind_num remote_addr.num env remote_addr.num 0 remote_addr.cur []
    ⟨r.ret, { remote_addr with cur := r.cur }, r.tried⟩

/-- Successive sessions on one pre-resolved list of `num` addresses, session `k` being
answered by the `k`-th element of `envs`: the cursor at the start of each session, that
is the index of its first candidate. -/
def starting_candidates (bind_num num : Nat) : Nat → List (Nat → ConnectEnv) → List Nat
  | _, [] => []
  | cur, env :: envs =>
    cur :: starting_candidates bind_num num
      (connect_remote false none ⟨cur, num⟩ bind_num env).remote_addr.cur envs

/-- The pass ends `connect_remote`: it does not reach one of the two places (lines 962
and 966) that go on to the next address. -/
def ConnectEnv.ends (bind_num : Nat) (e : ConnectEnv) : Prop :=
  e.socket < 0 ∨ e.alloc_fd ≠ 0 ∨ (bind_num ≠ 0 ∧ e.bind < 0) ∨ e.connect = 0 ∨
    ((e.error = ConnectError.EINPROGRESS ∨ e.error = ConnectError.EWOULDBLOCK) ∧
      e.connect_wait = 0)

instance (bind_num : Nat) : DecidablePred (ConnectEnv.ends bind_num) := fun e => by
  unfold ConnectEnv.ends; infer_instance

/-- The pass fails at `connect`: socket, `alloc_fd` and `bind` succeed, and either
`connect` fails for good or the wait for its completion fails. -/
def ConnectEnv.fails_at_connect (bind_num : Nat) (e : ConnectEnv) : Prop :=
  0 ≤ e.socket ∧ e.alloc_fd = 0 ∧ (bind_num ≠ 0 → 0 ≤ e.bind) ∧ e.connect ≠ 0 ∧
    ((e.error ≠ ConnectError.EINPROGRESS ∧ e.error ≠ ConnectError.EWOULDBLOCK) ∨
      e.connect_wait ≠ 0)

instance (bind_num : Nat) : DecidablePred (ConnectEnv.fails_at_connect bind_num) :=
  fun e => by unfold ConnectEnv.fails_at_connect; infer_instance

/-- A pass whose `connect` is refused. -/
def refused : ConnectEnv := {}

/-- A pass whose `connect` is in progress and completes. -/
def completes : ConnectEnv :=
  { error := ConnectError.EINPROGRESS, connect_wait := 0 }

/-- A session in which the first address refuses and the second one connects. -/
def second_connects : Nat → ConnectEnv :=
  fun i => if i = 0 then refused else completes

/-- The type `FD` of a session endpoint: the fields that `cleanup` reads. -/
structure FD where
  fd : Int
  is_socket : Int
  deriving DecidableEq

/-- The fields of `CLI` that `cleanup` reads; `ssl` tells whether `c->ssl` is set. -/
structure Session where
  ssl : Bool
  remote_fd : FD
  local_rfd : FD
  local_wfd : FD
  deriving DecidableEq

/-- A call made by `cleanup`; `setsockopt_SO_LINGER` carries the descriptor and the
fields `l_onoff` and `l_linger` of the option value. -/
inductive CleanupCall
  | SSL_set_shutdown_SENT_RECEIVED
  | SSL_free
  | ERR_remove_state
  | setsockopt_SO_LINGER (fd : Int) (l_onoff l_linger : Int)
  | closesocket (fd : Int)
  deriving DecidableEq

/-- The function `reset` (lines 1008-1016). -/
def reset (fd : Int) : List CleanupCall :=
  [CleanupCall.setsockopt_SO_LINGER fd 1 0]

/-- Lines 651-656 of `cleanup`: the TLS object. -/
def cleanup_ssl (c : Session) : List CleanupCall :=
  if c.ssl then
    [CleanupCall.SSL_set_shutdown_SENT_RECEIVED, CleanupCall.SSL_free,
      CleanupCall.ERR_remove_state]
  else []

/-- Lines 657-662 of `cleanup`: the remote socket. -/
def cleanup_remote (c : Session) (error : Int) : List CleanupCall :=
  if c.remote_fd.fd ≥ 0 then
    (if error ≠ 0 ∧ c.remote_fd.is_socket ≠ 0 then reset c.remote_fd.fd else []) ++
      [CleanupCall.closesocket c.remote_fd.fd]
  else []

/-- Lines 663-675 of `cleanup`: the local socket, or the two local descriptors. -/
def cleanup_local (c : Session) (error : Int) : List CleanupCall :=
  if c.local_rfd.fd ≥ 0 then
    if c.local_rfd.fd = c.local_wfd.fd then
      (if error ≠ 0 ∧ c.local_rfd.is_socket ≠ 0 then reset c.local_rfd.fd else []) ++
        [CleanupCall.closesocket c.local_rfd.fd]
    else
      (if error ≠ 0 ∧ c.local_rfd.is_socket ≠ 0 then reset c.local_rfd.fd else []) ++
        (if error ≠ 0 ∧ c.local_wfd.is_socket ≠ 0 then reset c.local_wfd.fd else [])
  else []

/-- The function `cleanup` (lines 650-676): the calls it makes, in order. -/
def cleanup (c : Session) (error : Int) : List CleanupCall :=
  cleanup_ssl c ++ cleanup_remote c error ++ cleanup_local c error

/-- No reset of a descriptor comes after its `closesocket`. -/
def close_is_last (x y : CleanupCall) : Prop :=
  ∀ fd a b, x = CleanupCall.closesocket fd → y ≠ CleanupCall.setsockopt_SO_LINGER fd a b

/-- The endpoints of a session. -/
def Session.endpoints (c : Session) : List FD :=
  [c.remote_fd, c.local_rfd, c.local_wfd]

/-- A session after a failed service: TLS set up, the remote socket 7, the local
socket 5 used for reading and writing. -/
def socket_session : Session :=
  { ssl := true, remote_fd := ⟨7, 1⟩, local_rfd := ⟨5, 1⟩, local_wfd := ⟨5, 1⟩ }

/-! ## Lemmas on traces and buffers -/

@[simp] theorem within_len_simps :
    (∀ v a b c, Event.within_len ⟨v, Call.s_poll_wait a b c⟩ = True) ∧
    (∀ v a, Event.within_len ⟨v, Call.SSL_shutdown a⟩ = True) ∧
    (∀ v, Event.within_len ⟨v, Call.shutdown_WR⟩ = True) ∧
    (∀ v len r, Event.within_len ⟨v, Call.writesocket len r⟩ =
      (r.num = 0 ∨ (r.num : Int) ≤ len)) ∧
    (∀ v len r, Event.within_len ⟨v, Call.SSL_write len r⟩ =
      (r.moved 0 = 0 ∨ ((r.moved 0 : Nat) : Int) ≤ len)) ∧
    (∀ v len r, Event.within_len ⟨v, Call.readsocket len r⟩ =
      (r.data.length = 0 ∨ (r.data.length : Int) ≤ len)) ∧
    (∀ v len r, Event.within_len ⟨v, Call.SSL_read len r⟩ =
      ((r.moved []).length = 0 ∨ ((r.moved []).length : Int) ≤ len)) := by
  refine ⟨?_, ?_, ?_, ?_, ?_, ?_, ?_⟩ <;> intros <;> rfl

@[simp] theorem in_bounds_simps (B : Nat) :
    (∀ v a b c, Event.in_bounds B ⟨v, Call.s_poll_wait a b c⟩ = True) ∧
    (∀ v a, Event.in_bounds B ⟨v, Call.SSL_shutdown a⟩ = True) ∧
    (∀ v, Event.in_bounds B ⟨v, Call.shutdown_WR⟩ = True) ∧
    (∀ v len r, Event.in_bounds B ⟨v, Call.writesocket len r⟩ =
      (0 ≤ v.ssl_ptr - (r.num : Int))) ∧
    (∀ v len r, Event.in_bounds B ⟨v, Call.SSL_write len r⟩ =
      (0 ≤ v.sock_ptr - ((r.moved 0 : Nat) : Int))) ∧
    (∀ v len r, Event.in_bounds B ⟨v, Call.readsocket len r⟩ =
      (0 ≤ v.sock_ptr ∧ v.sock_ptr + (r.data.length : Int) ≤ B)) ∧
    (∀ v len r, Event.in_bounds B ⟨v, Call.SSL_read len r⟩ =
      (0 ≤ v.ssl_ptr ∧ v.ssl_ptr + ((r.moved []).length : Int) ≤ B)) := by
  refine ⟨?_, ?_, ?_, ?_, ?_, ?_, ?_⟩ <;> intros <;> rfl

@[simp] theorem gather_nil (f : Event → List Byte) : gather f [] = [] := rfl

@[simp] theorem gather_append (f : Event → List Byte) (a b : List Event) :
    gather f (a ++ b) = gather f a ++ gather f b := by
  induction a with
  | nil => rfl
  | cons x a ih => simp [gather, ih]

@[simp] theorem gather_cons (f : Event → List Byte) (ev : Event) (tr : List Event) :
    gather f (ev :: tr) = f ev ++ gather f tr := rfl

@[simp] theorem from_sock_simps :
    (∀ v a b c, Event.from_sock ⟨v, Call.s_poll_wait a b c⟩ = []) ∧
    (∀ v a, Event.from_sock ⟨v, Call.SSL_shutdown a⟩ = []) ∧
    (∀ v, Event.from_sock ⟨v, Call.shutdown_WR⟩ = []) ∧
    (∀ v len r, Event.from_sock ⟨v, Call.writesocket len r⟩ = []) ∧
    (∀ v len r, Event.from_sock ⟨v, Call.SSL_write len r⟩ = []) ∧
    (∀ v len r, Event.from_sock ⟨v, Call.readsocket len r⟩ = r.data) ∧
    (∀ v len r, Event.from_sock ⟨v, Call.SSL_read len r⟩ = []) := by
  refine ⟨?_, ?_, ?_, ?_, ?_, ?_, ?_⟩ <;> intros <;> rfl

@[simp] theorem to_ssl_simps :
    (∀ v a b c, Event.to_ssl ⟨v, Call.s_poll_wait a b c⟩ = []) ∧
    (∀ v a, Event.to_ssl ⟨v, Call.SSL_shutdown a⟩ = []) ∧
    (∀ v, Event.to_ssl ⟨v, Call.shutdown_WR⟩ = []) ∧
    (∀ v len r, Event.to_ssl ⟨v, Call.writesocket len r⟩ = []) ∧
    (∀ v len r, Event.to_ssl ⟨v, Call.SSL_write len r⟩ = v.sock_buff.take (r.moved 0)) ∧
    (∀ v len r, Event.to_ssl ⟨v, Call.readsocket len r⟩ = []) ∧
    (∀ v len r, Event.to_ssl ⟨v, Call.SSL_read len r⟩ = []) := by
  refine ⟨?_, ?_, ?_, ?_, ?_, ?_, ?_⟩ <;> intros <;> rfl

@[simp] theorem from_ssl_simps :
    (∀ v a b c, Event.from_ssl ⟨v, Call.s_poll_wait a b c⟩ = []) ∧
    (∀ v a, Event.from_ssl ⟨v, Call.SSL_shutdown a⟩ = []) ∧
    (∀ v, Event.from_ssl ⟨v, Call.shutdown_WR⟩ = []) ∧
    (∀ v len r, Event.from_ssl ⟨v, Call.writesocket len r⟩ = []) ∧
    (∀ v len r, Event.from_ssl ⟨v, Call.SSL_write len r⟩ = []) ∧
    (∀ v len r, Event.from_ssl ⟨v, Call.readsocket len r⟩ = []) ∧
    (∀ v len r, Event.from_ssl ⟨v, Call.SSL_read len r⟩ = r.moved []) := by
  refine ⟨?_, ?_, ?_, ?_, ?_, ?_, ?_⟩ <;> intros <;> rfl

@[simp] theorem to_sock_simps :
    (∀ v a b c, Event.to_sock ⟨v, Call.s_poll_wait a b c⟩ = []) ∧
    (∀ v a, Event.to_sock ⟨v, Call.SSL_shutdown a⟩ = []) ∧
    (∀ v, Event.to_sock ⟨v, Call.shutdown_WR⟩ = []) ∧
    (∀ v len r, Event.to_sock ⟨v, Call.writesocket len r⟩ = v.ssl_buff.take r.num) ∧
    (∀ v len r, Event.to_sock ⟨v, Call.SSL_write len r⟩ = []) ∧
    (∀ v len r, Event.to_sock ⟨v, Call.readsocket len r⟩ = []) ∧
    (∀ v len r, Event.to_sock ⟨v, Call.SSL_read len r⟩ = []) := by
  refine ⟨?_, ?_, ?_, ?_, ?_, ?_, ?_⟩ <;> intros <;> rfl

theorem memmove_take (buf : List Byte) (n : Nat) (p : Int)
    (hn : (n : Int) ≤ p) (hp : p ≤ buf.length) :
    buf.take n ++ (memmove buf n (p - n)).take (p - n).toNat = buf.take p.toNat := by
  obtain ⟨k, rfl⟩ := Int.eq_ofNat_of_zero_le (le_trans (Int.ofNat_nonneg n) hn)
  have h1 : n ≤ k := by omega
  have h2 : k ≤ buf.length := by omega
  have h3 : ((k : Int) - (n : Int)).toNat = k - n := by omega
  have h4 : ((buf.drop n).take (k - n)).length = k - n := by
    simp only [List.length_take, List.length_drop]; omega
  have key : ((buf.drop n).take (k - n) ++ buf.drop (k - n)).take (k - n) =
      (buf.drop n).take (k - n) := by
    rw [List.take_append_of_le_length (by omega)]
    exact List.take_of_length_le (by omega)
  have h5 : k = n + (k - n) := by omega
  simp only [memmove, h3, Int.toNat_ofNat]
  rw [key]
  conv_rhs => rw [h5, List.take_add]

theorem store_length (buf d : List Byte) (p : Int) (h0 : 0 ≤ p)
    (hp : p + d.length ≤ buf.length) : (store buf p d).length = buf.length := by
  obtain ⟨k, rfl⟩ := Int.eq_ofNat_of_zero_le h0
  simp only [store, Int.toNat_ofNat, List.length_append, List.length_take, List.length_drop]
  omega

theorem store_take (buf d : List Byte) (p : Int) (h0 : 0 ≤ p)
    (hp : p + d.length ≤ buf.length) :
    (store buf p d).take (p + d.length).toNat = buf.take p.toNat ++ d := by
  obtain ⟨k, rfl⟩ := Int.eq_ofNat_of_zero_le h0
  have h3 : ((k : Int) + (d.length : Int)).toNat = k + d.length := by omega
  have h4 : (buf.take k ++ d).length = k + d.length := by
    simp only [List.length_append, List.length_take]; omega
  simp only [store, h3, Int.toNat_ofNat]
  rw [List.take_append_of_le_length (by omega)]
  exact List.take_of_length_le (by omega)

theorem memmove_length_eq (buf : List Byte) (m q : Int) (h0 : 0 ≤ m) (hq : 0 ≤ q)
    (h : m + q ≤ buf.length) : (memmove buf m q).length = buf.length := by
  obtain ⟨n, rfl⟩ := Int.eq_ofNat_of_zero_le h0
  obtain ⟨k, rfl⟩ := Int.eq_ofNat_of_zero_le hq
  simp only [memmove, Int.toNat_ofNat, List.length_append, List.length_take,
    List.length_drop]
  omega

theorem fifo_drain (acc inp buf : List Byte) (n : Nat) (p : Int) (hp : p = n)
    (h : acc ++ buf.take p.toNat = inp) : acc ++ buf.take n = inp := by
  subst hp
  simpa using h

theorem fifo_write (acc inp buf : List Byte) (n k : Nat) (m p : Int) (hm : m = n)
    (hk : k = (p - m).toNat) (hn : m ≤ p) (hp : p ≤ buf.length)
    (h : acc ++ buf.take p.toNat = inp) :
    acc ++ (buf.take n ++ (memmove buf m (p - m)).take k) = inp := by
  subst hm hk
  rw [memmove_take buf n p hn hp]
  exact h

theorem fifo_read (acc inp buf d : List Byte) (k : Nat) (p : Int) (h0 : 0 ≤ p)
    (hk : k = (p + d.length).toNat) (hp : p + d.length ≤ buf.length)
    (h : acc ++ buf.take p.toNat = inp) :
    acc ++ (store buf p d).take k = inp ++ d := by
  subst hk
  rw [store_take buf d p h0 hp, ← List.append_assoc, h]

/-! ## Lifting step invariants to runs -/

theorem exec_cons (B : Nat) (s : State) (e : Env) (es : List Env) :
    exec B s (e :: es) = exec B (step B s e) es := rfl

theorem exec_append (B : Nat) (s : State) (es es2 : List Env) :
    exec B s (es ++ es2) = exec B (exec B s es) es2 := by
  simp [exec, List.foldl_append]

theorem transfer_append (B : Nat) (c : Vars) (es es2 : List Env) :
    transfer B c (es ++ es2) = exec B (transfer B c es) es2 := by
  simp [transfer, exec_append]

/-- An invariant that every phase preserves, as long as the recorded calls satisfy
`ok`, holds along every run whose recorded calls satisfy `ok`. -/
theorem exec_guarded (B : Nat) (ok : Event → Prop) (P : State → Prop)
    (hstep : ∀ s e, ((∀ ev ∈ s.trace, ok ev) → P s) →
      (∀ ev ∈ (step B s e).trace, ok ev) → P (step B s e)) :
    ∀ (es : List Env) (s : State), ((∀ ev ∈ s.trace, ok ev) → P s) →
      (∀ ev ∈ (exec B s es).trace, ok ev) → P (exec B s es) := by
  intro es
  induction es with
  | nil => intro s h hok; exact h hok
  | cons e es ih => intro s h; exact ih (step B s e) (hstep s e h)

/-- An invariant that every phase preserves holds along every run. -/
theorem exec_invariant (B : Nat) (P : State → Prop)
    (hstep : ∀ s e, P s → P (step B s e)) :
    ∀ (es : List Env) (s : State), P s → P (exec B s es) := by
  intro es
  induction es with
  | nil => intro s h; exact h
  | cons e es ih => intro s h; exact ih (step B s e) (hstep s e h)

/-! ## Pointer bounds -/

theorem step_ptr (B : Nat) (s : State) (e : Env)
    (h : (∀ ev ∈ s.trace, ev.within_len) → PtrInv B s) :
    (∀ ev ∈ (step B s e).trace, ev.within_len) → PtrInv B (step B s e) := by
  unfold step PtrInv at *
  split
  · simp only [phase_wait, State.log, State.ret, State.goto]; repeat' split
    all_goals intro h2
    all_goals simp_all [or_imp, forall_and]
  · simp only [phase_shutdown, State.log, State.ret, State.goto]; repeat' split
    all_goals intro h2
    all_goals simp_all [or_imp, forall_and]
  · simp only [phase_sock_write, State.log, State.ret, State.goto]; repeat' split
    all_goals intro h2
    all_goals simp_all [or_imp, forall_and, WriteResult.num]
    all_goals omega
  · simp only [phase_ssl_write, State.log, State.ret, State.goto]; repeat' split
    all_goals intro h2
    all_goals simp_all [or_imp, forall_and, SSLResult.moved, -List.length_eq_zero]
    all_goals omega
  · simp only [phase_sock_read, State.log, State.ret, State.goto]; repeat' split
    all_goals intro h2
    all_goals simp_all [or_imp, forall_and, ReadResult.data, -List.length_eq_zero]
    all_goals omega
  · simp only [phase_ssl_read, State.log, State.ret, State.goto]; repeat' split
    all_goals intro h2
    all_goals simp_all [or_imp, forall_and, SSLResult.moved, -List.length_eq_zero]
    all_goals omega
  · simp only [phase_count, State.log, State.ret, State.goto]; repeat' split
    all_goals simp_all
  · simp_all

/-- C3. Assuming every read/write call reports at most the length it was given, at
every point of every run of `transfer()` (loop test and after every phase) both fill
levels lie in `0 .. BUFFSIZE`; every read stores its bytes inside `[ptr, BUFFSIZE)` of
its own buffer and every compaction after a write has a non-negative length. -/
theorem transfer_ptr_bounds (B : Nat) (c : Vars) (es : List Env)
    (hlen : ∀ ev ∈ (transfer B c es).trace, ev.within_len) :
    (0 ≤ (transfer B c es).sock_ptr ∧ (transfer B c es).sock_ptr ≤ B) ∧
    (0 ≤ (transfer B c es).ssl_ptr ∧ (transfer B c es).ssl_ptr ≤ B) ∧
    ∀ ev ∈ (transfer B c es).trace, ev.in_bounds B := by
  have h0 : (∀ ev ∈ (start c).trace, ev.within_len) → PtrInv B (start c) := by
    intro _
    simp [PtrInv, start]
  exact exec_guarded B Event.within_len (PtrInv B) (step_ptr B) es (start c) h0 hlen

/-- C3, instance: the three-iteration sample session. -/
theorem transfer_ptr_bounds_witness :
    (∀ ev ∈ (transfer 8 session8 echo_answers).trace, ev.within_len) ∧
    ((0 ≤ (transfer 8 session8 echo_answers).sock_ptr ∧
        (transfer 8 session8 echo_answers).sock_ptr ≤ (8 : Nat)) ∧
      (0 ≤ (transfer 8 session8 echo_answers).ssl_ptr ∧
        (transfer 8 session8 echo_answers).ssl_ptr ≤ (8 : Nat)) ∧
      ∀ ev ∈ (transfer 8 session8 echo_answers).trace, ev.in_bounds 8) :=
  ⟨by decide, transfer_ptr_bounds 8 session8 echo_answers (by decide)⟩

/-! ## FIFO discipline -/

theorem step_fifo (B : Nat) (s : State) (e : Env)
    (h : (∀ ev ∈ s.trace, ev.within_len) → FifoInv B s) :
    (∀ ev ∈ (step B s e).trace, ev.within_len) → FifoInv B (step B s e) := by
  unfold step FifoInv at *
  split
  · simp only [phase_wait, State.log, State.ret, State.goto]; repeat' split
    all_goals intro h2
    all_goals simp_all [or_imp, forall_and]
  · simp only [phase_shutdown, State.log, State.ret, State.goto]; repeat' split
    all_goals intro h2
    all_goals simp_all [or_imp, forall_and]
  · simp only [phase_sock_write, State.log, State.ret, State.goto]; repeat' split
    all_goals intro h2
    all_goals simp_all [or_imp, forall_and, WriteResult.num, -List.length_eq_zero]
    all_goals obtain ⟨i1, i2, ⟨i3, i4⟩, ⟨i5, i6⟩, i7, i8⟩ := h
    · refine ⟨?_, fifo_drain _ _ _ _ _ (by push_cast; omega) i8⟩
      rw [memmove_length_eq _ _ _ (by omega) (by omega) (by omega)]; exact i2
    · refine ⟨?_, by omega, ?_⟩
      · rw [memmove_length_eq _ _ _ (by omega) (by omega) (by omega)]; exact i2
      · refine fifo_write _ _ _ _ _ _ _ ?_ ?_ ?_ ?_ i8
        all_goals first | rfl | omega
  · simp only [phase_ssl_write, State.log, State.ret, State.goto]; repeat' split
    all_goals intro h2
    all_goals simp_all [or_imp, forall_and, SSLResult.moved, -List.length_eq_zero]
    all_goals obtain ⟨i1, i2, ⟨i3, i4⟩, ⟨i5, i6⟩, i7, i8⟩ := h
    · refine ⟨?_, fifo_drain _ _ _ _ _ (by omega) i7⟩
      rw [memmove_length_eq _ _ _ (by omega) (by omega) (by omega)]; exact i1
    · refine ⟨?_, by omega, ?_⟩
      · rw [memmove_length_eq _ _ _ (by omega) (by omega) (by omega)]; exact i1
      · refine fifo_write _ _ _ _ _ _ _ ?_ ?_ ?_ ?_ i7
        all_goals first | rfl | omega
  · simp only [phase_sock_read, State.log, State.ret, State.goto]; repeat' split
    all_goals intro h2
    all_goals simp_all [or_imp, forall_and, ReadResult.data, -List.length_eq_zero]
    all_goals obtain ⟨i1, i2, ⟨i3, i4⟩, ⟨i5, i6⟩, i7, i8⟩ := h
    · refine ⟨?_, by omega, ?_⟩
      · rw [store_length _ _ _ i3 (by simp only [List.length_cons]; push_cast; omega)]
        exact i1
      · refine fifo_read _ _ _ _ _ _ i3 ?_ ?_ i7
        all_goals simp only [List.length_cons]
        all_goals first | rfl | omega
  · simp only [phase_ssl_read, State.log, State.ret, State.goto]; repeat' split
    all_goals intro h2
    all_goals simp_all [or_imp, forall_and, SSLResult.moved, -List.length_eq_zero]
    all_goals obtain ⟨i1, i2, ⟨i3, i4⟩, ⟨i5, i6⟩, i7, i8⟩ := h
    · refine ⟨?_, by omega, ?_⟩
      · rw [store_length _ _ _ i5 (by omega)]; exact i2
      · refine fifo_read _ _ _ _ _ _ i5 ?_ ?_ i8
        all_goals first | rfl | omega
  · simp only [phase_count, State.log, State.ret, State.goto]; repeat' split
    all_goals simp_all
  · simp_all

/-- C1. With the results of every read/write call as inputs, buffers of `BUFFSIZE`
cells, and every call that moves bytes reporting at most the length it was given: at
every point of every run of `transfer()` and for each direction, the bytes accepted so
far by the write calls, followed by the first `sock_ptr` (resp. `ssl_ptr`) bytes of the
buffer, are exactly the bytes delivered so far by the read calls of that direction, in
the same order.  Hence the output of each direction is an initial segment of its
input. -/
theorem transfer_fifo (B : Nat) (c : Vars) (es : List Env)
    (hsock : c.sock_buff.length = B) (hssl : c.ssl_buff.length = B)
    (hlen : ∀ ev ∈ (transfer B c es).trace, ev.within_len) :
    (gather Event.to_ssl (transfer B c es).trace ++
        (transfer B c es).sock_buff.take (transfer B c es).sock_ptr.toNat =
      gather Event.from_sock (transfer B c es).trace) ∧
    (gather Event.to_sock (transfer B c es).trace ++
        (transfer B c es).ssl_buff.take (transfer B c es).ssl_ptr.toNat =
      gather Event.from_ssl (transfer B c es).trace) ∧
    gather Event.to_ssl (transfer B c es).trace <+: gather Event.from_sock (transfer B c es).trace ∧
    gather Event.to_sock (transfer B c es).trace <+: gather Event.from_ssl (transfer B c es).trace := by
  have h0 : (∀ ev ∈ (start c).trace, ev.within_len) → FifoInv B (start c) := by
    intro _
    simp [FifoInv, start, hsock, hssl]
  obtain ⟨_, _, _, _, h1, h2⟩ :=
    exec_guarded B Event.within_len (FifoInv B) (step_fifo B) es (start c) h0 hlen
  exact ⟨h1, h2, ⟨_, h1⟩, ⟨_, h2⟩⟩

/-- C1, instance: the three-iteration sample session. -/
theorem transfer_fifo_witness :
    (session8.sock_buff.length = 8 ∧ session8.ssl_buff.length = 8 ∧
      ∀ ev ∈ (transfer 8 session8 echo_answers).trace, ev.within_len) ∧
    ((gather Event.to_ssl (transfer 8 session8 echo_answers).trace ++
        (transfer 8 session8 echo_answers).sock_buff.take
          (transfer 8 session8 echo_answers).sock_ptr.toNat =
      gather Event.from_sock (transfer 8 session8 echo_answers).trace) ∧
    (gather Event.to_sock (transfer 8 session8 echo_answers).trace ++
        (transfer 8 session8 echo_answers).ssl_buff.take
          (transfer 8 session8 echo_answers).ssl_ptr.toNat =
      gather Event.from_ssl (transfer 8 session8 echo_answers).trace) ∧
    gather Event.to_ssl (transfer 8 session8 echo_answers).trace <+:
      gather Event.from_sock (transfer 8 session8 echo_answers).trace ∧
    gather Event.to_sock (transfer 8 session8 echo_answers).trace <+:
      gather Event.from_ssl (transfer 8 session8 echo_answers).trace) :=
  ⟨⟨rfl, rfl, by decide⟩, transfer_fifo 8 session8 echo_answers rfl rfl (by decide)⟩

/-! ## Half-channel flags -/

theorem step_flags (B : Nat) (s : State) (e : Env) :
    ((step B s e).sock_rd = true → s.sock_rd = true) ∧
    ((step B s e).sock_wr = true → s.sock_wr = true) ∧
    ((step B s e).ssl_rd = true → s.ssl_rd = true) ∧
    ((step B s e).ssl_wr = true → s.ssl_wr = true) := by
  unfold step
  split
  · simp only [phase_wait, State.log, State.ret, State.goto]; repeat' split
    all_goals simp_all
  · simp only [phase_shutdown, State.log, State.ret, State.goto]; repeat' split
    all_goals simp_all
  · simp only [phase_sock_write, State.log, State.ret, State.goto]; repeat' split
    all_goals simp_all
  · simp only [phase_ssl_write, State.log, State.ret, State.goto]; repeat' split
    all_goals simp_all
  · simp only [phase_sock_read, State.log, State.ret, State.goto]; repeat' split
    all_goals simp_all
  · simp only [phase_ssl_read, State.log, State.ret, State.goto]; repeat' split
    all_goals simp_all
  · simp only [phase_count, State.log, State.ret, State.goto]; repeat' split
    all_goals simp_all
  · simp

theorem exec_flags (B : Nat) (es : List Env) (s : State) :
    ((exec B s es).sock_rd = true → s.sock_rd = true) ∧
    ((exec B s es).sock_wr = true → s.sock_wr = true) ∧
    ((exec B s es).ssl_rd = true → s.ssl_rd = true) ∧
    ((exec B s es).ssl_wr = true → s.ssl_wr = true) := by
  induction es generalizing s with
  | nil => simp [exec]
  | cons e es ih =>
    obtain ⟨a1, a2, a3, a4⟩ := ih (step B s e)
    obtain ⟨b1, b2, b3, b4⟩ := step_flags B s e
    rw [exec_cons]
    exact ⟨fun h => b1 (a1 h), fun h => b2 (a2 h), fun h => b3 (a3 h), fun h => b4 (a4 h)⟩

/-- C4. In every run of `transfer()` the four half-channel flags are open at entry,
and a flag that is closed at some point of the run is closed at every later point. -/
theorem transfer_flags_monotone (B : Nat) (c : Vars) (es later : List Env) :
    ((transfer B c []).sock_rd = true ∧ (transfer B c []).sock_wr = true ∧
      (transfer B c []).ssl_rd = true ∧ (transfer B c []).ssl_wr = true) ∧
    ((transfer B c es).sock_rd = false → (transfer B c (es ++ later)).sock_rd = false) ∧
    ((transfer B c es).sock_wr = false → (transfer B c (es ++ later)).sock_wr = false) ∧
    ((transfer B c es).ssl_rd = false → (transfer B c (es ++ later)).ssl_rd = false) ∧
    ((transfer B c es).ssl_wr = false → (transfer B c (es ++ later)).ssl_wr = false) := by
  obtain ⟨a1, a2, a3, a4⟩ := exec_flags B later (transfer B c es)
  rw [transfer_append]
  refine ⟨⟨rfl, rfl, rfl, rfl⟩, ?_, ?_, ?_, ?_⟩
  · intro h; cases hx : (exec B (transfer B c es) later).sock_rd
    · rfl
    · rw [a1 hx] at h; cases h
  · intro h; cases hx : (exec B (transfer B c es) later).sock_wr
    · rfl
    · rw [a2 hx] at h; cases h
  · intro h; cases hx : (exec B (transfer B c es) later).ssl_rd
    · rfl
    · rw [a3 hx] at h; cases h
  · intro h; cases hx : (exec B (transfer B c es) later).ssl_wr
    · rfl
    · rw [a4 hx] at h; cases h

/-! ## Initiating the TLS shutdown -/

/-- C7. Every phase that takes `ssl_closing` from 0 to 1 is one of the three phases
`SSL_write`, plaintext read, `SSL_read`, and it leaves `sock_ptr == 0` with `ssl_wr`
open: the TLS shutdown is never initiated while bytes read from the plaintext side are
still buffered for TLS. -/
theorem ssl_closing_initiated_drained (B : Nat) (s : State) (e : Env)
    (h0 : s.ssl_closing = 0) (h1 : (step B s e).ssl_closing = 1) :
    (step B s e).sock_ptr = 0 ∧ (step B s e).ssl_wr = true ∧
    (s.pc = PC.ssl_write ∨ s.pc = PC.sock_read ∨ s.pc = PC.ssl_read) := by
  revert h1
  unfold step
  split
  · simp only [phase_wait, State.log, State.ret, State.goto]; repeat' split
    all_goals simp_all
  · simp only [phase_shutdown, State.log, State.ret, State.goto]; repeat' split
    all_goals simp_all
  · simp only [phase_sock_write, State.log, State.ret, State.goto]; repeat' split
    all_goals simp_all
  · simp only [phase_ssl_write, State.log, State.ret, State.goto]; repeat' split
    all_goals simp_all
  · simp only [phase_sock_read, State.log, State.ret, State.goto]; repeat' split
    all_goals simp_all
  · simp only [phase_ssl_read, State.log, State.ret, State.goto]; repeat' split
    all_goals simp_all
  · simp only [phase_count, State.log, State.ret, State.goto]; repeat' split
    all_goals simp_all
  · simp_all

/-- C7, instance: end of file on the plaintext side with an empty buffer. -/
theorem ssl_closing_initiated_drained_witness :
    ((transfer 8 session8 (both_close_answers.take 4)).ssl_closing = 0 ∧
      (step 8 (transfer 8 session8 (both_close_answers.take 4))
        { readsocket := ReadResult.bytes [] }).ssl_closing = 1) ∧
    ((step 8 (transfer 8 session8 (both_close_answers.take 4))
        { readsocket := ReadResult.bytes [] }).sock_ptr = 0 ∧
      (step 8 (transfer 8 session8 (both_close_answers.take 4))
        { readsocket := ReadResult.bytes [] }).ssl_wr = true ∧
      ((transfer 8 session8 (both_close_answers.take 4)).pc = PC.ssl_write ∨
        (transfer 8 session8 (both_close_answers.take 4)).pc = PC.sock_read ∨
        (transfer 8 session8 (both_close_answers.take 4)).pc = PC.ssl_read)) :=
  ⟨⟨rfl, rfl⟩, ssl_closing_initiated_drained 8 (transfer 8 session8 (both_close_answers.take 4))
    { readsocket := ReadResult.bytes [] } rfl rfl⟩

/-! ## Half-close of the plaintext write side -/

@[simp] theorem is_shutdown_WR_simps :
    (∀ v a b c, Event.is_shutdown_WR ⟨v, Call.s_poll_wait a b c⟩ = false) ∧
    (∀ v a, Event.is_shutdown_WR ⟨v, Call.SSL_shutdown a⟩ = false) ∧
    (∀ v, Event.is_shutdown_WR ⟨v, Call.shutdown_WR⟩ = true) ∧
    (∀ v len r, Event.is_shutdown_WR ⟨v, Call.writesocket len r⟩ = false) ∧
    (∀ v len r, Event.is_shutdown_WR ⟨v, Call.SSL_write len r⟩ = false) ∧
    (∀ v len r, Event.is_shutdown_WR ⟨v, Call.readsocket len r⟩ = false) ∧
    (∀ v len r, Event.is_shutdown_WR ⟨v, Call.SSL_read len r⟩ = false) := by
  refine ⟨?_, ?_, ?_, ?_, ?_, ?_, ?_⟩ <;> intros <;> rfl

theorem step_half_close (B : Nat) (s : State) (e : Env) (h : HalfCloseInv s) :
    HalfCloseInv (step B s e) := by
  unfold step HalfCloseInv at *
  split
  · simp only [phase_wait, State.log, State.ret, State.goto]; repeat' split
    all_goals simp_all [or_imp, forall_and]
  · simp only [phase_shutdown, State.log, State.ret, State.goto]; repeat' split
    all_goals simp_all [or_imp, forall_and]
  · simp only [phase_sock_write, State.log, State.ret, State.goto]; repeat' split
    all_goals simp_all [or_imp, forall_and]
  · simp only [phase_ssl_write, State.log, State.ret, State.goto]; repeat' split
    all_goals simp_all [or_imp, forall_and]
  · simp only [phase_sock_read, State.log, State.ret, State.goto]; repeat' split
    all_goals simp_all [or_imp, forall_and]
  · simp only [phase_ssl_read, State.log, State.ret, State.goto]; repeat' split
    all_goals simp_all [or_imp, forall_and]
  · simp only [phase_count, State.log, State.ret, State.goto]; repeat' split
    all_goals simp_all
  · simp_all

/-- C8. In every run of `transfer()`, `shutdown(SHUT_WR)` on the plaintext write
endpoint is called at most once, and every such call is made in a state where `ssl_rd`
is closed and `ssl_ptr == 0`. -/
theorem transfer_shutdown_WR_once (B : Nat) (c : Vars) (es : List Env) :
    (transfer B c es).trace.countP Event.is_shutdown_WR ≤ 1 ∧
    ∀ ev ∈ (transfer B c es).trace, ev.call = Call.shutdown_WR →
      ev.pre.ssl_rd = false ∧ ev.pre.ssl_ptr = 0 := by
  have h0 : HalfCloseInv (start c) := by simp [HalfCloseInv, start]
  exact (exec_invariant B HalfCloseInv (step_half_close B) es (start c) h0).2

/-! ## The TLS shutdown -/

@[simp] theorem shutdown_final_simps (a : Event) :
    (∀ v x y z, shutdown_final a ⟨v, Call.s_poll_wait x y z⟩ = True) ∧
    (∀ v r, shutdown_final a ⟨v, Call.SSL_shutdown r⟩ = (a.call ≠ Call.SSL_shutdown 1)) ∧
    (∀ v, shutdown_final a ⟨v, Call.shutdown_WR⟩ = True) ∧
    (∀ v len r, shutdown_final a ⟨v, Call.writesocket len r⟩ = True) ∧
    (∀ v len r, shutdown_final a ⟨v, Call.SSL_write len r⟩ = True) ∧
    (∀ v len r, shutdown_final a ⟨v, Call.readsocket len r⟩ = True) ∧
    (∀ v len r, shutdown_final a ⟨v, Call.SSL_read len r⟩ = True) := by
  refine ⟨?_, ?_, ?_, ?_, ?_, ?_, ?_⟩ <;> intros <;> simp [shutdown_final]

theorem step_shut (B : Nat) (s : State) (e : Env) (h : ShutInv s) :
    ShutInv (step B s e) := by
  unfold step ShutInv at *
  obtain ⟨h1, h2, h3, h4⟩ := h
  split
  · simp only [phase_wait, State.log, State.ret, State.goto]; repeat' split
    all_goals simp_all [or_imp, forall_and, List.pairwise_append]
  · simp only [phase_shutdown, State.log, State.ret, State.goto]; repeat' split
    all_goals simp_all [or_imp, forall_and, List.pairwise_append]
    all_goals (rcases h2 with h2 | ⟨h5, h6⟩ <;> simp_all)
  · simp only [phase_sock_write, State.log, State.ret, State.goto]; repeat' split
    all_goals simp_all [or_imp, forall_and, List.pairwise_append]
  · simp only [phase_ssl_write, State.log, State.ret, State.goto]; repeat' split
    all_goals simp_all [or_imp, forall_and, List.pairwise_append]
  · simp only [phase_sock_read, State.log, State.ret, State.goto]; repeat' split
    all_goals simp_all [or_imp, forall_and, List.pairwise_append]
  · simp only [phase_ssl_read, State.log, State.ret, State.goto]; repeat' split
    all_goals simp_all [or_imp, forall_and, List.pairwise_append]
    all_goals (rcases h2 with h2 | ⟨h5, h6⟩ <;> simp_all)
  · simp only [phase_count, State.log, State.ret, State.goto]; repeat' split
    all_goals simp_all
  · simp_all

theorem step_closing_mono (B : Nat) (s : State) (e : Env) :
    s.ssl_closing ≤ (step B s e).ssl_closing := by
  unfold step
  split
  · simp only [phase_wait, State.log, State.ret, State.goto]; repeat' split
    all_goals simp_all
  · simp only [phase_shutdown, State.log, State.ret, State.goto]; repeat' split
    all_goals simp_all
    all_goals omega
  · simp only [phase_sock_write, State.log, State.ret, State.goto]; repeat' split
    all_goals simp_all
  · simp only [phase_ssl_write, State.log, State.ret, State.goto]; repeat' split
    all_goals simp_all
  · simp only [phase_sock_read, State.log, State.ret, State.goto]; repeat' split
    all_goals simp_all
  · simp only [phase_ssl_read, State.log, State.ret, State.goto]; repeat' split
    all_goals simp_all
  · simp only [phase_count, State.log, State.ret, State.goto]; repeat' split
    all_goals simp_all
  · simp

theorem exec_closing_mono (B : Nat) (es : List Env) (s : State) :
    s.ssl_closing ≤ (exec B s es).ssl_closing := by
  induction es generalizing s with
  | nil => simp [exec]
  | cons e es ih =>
    rw [exec_cons]
    exact le_trans (step_closing_mono B s e) (ih (step B s e))

theorem shutdown_done_count (tr : List Event) (h : List.Pairwise shutdown_final tr) :
    tr.countP Event.is_shutdown_done ≤ 1 := by
  induction tr with
  | nil => simp
  | cons a tr ih =>
    rw [List.pairwise_cons] at h
    obtain ⟨h1, h2⟩ := h
    by_cases ha : a.call = Call.SSL_shutdown 1
    · have hz : tr.countP Event.is_shutdown_done = 0 := by
        rw [List.countP_eq_zero]
        intro b hb hdone
        have hcall : b.call = Call.SSL_shutdown 1 := by
          simpa [Event.is_shutdown_done] using hdone
        exact h1 b hb ha 1 hcall
      rw [List.countP_cons, hz]
      simp [Event.is_shutdown_done, ha]
    · have hn : Event.is_shutdown_done a = false := by
        simp [Event.is_shutdown_done, ha]
      rw [List.countP_cons, hn]
      simpa using ih h2

/-- C6. In every run of `transfer()`: at most one `SSL_shutdown` call returns 1, and a
call that returned 1 is followed by no further `SSL_shutdown` call; once a call has
returned 1, `ssl_wr` is closed and `ssl_closing` is 3; and `ssl_closing` stays within
0..3 and never decreases from one point of the run to a later one. -/
theorem transfer_ssl_shutdown_once (B : Nat) (c : Vars) (es later : List Env) :
    (transfer B c es).trace.countP Event.is_shutdown_done ≤ 1 ∧
    List.Pairwise shutdown_final (transfer B c es).trace ∧
    ((∀ ev ∈ (transfer B c es).trace, ev.call ≠ Call.SSL_shutdown 1) ∨
      ((transfer B c es).ssl_wr = false ∧ (transfer B c es).ssl_closing = 3)) ∧
    (0 ≤ (transfer B c es).ssl_closing ∧ (transfer B c es).ssl_closing ≤ 3) ∧
    (transfer B c es).ssl_closing ≤ (transfer B c (es ++ later)).ssl_closing := by
  have h0 : ShutInv (start c) := by simp [ShutInv, start]
  obtain ⟨h1, h2, h3, h4⟩ := exec_invariant B ShutInv (step_shut B) es (start c) h0
  refine ⟨shutdown_done_count _ h1, h1, h2, ⟨h3, h4⟩, ?_⟩
  rw [transfer_append]
  exact exec_closing_mono B later (transfer B c es)

/-! ## Byte conservation -/

@[simp] theorem peer_ended_simps :
    (∀ v a b c, Event.peer_ended ⟨v, Call.s_poll_wait a b c⟩ = false) ∧
    (∀ v a, Event.peer_ended ⟨v, Call.SSL_shutdown a⟩ = false) ∧
    (∀ v, Event.peer_ended ⟨v, Call.shutdown_WR⟩ = false) ∧
    (∀ v len r, Event.peer_ended ⟨v, Call.writesocket len r⟩ = false) ∧
    (∀ v len r, Event.peer_ended ⟨v, Call.SSL_write len r⟩ = r.write_ended) ∧
    (∀ v len r, Event.peer_ended ⟨v, Call.readsocket len r⟩ = false) ∧
    (∀ v len r, Event.peer_ended ⟨v, Call.SSL_read len r⟩ = r.read_ended) := by
  refine ⟨?_, ?_, ?_, ?_, ?_, ?_, ?_⟩ <;> intros <;> rfl

theorem int32_add (a b : Int) : int32 (int32 a + b) = int32 (a + b) := by
  unfold int32
  omega

theorem int32_small (a : Int) (h0 : 0 ≤ a) (h1 : a < 2147483648) : int32 a = a := by
  unfold int32
  omega

theorem step_cons (B : Nat) (s : State) (e : Env) (h : ConsInv s) :
    ConsInv (step B s e) := by
  unfold step ConsInv at *
  obtain ⟨h1, h2, h3, h4⟩ := h
  split
  · simp only [phase_wait, State.log, State.ret, State.goto]; repeat' split
    all_goals simp_all
  · simp only [phase_shutdown, State.log, State.ret, State.goto]; repeat' split
    all_goals simp_all
  · simp only [phase_sock_write, State.log, State.ret, State.goto]; repeat' split
    all_goals simp_all [int32_add]
    all_goals first | omega | (congr 1; omega)
  · simp only [phase_ssl_write, State.log, State.ret, State.goto]; repeat' split
    all_goals simp_all [SSLResult.moved, int32_add]
    all_goals first | omega | (congr 1; omega)
  · simp only [phase_sock_read, State.log, State.ret, State.goto]; repeat' split
    all_goals simp_all [ReadResult.data]
  · simp only [phase_ssl_read, State.log, State.ret, State.goto]; repeat' split
    all_goals simp_all [SSLResult.moved]
  · simp only [phase_count, State.log, State.ret, State.goto]; repeat' split
    all_goals simp_all
  · simp_all


theorem step_timeout (B : Nat) (s : State) (e : Env) (h : TimeoutInv s) :
    TimeoutInv (step B s e) := by
  unfold step TimeoutInv at *
  split
  · simp only [phase_wait, State.log, State.ret, State.goto]; repeat' split
    all_goals simp_all
  · simp only [phase_shutdown, State.log, State.ret, State.goto]; repeat' split
    all_goals simp_all
  · simp only [phase_sock_write, State.log, State.ret, State.goto]; repeat' split
    all_goals simp_all
  · simp only [phase_ssl_write, State.log, State.ret, State.goto]; repeat' split
    all_goals simp_all
  · simp only [phase_sock_read, State.log, State.ret, State.goto]; repeat' split
    all_goals simp_all
  · simp only [phase_ssl_read, State.log, State.ret, State.goto]; repeat' split
    all_goals simp_all
  · simp only [phase_count, State.log, State.ret, State.goto]; repeat' split
    all_goals simp_all
  · simp_all

@[simp] theorem ended_simps {α : Type} :
    (∀ v : α, (SSLResult.NONE v).read_ended = false) ∧
    ((SSLResult.WANT_WRITE : SSLResult α).read_ended = false) ∧
    ((SSLResult.WANT_READ : SSLResult α).read_ended = false) ∧
    ((SSLResult.WANT_X509_LOOKUP : SSLResult α).read_ended = false) ∧
    (∀ num e, (SSLResult.SYSCALL num e : SSLResult α).read_ended = decide (0 ≤ num)) ∧
    ((SSLResult.ZERO_RETURN : SSLResult α).read_ended = true) ∧
    ((SSLResult.SSL : SSLResult α).read_ended = false) ∧
    (∀ err, (SSLResult.unknown err : SSLResult α).read_ended = false) ∧
    (∀ v : α, (SSLResult.NONE v).write_ended = false) ∧
    ((SSLResult.WANT_WRITE : SSLResult α).write_ended = false) ∧
    ((SSLResult.WANT_READ : SSLResult α).write_ended = false) ∧
    ((SSLResult.WANT_X509_LOOKUP : SSLResult α).write_ended = false) ∧
    (∀ num e, (SSLResult.SYSCALL num e : SSLResult α).write_ended = false) ∧
    ((SSLResult.ZERO_RETURN : SSLResult α).write_ended = true) ∧
    ((SSLResult.SSL : SSLResult α).write_ended = false) ∧
    (∀ err, (SSLResult.unknown err : SSLResult α).write_ended = false) := by
  refine ⟨?_, ?_, ?_, ?_, ?_, ?_, ?_, ?_, ?_, ?_, ?_, ?_, ?_, ?_, ?_, ?_⟩ <;> intros <;> rfl

@[simp] theorem orderly_simps :
    (∀ v a b c, Event.orderly ⟨v, Call.s_poll_wait a b c⟩ = True) ∧
    (∀ v a, Event.orderly ⟨v, Call.SSL_shutdown a⟩ = True) ∧
    (∀ v, Event.orderly ⟨v, Call.shutdown_WR⟩ = True) ∧
    (∀ v len r, Event.orderly ⟨v, Call.writesocket len r⟩ = True) ∧
    (∀ v len r, Event.orderly ⟨v, Call.SSL_write len r⟩ =
      (r.write_ended = true → v.sock_rd = false ∧ v.sock_ptr = 0)) ∧
    (∀ v len r, Event.orderly ⟨v, Call.readsocket len r⟩ = True) ∧
    (∀ v len r, Event.orderly ⟨v, Call.SSL_read len r⟩ =
      (r.read_ended = true → v.sock_rd = false ∧ v.sock_ptr = 0)) := by
  refine ⟨?_, ?_, ?_, ?_, ?_, ?_, ?_⟩ <;> intros <;> simp [Event.orderly]

theorem closing_started (c : Int) (P : Prop) (h : c = 1 ∨ c = 2 ∧ P) : c ≠ 0 := by
  rcases h with h | h <;> omega

theorem step_drain (B : Nat) (s : State) (e : Env)
    (h : (∀ ev ∈ s.trace, ev.within_len ∧ ev.orderly) → DrainInv s) :
    (∀ ev ∈ (step B s e).trace, ev.within_len ∧ ev.orderly) → DrainInv (step B s e) := by
  unfold step DrainInv at *
  split
  · simp only [phase_wait, State.log, State.ret, State.goto]; repeat' split
    all_goals intro h2
    all_goals simp_all [or_imp, forall_and]
  · simp only [phase_shutdown, State.log, State.ret, State.goto]; repeat' split
    all_goals intro h2
    all_goals try have hc := closing_started _ _ ‹s.ssl_closing = 1 ∨ _›
    all_goals simp_all [or_imp, forall_and]
  · simp only [phase_sock_write, State.log, State.ret, State.goto]; repeat' split
    all_goals intro h2
    all_goals simp_all [or_imp, forall_and]
  · simp only [phase_ssl_write, State.log, State.ret, State.goto]; repeat' split
    all_goals intro h2
    all_goals simp_all [or_imp, forall_and, SSLResult.moved]
    all_goals omega
  · simp only [phase_sock_read, State.log, State.ret, State.goto]; repeat' split
    all_goals intro h2
    all_goals simp_all [or_imp, forall_and]
  · simp only [phase_ssl_read, State.log, State.ret, State.goto]; repeat' split
    all_goals intro h2
    all_goals simp_all [or_imp, forall_and]
  · simp only [phase_count, State.log, State.ret, State.goto]; repeat' split
    all_goals intro h2
    all_goals simp_all [or_imp, forall_and]
  · simp_all

/-- C2, as amended. For every run of `transfer()` that returns 0 by leaving the loop
(line 647), or at line 410 after a wait made with the close timeout: `ssl_ptr == 0` and
`sock_bytes` is, as an `int` of 32 bits, the number of bytes obtained from `SSL_read`;
`ssl_bytes` is in the same sense the number of bytes obtained from the plaintext
`readsocket` calls less the `sock_ptr` bytes still buffered; `sock_ptr == 0` when
`ssl_wr` is still open.  If moreover every call reported at most the length it was
given and the TLS peer ended the connection, if at all, only with the plaintext input
at its end and `sock_buff` empty, then `sock_ptr == 0` and `ssl_bytes` is the number of
bytes obtained from the plaintext side.  Below `2^31` bytes the counters are those
numbers themselves. -/
theorem transfer_success_conservation (B : Nat) (c : Vars) (es : List Env)
    (hret : (transfer B c es).pc = PC.returned 0 647 ∨
      ((transfer B c es).pc = PC.returned 0 410 ∧
        ∃ pre reg, (transfer B c es).trace.getLast? =
          some ⟨pre, Call.s_poll_wait reg false 0⟩)) :
    (transfer B c es).ssl_ptr = 0 ∧
    (transfer B c es).sock_bytes =
      int32 ((gather Event.from_ssl (transfer B c es).trace).length : Int) ∧
    (transfer B c es).ssl_bytes =
      int32 (((gather Event.from_sock (transfer B c es).trace).length : Int) -
        (transfer B c es).sock_ptr) ∧
    ((transfer B c es).ssl_wr = true → (transfer B c es).sock_ptr = 0) ∧
    ((∀ ev ∈ (transfer B c es).trace, ev.within_len ∧ ev.orderly) →
      (transfer B c es).sock_ptr = 0 ∧
      (transfer B c es).ssl_bytes =
        int32 ((gather Event.from_sock (transfer B c es).trace).length : Int)) ∧
    (((gather Event.from_ssl (transfer B c es).trace).length : Int) < 2147483648 →
      (transfer B c es).sock_bytes =
        ((gather Event.from_ssl (transfer B c es).trace).length : Int)) ∧
    ((∀ ev ∈ (transfer B c es).trace, ev.within_len ∧ ev.orderly) →
      ((gather Event.from_sock (transfer B c es).trace).length : Int) < 2147483648 →
      (transfer B c es).ssl_bytes =
        ((gather Event.from_sock (transfer B c es).trace).length : Int)) := by
  have h0 : ConsInv (start c) := by simp [ConsInv, start, int32]
  obtain ⟨h1, h2, h3, h4⟩ := exec_invariant B ConsInv (step_cons B) es (start c) h0
  have ht := exec_invariant B TimeoutInv (step_timeout B) es (start c)
    (by simp [TimeoutInv, start])
  have hd := exec_guarded B (fun ev => ev.within_len ∧ ev.orderly) DrainInv
    (step_drain B) es (start c) (fun _ => by simp [DrainInv, start])
  unfold transfer at hret ⊢
  generalize exec B (start c) es = s at *
  have hw : (s.sock_wr = true → s.ssl_ptr = 0) ∧ (s.ssl_wr = true → s.sock_ptr = 0) := by
    rcases hret with hret | ⟨hret, pre, reg, hlast⟩
    · have hg := h4 hret
      unfold loop_guard at hg
      constructor
      · intro hw
        by_contra hne
        exact hg (Or.inr ⟨Or.inr hne, hw⟩)
      · intro hw
        by_contra hne
        exact hg (Or.inl ⟨Or.inr hne, hw⟩)
    · obtain ⟨reg2, hl2⟩ := ht hret
      rw [hlast] at hl2
      have hidle : ¬ idle_selected s.toVars := by
        injection hl2 with hl2
        injection hl2 with _ hcall
        injection hcall with _ hflag
        simpa using hflag.symm
      unfold idle_selected at hidle
      constructor
      · intro hw
        by_contra hne
        exact hidle (Or.inr (Or.inr ⟨hw, hne⟩))
      · intro hw
        by_contra hne
        exact hidle (Or.inr (Or.inl ⟨hw, hne⟩))
  have hp : s.ssl_ptr = 0 := by
    cases hsw : s.sock_wr
    · exact (h3 hsw).1
    · exact hw.1 hsw
  have hsp : (∀ ev ∈ s.trace, ev.within_len ∧ ev.orderly) → s.sock_ptr = 0 := by
    intro hok
    cases hsw : s.ssl_wr
    · exact ((hd hok).2 hsw).2
    · exact hw.2 hsw
  have hpos : 0 ≤ ((gather Event.from_ssl s.trace).length : Int) := Int.natCast_nonneg _
  have hpos2 : 0 ≤ ((gather Event.from_sock s.trace).length : Int) := Int.natCast_nonneg _
  refine ⟨hp, ?_, h2, hw.2, ?_, ?_, ?_⟩
  · rw [h1, hp, sub_zero]
  · intro hok
    refine ⟨hsp hok, ?_⟩
    rw [h2, hsp hok, sub_zero]
  · intro hlt
    rw [h1, hp, sub_zero]
    exact int32_small _ hpos hlt
  · intro hok hlt
    rw [h2, hsp hok, sub_zero]
    exact int32_small _ hpos2 hlt

/-- C2, instances of the amended claim: an orderly session that moved 3 bytes to TLS
and 2 bytes to the plaintext side and left the loop with `ssl_wr` closed by
`SSL_shutdown`; and a return at line 410 after a wait made with the close timeout. -/
theorem transfer_success_conservation_witness :
    ((transfer 8 session8 orderly_answers).pc = PC.returned 0 647 ∧
      (∀ ev ∈ (transfer 8 session8 orderly_answers).trace, ev.within_len ∧ ev.orderly) ∧
      (transfer 8 session8 orderly_answers).ssl_wr = false ∧
      ((gather Event.from_sock (transfer 8 session8 orderly_answers).trace).length : Int)
        = 3 ∧
      (transfer 8 session8 orderly_answers).ssl_bytes =
        ((gather Event.from_sock (transfer 8 session8 orderly_answers).trace).length
          : Int)) ∧
    ((transfer 8 session8 close_timeout_answers).pc = PC.returned 0 410 ∧
      (transfer 8 session8 close_timeout_answers).ssl_ptr = 0) :=
  ⟨⟨by decide, by decide, by decide, by decide,
      (transfer_success_conservation 8 session8 orderly_answers
        (Or.inl (by decide))).2.2.2.2.2.2 (by decide) (by decide)⟩,
    ⟨by decide,
      (transfer_success_conservation 8 session8 close_timeout_answers
        (Or.inr ⟨by decide, _, _, rfl⟩)).1⟩⟩

/-- C2 as stated fails: 5 bytes are read from the plaintext side, then `SSL_read`
reports the end of the TLS connection; `transfer()` leaves the loop and returns 0 with
`ssl_bytes == 0` and `sock_ptr == 5`. -/
theorem transfer_conservation_counterexample :
    (transfer 8 session8 tls_eof_answers).pc = PC.returned 0 647 ∧
    ((gather Event.from_sock (transfer 8 session8 tls_eof_answers).trace).length : Int) = 5 ∧
    (transfer 8 session8 tls_eof_answers).ssl_bytes = 0 ∧
    (transfer 8 session8 tls_eof_answers).sock_ptr = 5 ∧
    (transfer 8 session8 tls_eof_answers).trace.map Event.call =
      [ Call.s_poll_wait ⟨true, true, false, false⟩ true 2,
        Call.readsocket 8 (ReadResult.bytes [1, 2, 3, 4, 5]),
        Call.SSL_read 8 (SSLResult.SYSCALL 0 Errno.other) ] := by
  decide

/-! ## The watchdog -/

@[simp] theorem moves_simps :
    (∀ v a b c, Event.moves ⟨v, Call.s_poll_wait a b c⟩ = false) ∧
    (∀ v a, Event.moves ⟨v, Call.SSL_shutdown a⟩ = false) ∧
    (∀ v, Event.moves ⟨v, Call.shutdown_WR⟩ = false) ∧
    (∀ v len r, Event.moves ⟨v, Call.writesocket len r⟩ = decide (0 < r.num)) ∧
    (∀ v len r, Event.moves ⟨v, Call.SSL_write len r⟩ = r.is_none) ∧
    (∀ v len r, Event.moves ⟨v, Call.readsocket len r⟩ = decide (0 < r.data.length)) ∧
    (∀ v len r, Event.moves ⟨v, Call.SSL_read len r⟩ = r.is_none) := by
  refine ⟨?_, ?_, ?_, ?_, ?_, ?_, ?_⟩ <;> intros <;> rfl

theorem step_trace (B : Nat) (s : State) (e : Env) :
    (step B s e).trace = s.trace ++ events_of B s [e] := by
  unfold events_of exec
  simp only [List.foldl_cons, List.foldl_nil]
  unfold step
  split
  · simp only [phase_wait, State.log, State.ret, State.goto]; repeat' split
    all_goals simp
  · simp only [phase_shutdown, State.log, State.ret, State.goto]; repeat' split
    all_goals simp
  · simp only [phase_sock_write, State.log, State.ret, State.goto]; repeat' split
    all_goals simp
  · simp only [phase_ssl_write, State.log, State.ret, State.goto]; repeat' split
    all_goals simp
  · simp only [phase_sock_read, State.log, State.ret, State.goto]; repeat' split
    all_goals simp
  · simp only [phase_ssl_read, State.log, State.ret, State.goto]; repeat' split
    all_goals simp
  · simp only [phase_count, State.log, State.ret, State.goto]; repeat' split
    all_goals simp
  · simp

theorem exec_trace (B : Nat) (es : List Env) (s : State) :
    (exec B s es).trace = s.trace ++ events_of B s es := by
  induction es generalizing s with
  | nil => simp [events_of, exec]
  | cons e es ih =>
    have h1 := ih (step B s e)
    have h2 := step_trace B s e
    unfold events_of
    rw [exec_cons, h1, h2]
    simp

theorem events_of_cons (B : Nat) (s : State) (e : Env) (es : List Env) :
    events_of B s (e :: es) = events_of B s [e] ++ events_of B (step B s e) es := by
  have h1 := exec_trace B es (step B s e)
  have h2 := step_trace B s e
  conv_lhs => unfold events_of
  rw [exec_cons, h1, h2]
  simp

theorem step_watch (B : Nat) (s : State) (e : Env) (h : WatchInv s) :
    WatchInv (step B s e) := by
  unfold step WatchInv at *
  split
  · simp only [phase_wait, State.log, State.ret, State.goto]; repeat' split
    all_goals simp_all [PC.is_returned]
  · simp only [phase_shutdown, State.log, State.ret, State.goto]; repeat' split
    all_goals simp_all [PC.is_returned]
  · simp only [phase_sock_write, State.log, State.ret, State.goto]; repeat' split
    all_goals simp_all [PC.is_returned]
  · simp only [phase_ssl_write, State.log, State.ret, State.goto]; repeat' split
    all_goals simp_all [PC.is_returned]
  · simp only [phase_sock_read, State.log, State.ret, State.goto]; repeat' split
    all_goals simp_all [PC.is_returned]
  · simp only [phase_ssl_read, State.log, State.ret, State.goto]; repeat' split
    all_goals simp_all [PC.is_returned]
  · simp only [phase_count, State.log, State.ret, State.goto]; repeat' split
    all_goals simp_all [PC.is_returned]
    all_goals omega
  · simp_all

theorem step_budget (B : Nat) (s : State) (e : Env) (h : WatchInv s)
    (hq : ∀ ev ∈ events_of B s [e], ev.moves = false) :
    ((if s.pc = PC.loop ∧ loop_guard s.toVars then 1 else 0 : Nat) : Int) +
      budget (step B s e) ≤ budget s := by
  revert hq
  unfold events_of exec
  simp only [List.foldl_cons, List.foldl_nil]
  unfold step WatchInv at *
  split
  · simp only [phase_wait, State.log, State.ret, State.goto]; repeat' split
    all_goals simp_all [PC.is_returned, budget]
    all_goals omega
  · simp only [phase_shutdown, State.log, State.ret, State.goto]; repeat' split
    all_goals simp_all [PC.is_returned, budget]
  · simp only [phase_sock_write, State.log, State.ret, State.goto]; repeat' split
    all_goals simp_all [PC.is_returned, budget, WriteResult.num]
  · simp only [phase_ssl_write, State.log, State.ret, State.goto]; repeat' split
    all_goals simp_all [PC.is_returned, budget, SSLResult.is_none]
  · simp only [phase_sock_read, State.log, State.ret, State.goto]; repeat' split
    all_goals simp_all [PC.is_returned, budget, ReadResult.data]
  · simp only [phase_ssl_read, State.log, State.ret, State.goto]; repeat' split
    all_goals simp_all [PC.is_returned, budget, SSLResult.is_none]
  · simp only [phase_count, State.log, State.ret, State.goto]; repeat' split
    all_goals simp_all [PC.is_returned, budget]
    all_goals omega
  · simp_all [budget]

theorem iterations_le_budget (B : Nat) (es : List Env) (s : State) (h : WatchInv s)
    (hq : ∀ ev ∈ events_of B s es, ev.moves = false) :
    (iterations B s es : Int) ≤ budget s := by
  induction es generalizing s with
  | nil =>
    obtain ⟨h1, h2⟩ := h
    unfold iterations budget
    split
    all_goals simp_all [PC.is_returned]
    all_goals omega
  | cons e es ih =>
    rw [events_of_cons] at hq
    have hq1 : ∀ ev ∈ events_of B s [e], ev.moves = false :=
      fun ev hev => hq ev (List.mem_append_left _ hev)
    have hq2 : ∀ ev ∈ events_of B (step B s e) es, ev.moves = false :=
      fun ev hev => hq ev (List.mem_append_right _ hev)
    have h1 := ih (step B s e) (step_watch B s e h) hq2
    have h2 := step_budget B s e h hq1
    have h3 : iterations B s (e :: es) =
        (if s.pc = PC.loop ∧ loop_guard s.toVars then 1 else 0) +
          iterations B (step B s e) es := rfl
    rw [h3]
    by_cases hc : s.pc = PC.loop ∧ loop_guard s.toVars
    · rw [if_pos hc] at h2 ⊢
      push_cast at h2 ⊢
      omega
    · rw [if_neg hc] at h2 ⊢
      push_cast at h2 ⊢
      omega

/-- C10. In every run of `transfer()`, from any point of the run on, at most 1001 loop
iterations can be entered while no call moves a byte (no `writesocket`/`readsocket`
returning more than 0, no `SSL_write`/`SSL_read` ending in `SSL_ERROR_NONE`); and a
watchdog phase that takes the counter above 1000 returns -1. -/
theorem watchdog_bound (B : Nat) (c : Vars) (es later : List Env) (s : State) (e : Env)
    (hq : ∀ ev ∈ events_of B (transfer B c es) later, ev.moves = false)
    (hpc : s.pc = PC.count) (hw : 1000 < s.watchdog + 1) :
    iterations B (transfer B c es) later ≤ 1001 ∧
    (step B s e).pc = PC.returned (-1) 642 := by
  have h0 : WatchInv (start c) := by simp [WatchInv, start]
  have hinv : WatchInv (transfer B c es) :=
    exec_invariant B WatchInv (step_watch B) es (start c) h0
  have hb := iterations_le_budget B later (transfer B c es) hinv hq
  constructor
  · obtain ⟨h1, h2⟩ := hinv
    have h3 : budget (transfer B c es) ≤ 1001 := by
      unfold budget
      split <;> omega
    omega
  · simp [step, hpc, phase_count, State.ret, hw]

/-- C10, instance: one idle iteration from the start of a run, and a watchdog phase
entered with the counter at 1000. -/
theorem watchdog_bound_witness :
    ((∀ ev ∈ events_of 8 (transfer 8 session8 []) idle_answers, ev.moves = false) ∧
      tripping.pc = PC.count ∧ 1000 < tripping.watchdog + 1) ∧
    (iterations 8 (transfer 8 session8 []) idle_answers ≤ 1001 ∧
      (step 8 tripping quiet).pc = PC.returned (-1) 642) :=
  ⟨⟨by decide, rfl, by decide⟩,
    watchdog_bound 8 session8 [] idle_answers tripping quiet (by decide) rfl (by decide)⟩

/-! ## Runs on which the code departs from the specification -/

/-- C5, failing run. The plaintext side reports end of file with an empty buffer
(`ssl_closing` becomes 1) and, in the same iteration, `SSL_read` reports the
close-notify of the peer: the loop test fails and `transfer()` returns 0 with
`ssl_closing == 1`, `ssl_wr` open, and no `SSL_shutdown` call among the calls made. -/
theorem close_notify_never_sent :
    (transfer 8 session8 both_close_answers).pc = PC.returned 0 647 ∧
    (transfer 8 session8 both_close_answers).ssl_closing = 1 ∧
    (transfer 8 session8 both_close_answers).ssl_wr = true ∧
    (transfer 8 session8 both_close_answers).trace.map Event.call =
      [ Call.s_poll_wait ⟨true, true, false, false⟩ true 2,
        Call.readsocket 8 (ReadResult.bytes []),
        Call.SSL_read 8 SSLResult.ZERO_RETURN,
        Call.shutdown_WR ] := by
  decide

/-- C9, failing run. 5 bytes are read from the plaintext side, the plaintext side
then reports end of file while TLS is not writable, and the next wait, made with the
idle timeout selected (`ssl_wr` open and `sock_ptr == 5`), times out: `transfer()`
returns 0 at line 410. -/
theorem idle_timeout_returns_zero :
    (transfer 8 session8 stalled_answers).pc = PC.returned 0 410 ∧
    (transfer 8 session8 stalled_answers).sock_ptr = 5 ∧
    (transfer 8 session8 stalled_answers).ssl_wr = true ∧
    (transfer 8 session8 stalled_answers).trace.map Event.call =
      [ Call.s_poll_wait ⟨true, true, false, false⟩ true 1,
        Call.readsocket 8 (ReadResult.bytes [1, 2, 3, 4, 5]),
        Call.s_poll_wait ⟨true, true, false, true⟩ true 1,
        Call.readsocket 3 (ReadResult.bytes []),
        Call.s_poll_wait ⟨false, true, false, true⟩ true 0 ] := by
  decide

/-! ## Negotiation: lemmas on the helper calls -/

theorem fdscanf_actions (S : Nat) (c : CLI) (fd : Fd) (format buffer : List Byte) :
    (fdscanf S c fd format buffer).2.2.actions =
      c.actions ++ [Action.fdscanf fd format (fdscanf S c fd format buffer).1
        (fdscanf S c fd format buffer).2.1] := by
  unfold fdscanf
  cases fd <;> simp only [CLI.log, CLI.set] <;> split <;> (try split) <;> rfl

theorem fdprintf_actions (S : Nat) (c : CLI) (fd : Fd) (format : List Byte)
    (args : List (List Byte)) :
    (fdprintf S c fd format args).2.actions =
      c.actions ++ [Action.fdprintf fd format args (handed S format args)
        (fdprintf S c fd format args).1] := by
  unfold fdprintf handed
  cases fd <;> simp only [CLI.log, CLI.set] <;> split <;> (try split) <;> (try split) <;> rfl

theorem write_blocking_spec (script : List WriteEvent) (data : List Byte) (len : Int)
    (acc : List Byte) (hlen : data.length = len.toNat) :
    ((write_blocking script data len acc).ret = 0 ∨
      (write_blocking script data len acc).ret = -1) ∧
    (∃ p, p <+: data ∧ (write_blocking script data len acc).accepted = acc ++ p) ∧
    ((write_blocking script data len acc).ret = 0 →
      (write_blocking script data len acc).accepted = acc ++ data) := by
  induction script generalizing data len acc with
  | nil =>
    unfold write_blocking
    split_ifs with h
    · have ht : data.take len.toNat = data := by
        rw [← hlen]; exact List.take_length data
      simp only [ht]
      exact ⟨by simp, ⟨data, List.prefix_refl _, by simp⟩, fun _ => by simp⟩
    · have hd : data = [] := by
        apply List.eq_nil_of_length_eq_zero
        omega
      subst hd
      exact ⟨Or.inl rfl, ⟨[], List.prefix_refl _, by simp⟩, fun _ => by simp⟩
  | cons ev script ih =>
    unfold write_blocking
    split_ifs with h h1
    · cases hw : ev.writesocket with
      | error e =>
        simp only
        exact ⟨by simp, ⟨[], List.nil_prefix, by simp⟩, fun h0 => by simp at h0⟩
      | count n =>
        simp only
        have hl : (data.drop n).length = (len - (n : Int)).toNat := by
          rw [List.length_drop]; omega
        obtain ⟨i1, ⟨p, hp, i2⟩, i3⟩ := ih (data.drop n) (len - n) (acc ++ data.take n) hl
        refine ⟨i1, ⟨data.take n ++ p, ?_, ?_⟩, fun h0 => ?_⟩
        · have := (List.prefix_append_right_inj (data.take n)).mpr hp
          rwa [List.take_append_drop] at this
        · rw [i2, List.append_assoc]
        · rw [i3 h0, List.append_assoc, List.take_append_drop]
    · exact ⟨Or.inr rfl, ⟨[], List.nil_prefix, by simp⟩, fun h0 => by cases h0⟩
    · have hd : data = [] := by
        apply List.eq_nil_of_length_eq_zero
        omega
      subst hd
      exact ⟨Or.inl rfl, ⟨[], List.prefix_refl _, by simp⟩, fun _ => by simp⟩

theorem cli_get_set (c : CLI) (fd : Fd) (d : Desc) (a : Action) :
    ((c.set fd d).log a).get fd = d := by
  cases fd <;> rfl

/-! ## Negotiation: the helpers on the lines the remote sends -/

theorem read_line_deliver (n : Nat) (l : List Byte) (rest : List ReadEvent)
    (acc : List Byte) (h10 : 10 ∉ l) (hn : l.length < n) :
    read_line n (deliver (l ++ [10]) ++ rest) acc = (some (acc ++ l), rest) := by
  induction l generalizing n acc with
  | nil =>
    obtain ⟨m, rfl⟩ : ∃ m, n = m + 1 := ⟨n - 1, by simp at hn; omega⟩
    simp [deliver, read_line]
  | cons b l ih =>
    obtain ⟨m, rfl⟩ : ∃ m, n = m + 1 := ⟨n - 1, by simp at hn; omega⟩
    have hb : b ≠ 10 := fun h => h10 (by simp [h])
    have hl : 10 ∉ l := fun h => h10 (by simp [h])
    have hm : l.length < m := by simp at hn; omega
    have e := ih m (acc ++ [b]) hl hm
    simp only [deliver, List.map_append, List.cons_append, List.map_cons] at e ⊢
    simp only [read_line, hb, if_true, if_false, ite_self]
    rw [e]
    simp

theorem cstr_text (l : List Byte) (h : 0 ∉ l) : cstr l = l := by
  unfold cstr
  rw [List.takeWhile_eq_self_iff]
  intro b hb
  simp only [decide_eq_true_eq]
  exact fun e => h (e ▸ hb)

theorem sscanf_text (l buffer : List Byte) (hne : l ≠ []) (h10 : 10 ∉ l) :
    sscanf l (ascii "%[^\n]") buffer = (1, l) := by
  have hf : parse_format (ascii "%[^\n]") = [Directive.scanset_not 10] := by decide
  have ht : l.takeWhile (fun y => decide (y ≠ 10)) = l := by
    rw [List.takeWhile_eq_self_iff]
    intro b hb
    simp only [decide_eq_true_eq]
    exact fun e => h10 (e ▸ hb)
  unfold sscanf
  rw [hf]
  cases l with
  | nil => exact absurd rfl hne
  | cons x l =>
    have hx : x ≠ 10 := fun h => h10 (by simp [h])
    simp only [scan_directives, hx, if_false, ht]
    simp

theorem fdscanf_line (S : Nat) (c : CLI) (l buffer : List Byte) (rest : List ReadEvent)
    (hl : text_line S l) (hin : c.remote_fd.input = deliver (l ++ [10]) ++ rest) :
    (fdscanf S c Fd.remote_fd (ascii "%[^\n]") buffer).1 = 1 ∧
    (fdscanf S c Fd.remote_fd (ascii "%[^\n]") buffer).2.1 = l ∧
    (fdscanf S c Fd.remote_fd (ascii "%[^\n]") buffer).2.2.remote_fd =
      { c.remote_fd with input := rest } ∧
    (fdscanf S c Fd.remote_fd (ascii "%[^\n]") buffer).2.2.local_wfd = c.local_wfd := by
  obtain ⟨hne, h0, h10, hlen⟩ := hl
  have hr := read_line_deliver (S - 1) l rest [] h10 (by omega)
  have hs := sscanf_text l buffer hne h10
  unfold fdscanf
  simp only [CLI.get, hin, hr, List.nil_append, cstr_text l h0]
  generalize ascii "%[^\n]" = f at hs ⊢
  simp only [hs]
  simp [CLI.set, CLI.log]

theorem fdscanf_end (S : Nat) (c : CLI) (format buffer : List Byte) (hS : 1 < S)
    (hin : c.remote_fd.input = []) :
    (fdscanf S c Fd.remote_fd format buffer).1 = -1 ∧
    (fdscanf S c Fd.remote_fd format buffer).2.2.remote_fd = c.remote_fd ∧
    (fdscanf S c Fd.remote_fd format buffer).2.2.local_wfd = c.local_wfd := by
  obtain ⟨m, hm⟩ : ∃ m, S - 1 = m + 1 := ⟨S - 2, by omega⟩
  unfold fdscanf
  simp only [CLI.get, hin, hm, read_line]
  simp only [CLI.set, CLI.log, true_and, and_true]
  rw [← hin]

theorem write_blocking_writable (script : List WriteEvent) (data : List Byte) (len : Int)
    (acc : List Byte) (h : ∀ ev ∈ script, WriteEvent.succeeds ev = true) :
    (write_blocking script data len acc).ret = 0 ∧
    ∀ ev ∈ (write_blocking script data len acc).rest, WriteEvent.succeeds ev = true := by
  induction script generalizing data len acc with
  | nil =>
    unfold write_blocking
    split_ifs <;> simp
  | cons ev script ih =>
    have hev := h ev (by simp)
    have hs : ∀ e ∈ script, WriteEvent.succeeds e = true := fun e he => h e (by simp [he])
    unfold WriteEvent.succeeds at hev
    unfold write_blocking
    split_ifs with h1 h2
    · cases hw : ev.writesocket with
      | error e => simp [hw] at hev
      | count n => exact ih _ _ _ hs
    · simp [h2] at hev
    · exact ⟨rfl, h⟩

theorem fdprintf_writable (S : Nat) (c : CLI) (fd : Fd) (format text : List Byte)
    (hv : vsnprintf format [] = some text) (hlen : text.length + 2 < S)
    (hw : (c.get fd).writable) :
    (fdprintf S c fd format []).1 = text.length + 2 ∧
    ((fdprintf S c fd format []).2.get fd).input = (c.get fd).input ∧
    ((fdprintf S c fd format []).2.get fd).writable ∧
    ((fdprintf S c fd format []).2.get fd).written =
      (c.get fd).written ++ text ++ [13, 10] ∧
    ∀ d, d ≠ fd → (fdprintf S c fd format []).2.get d = c.get d := by
  have h1 := write_blocking_writable (c.get fd).script (text ++ [13, 10])
    ((text.length : Int) + 2) [] hw
  have h2 := (write_blocking_spec (c.get fd).script (text ++ [13, 10])
    ((text.length : Int) + 2) [] (by simp; omega)).2.2 h1.1
  have hlt : ¬ ((text.length : Int) + 2 ≥ (S : Int)) := by omega
  unfold fdprintf
  simp only [hv, hlt, if_false]
  generalize write_blocking (c.get fd).script (text ++ [13, 10])
    ((text.length : Int) + 2) [] = wr at h1 h2 ⊢
  have hr : ¬ wr.ret < 0 := by omega
  simp only [hr, if_false, cli_get_set, true_and]
  refine ⟨h1.2, by simp [h2], ?_⟩
  intro d hd
  cases d <;> cases fd <;> first | rfl | exact absurd rfl hd

theorem relays_spec (S : Nat) (l : List Byte) (h : relays S l = true) :
    ∃ t, vsnprintf l [] = some t ∧ t.length + 2 < S := by
  unfold relays at h
  cases hv : vsnprintf l [] with
  | none => simp [hv] at h
  | some t => exact ⟨t, rfl, by simpa [hv] using h⟩

theorem send_lines_length (lines : List (List Byte)) :
    lines.length ≤ (send_lines lines).length := by
  induction lines with
  | nil => simp
  | cons l ls ih => simp [send_lines, deliver]; omega

/-! ## Negotiation: the loops of `smtp_client` on the lines the remote sends -/

theorem skip_reply_lines (S : Nat) (cont : List Byte) (lines : List (List Byte))
    (hS : 1 < S) (hl : ∀ l ∈ lines, text_line S l) (fuel : Nat) (c : CLI)
    (line : List Byte) (hin : c.remote_fd.input = send_lines lines)
    (hf : lines.length < fuel) :
    (reply_end cont lines = none →
      ∃ c1, skip_reply S cont fuel c line = Loop.failed c1 ∧
        c1.remote_fd.written = c.remote_fd.written ∧ c1.local_wfd = c.local_wfd) ∧
    (∀ e, reply_end cont lines = some e →
      ∃ c1, skip_reply S cont fuel c line = Loop.done e c1 ∧
        c1.remote_fd.input = send_lines (after_reply cont lines) ∧
        c1.remote_fd.script = c.remote_fd.script ∧
        c1.remote_fd.written = c.remote_fd.written ∧ c1.local_wfd = c.local_wfd) := by
  induction lines generalizing fuel c line with
  | nil =>
    obtain ⟨f, rfl⟩ : ∃ f, fuel = f + 1 := ⟨fuel - 1, by simp at hf; omega⟩
    obtain ⟨e1, e2, e3⟩ := fdscanf_end S c (ascii "%[^\n]") line hS hin
    unfold skip_reply
    generalize fdscanf S c Fd.remote_fd (ascii "%[^\n]") line = r at e1 e2 e3 ⊢
    refine ⟨fun _ => ⟨r.2.2, ?_, by rw [e2], e3⟩, fun e he => by simp [reply_end] at he⟩
    simp [e1]
  | cons l ls ih =>
    obtain ⟨f, rfl⟩ : ∃ f, fuel = f + 1 := ⟨fuel - 1, by simp at hf; omega⟩
    have hls : ∀ x ∈ ls, text_line S x := fun x hx => hl x (by simp [hx])
    obtain ⟨e1, e2, e3, e4⟩ := fdscanf_line S c l line (send_lines ls) (hl l (by simp)) hin
    have hin1 : (fdscanf S c Fd.remote_fd (ascii "%[^\n]") line).2.2.remote_fd.input =
        send_lines ls := by rw [e3]
    have hsc : (fdscanf S c Fd.remote_fd (ascii "%[^\n]") line).2.2.remote_fd.script =
        c.remote_fd.script := by rw [e3]
    have hwr : (fdscanf S c Fd.remote_fd (ascii "%[^\n]") line).2.2.remote_fd.written =
        c.remote_fd.written := by rw [e3]
    unfold skip_reply
    generalize fdscanf S c Fd.remote_fd (ascii "%[^\n]") line = r at e1 e2 e4 hin1 hsc hwr ⊢
    simp only [e1, e2]
    by_cases hc : strncmp_eq l cont 4 = true
    · obtain ⟨i1, i2⟩ := ih hls f r.2.2 l hin1 (by simp at hf; omega)
      simp only [reply_end, after_reply, hc, if_true]
      refine ⟨fun hn => ?_, fun e he => ?_⟩
      · obtain ⟨c1, a1, a2, a3⟩ := i1 hn
        exact ⟨c1, by simpa using a1, by rw [a2, hwr], by rw [a3, e4]⟩
      · obtain ⟨c1, a1, a2, a3, a4, a5⟩ := i2 e he
        exact ⟨c1, by simpa using a1, a2, by rw [a3, hsc], by rw [a4, hwr], by rw [a5, e4]⟩
    · simp only [reply_end, after_reply, hc, Bool.false_eq_true, if_false]
      refine ⟨fun hn => by simp at hn, fun e he => ?_⟩
      simp at he
      subst he
      exact ⟨r.2.2, by simp, hin1, hsc, hwr, e4⟩

theorem copy_greeting_lines (S : Nat) (lines : List (List Byte))
    (hS : 1 < S) (hl : ∀ l ∈ lines, text_line S l)
    (hg : ∀ l ∈ reply_lines (ascii "220-") lines, relays S l = true)
    (fuel : Nat) (c : CLI)
    (line : List Byte) (hin : c.remote_fd.input = send_lines lines)
    (hw : c.local_wfd.writable) (hf : lines.length < fuel) :
    (reply_end (ascii "220-") lines = none →
      ∃ c1, copy_greeting S fuel c line = Loop.failed c1 ∧
        c1.remote_fd.written = c.remote_fd.written ∧
        c1.local_wfd.written =
          c.local_wfd.written ++ relayed (reply_lines (ascii "220-") lines)) ∧
    (∀ e, reply_end (ascii "220-") lines = some e →
      ∃ c1, copy_greeting S fuel c line = Loop.done e c1 ∧
        c1.remote_fd.input = send_lines (after_reply (ascii "220-") lines) ∧
        c1.remote_fd.script = c.remote_fd.script ∧
        c1.remote_fd.written = c.remote_fd.written ∧
        c1.local_wfd.writable ∧
        c1.local_wfd.written =
          c.local_wfd.written ++ relayed (reply_lines (ascii "220-") lines)) := by
  induction lines generalizing fuel c line with
  | nil =>
    obtain ⟨f, rfl⟩ : ∃ f, fuel = f + 1 := ⟨fuel - 1, by simp at hf; omega⟩
    obtain ⟨e1, e2, e3⟩ := fdscanf_end S c (ascii "%[^\n]") line hS hin
    unfold copy_greeting
    generalize fdscanf S c Fd.remote_fd (ascii "%[^\n]") line = r at e1 e2 e3 ⊢
    refine ⟨fun _ => ⟨r.2.2, ?_, by rw [e2], by simp [e3, reply_lines, relayed]⟩,
      fun e he => by simp [reply_end] at he⟩
    simp [e1]
  | cons l ls ih =>
    obtain ⟨f, rfl⟩ : ∃ f, fuel = f + 1 := ⟨fuel - 1, by simp at hf; omega⟩
    have hls : ∀ x ∈ ls, text_line S x := fun x hx => hl x (by simp [hx])
    obtain ⟨e1, e2, e3, e4⟩ := fdscanf_line S c l line (send_lines ls) (hl l (by simp)) hin
    have hin1 : (fdscanf S c Fd.remote_fd (ascii "%[^\n]") line).2.2.remote_fd.input =
        send_lines ls := by rw [e3]
    have hsc : (fdscanf S c Fd.remote_fd (ascii "%[^\n]") line).2.2.remote_fd.script =
        c.remote_fd.script := by rw [e3]
    have hwr : (fdscanf S c Fd.remote_fd (ascii "%[^\n]") line).2.2.remote_fd.written =
        c.remote_fd.written := by rw [e3]
    unfold copy_greeting
    generalize fdscanf S c Fd.remote_fd (ascii "%[^\n]") line = r at e1 e2 e4 hin1 hsc hwr ⊢
    generalize ascii "220-" = k at hg ih ⊢
    obtain ⟨t, hv, ht⟩ := relays_spec S l (hg l (by
      unfold reply_lines; split_ifs <;> simp))
    obtain ⟨p1, p2, p3, p4, p5⟩ := fdprintf_writable S r.2.2 Fd.local_wfd l t hv ht
      (by show r.2.2.local_wfd.writable; rw [e4]; exact hw)
    have p6 : (fdprintf S r.2.2 Fd.local_wfd l []).2.remote_fd = r.2.2.remote_fd :=
      p5 Fd.remote_fd (by decide)
    simp only [e1, e2]
    generalize fdprintf S r.2.2 Fd.local_wfd l [] = w at p1 p2 p3 p4 p6 ⊢
    replace p3 : w.2.local_wfd.writable := p3
    replace p4 : w.2.local_wfd.written = c.local_wfd.written ++ t ++ [13, 10] := by
      rw [← e4]; exact p4
    have hw0 : ¬ w.1 < 0 := by omega
    by_cases hc : strncmp_eq l k 4 = true
    · have hg1 : ∀ x ∈ reply_lines k ls, relays S x = true := fun x hx => hg x (by
        simp [reply_lines, hc, hx])
      obtain ⟨i1, i2⟩ := ih hls hg1 f w.2 l (by rw [p6, hin1]) p3 (by simp at hf; omega)
      simp only [reply_end, after_reply, reply_lines, relayed, hc, if_true, hv,
        Option.getD_some]
      refine ⟨fun hn => ?_, fun e he => ?_⟩
      · obtain ⟨c1, a1, a2, a3⟩ := i1 hn
        exact ⟨c1, by simpa [hw0] using a1, by rw [a2, p6, hwr], by rw [a3, p4]; simp⟩
      · obtain ⟨c1, a1, a2, a3, a4, a5, a6⟩ := i2 e he
        exact ⟨c1, by simpa [hw0] using a1, a2, by rw [a3, p6, hsc], by rw [a4, p6, hwr], a5,
          by rw [a6, p4]; simp⟩
    · simp only [reply_end, after_reply, reply_lines, relayed, hc, hv, Option.getD_some,
        Bool.false_eq_true, if_false]
      refine ⟨fun hn => by simp at hn, fun e he => ?_⟩
      simp at he
      subst he
      exact ⟨w.2, by simp [hw0], by rw [p6, hin1], by rw [p6, hsc], by rw [p6, hwr], p3,
        by rw [p4]; simp⟩

theorem after_reply_none (cont : List Byte) (lines : List (List Byte))
    (h : reply_end cont lines = none) : after_reply cont lines = [] := by
  induction lines with
  | nil => rfl
  | cons l ls ih =>
    unfold reply_end at h
    unfold after_reply
    split_ifs at h ⊢
    exact ih h

theorem after_reply_mem (cont : List Byte) (lines : List (List Byte)) :
    ∀ l ∈ after_reply cont lines, l ∈ lines := by
  induction lines with
  | nil => simp [after_reply]
  | cons x ls ih =>
    intro l h
    unfold after_reply at h
    split_ifs at h
    · exact List.mem_cons_of_mem _ (ih l h)
    · exact List.mem_cons_of_mem _ h

theorem after_reply_length (cont : List Byte) (lines : List (List Byte)) :
    (after_reply cont lines).length ≤ lines.length := by
  induction lines with
  | nil => simp [after_reply]
  | cons x ls ih =>
    unfold after_reply
    split_ifs
    · simp; omega
    · simp

/-! ## Negotiation: `smtp_client` -/

/-- C11, as amended. The remote sends a sequence of lines of text, each read whole by
one `fdscanf` (not empty, no NUL, its LF within the first `STRLEN - 1` bytes), the
lines of the greeting can be relayed, and every write to the remote and to the local
side succeeds.  Then `smtp_client` returns, with 0 when the dialogue is accepted and
with -1 otherwise: accepted means that the first line after the greeting that does not
begin with `250-` begins with `250 `, and that the first line after it that does not
begin with `220-` begins with `220 `.  The remote is sent `EHLO localhost` once the
greeting is complete and `STARTTLS` only after a final line beginning with `250 `, and
nothing else; the local side is sent the relayed greeting. -/
theorem smtp_client_dialogue (S : Nat) (c : CLI) (line : List Byte)
    (lines : List (List Byte)) (hS : 16 < S)
    (hin : c.remote_fd.input = send_lines lines)
    (hl : ∀ l ∈ lines, text_line S l)
    (hg : ∀ l ∈ reply_lines (ascii "220-") lines, relays S l = true)
    (hwr : c.remote_fd.writable) (hwl : c.local_wfd.writable) :
    (smtp_client S c line).1 = some (if smtp_accepts lines = true then 0 else -1) ∧
    (smtp_client S c line).2.remote_fd.written =
      c.remote_fd.written ++ smtp_commands lines ∧
    (smtp_client S c line).2.local_wfd.written =
      c.local_wfd.written ++ relayed (reply_lines (ascii "220-") lines) := by
  have hF : lines.length < c.remote_fd.input.length + 1 := by
    have := send_lines_length lines
    rw [← hin] at this
    omega
  have hv1 : vsnprintf (ascii "EHLO localhost") [] = some (ascii "EHLO localhost") := by
    decide
  have hn1 : (ascii "EHLO localhost").length + 2 < S := by
    have : (ascii "EHLO localhost").length = 14 := by decide
    omega
  have hx1 : ascii "EHLO localhost\r\n" = ascii "EHLO localhost" ++ [13, 10] := by decide
  have hv2 : vsnprintf (ascii "STARTTLS") [] = some (ascii "STARTTLS") := by decide
  have hn2 : (ascii "STARTTLS").length + 2 < S := by
    have : (ascii "STARTTLS").length = 8 := by decide
    omega
  have hx2 : ascii "STARTTLS\r\n" = ascii "STARTTLS" ++ [13, 10] := by decide
  have G := copy_greeting_lines S lines (by omega) hl hg _ c line hin hwl hF
  have hL1 : ∀ l ∈ after_reply (ascii "220-") lines, text_line S l :=
    fun l h => hl l (after_reply_mem _ _ l h)
  have hF1 := after_reply_length (ascii "220-") lines
  have hL2 : ∀ l ∈ after_reply (ascii "250-") (after_reply (ascii "220-") lines),
      text_line S l := fun l h => hL1 l (after_reply_mem _ _ l h)
  have hF2 := after_reply_length (ascii "250-") (after_reply (ascii "220-") lines)
  have N1 := after_reply_none (ascii "220-") lines
  have N2 := after_reply_none (ascii "250-") (after_reply (ascii "220-") lines)
  unfold smtp_client smtp_client_fuel smtp_accepts smtp_commands
  rw [hx1, hx2]
  generalize c.remote_fd.input.length + 1 = F at *
  generalize ascii "EHLO localhost" = ehlo at *
  generalize ascii "STARTTLS" = stls at *
  generalize ascii "220-" = k1 at *
  generalize ascii "250-" = k2 at *
  generalize ascii "250 " = k3 at *
  generalize ascii "220 " = k4 at *
  generalize relayed (reply_lines k1 lines) = greeting at *
  cases hre : reply_end k1 lines with
  | none =>
    obtain ⟨c1, a1, a2, a3⟩ := G.1 hre
    have hn := N1 hre
    simp [a1, a2, a3, hn, reply_end]
  | some g =>
    obtain ⟨c1, a1, a2, a3, a4, a5, a6⟩ := G.2 g hre
    simp only [a1]
    obtain ⟨p1, p2, p3, p4, p5⟩ := fdprintf_writable S c1 Fd.remote_fd ehlo ehlo hv1 hn1
      (by show c1.remote_fd.writable; unfold Desc.writable; rw [a3]; exact hwr)
    have p6 : (fdprintf S c1 Fd.remote_fd ehlo []).2.local_wfd = c1.local_wfd :=
      p5 Fd.local_wfd (by decide)
    generalize fdprintf S c1 Fd.remote_fd ehlo [] = w1 at p1 p2 p3 p4 p6 ⊢
    replace p2 : w1.2.remote_fd.input = send_lines (after_reply k1 lines) := by rw [← a2]; exact p2
    replace p3 : w1.2.remote_fd.writable := p3
    replace p4 : w1.2.remote_fd.written = c.remote_fd.written ++ ehlo ++ [13, 10] := by
      rw [← a4]; exact p4
    have hw1 : ¬ w1.1 < 0 := by omega
    have H := skip_reply_lines S k2 (after_reply k1 lines) (by omega) hL1 F w1.2 g p2 (by omega)
    simp only [hw1, if_false]
    cases hre1 : reply_end k2 (after_reply k1 lines) with
    | none =>
      obtain ⟨c2, b1, b2, b3⟩ := H.1 hre1
      have hn := N2 hre1
      simp [b1, b2, b3, p4, p6, a6, hn, hre1, reply_end]
    | some a =>
      obtain ⟨c2, b1, b2, b3, b4, b5⟩ := H.2 a hre1
      simp only [b1]
      by_cases hc : strncmp_eq a k3 4 = true
      · obtain ⟨q1, q2, q3, q4, q5⟩ := fdprintf_writable S c2 Fd.remote_fd stls stls hv2 hn2
          (by show c2.remote_fd.writable; unfold Desc.writable; rw [b3]; exact p3)
        have q6 : (fdprintf S c2 Fd.remote_fd stls []).2.local_wfd = c2.local_wfd :=
          q5 Fd.local_wfd (by decide)
        generalize fdprintf S c2 Fd.remote_fd stls [] = w2 at q1 q2 q3 q4 q6 ⊢
        replace q2 : w2.2.remote_fd.input = send_lines (after_reply k2 (after_reply k1 lines)) := by rw [← b2]; exact q2
        replace q4 : w2.2.remote_fd.written =
            c.remote_fd.written ++ ehlo ++ [13, 10] ++ stls ++ [13, 10] := by
          rw [← p4, ← b4]; exact q4
        have hw2 : ¬ w2.1 < 0 := by omega
        have K := skip_reply_lines S k1 (after_reply k2 (after_reply k1 lines)) (by omega) hL2 F w2.2 a q2 (by omega)
        simp only [hc, hw2, if_false, Bool.true_eq_false]
        cases hre2 : reply_end k1 (after_reply k2 (after_reply k1 lines)) with
        | none =>
          obtain ⟨c3, d1, d2, d3⟩ := K.1 hre2
          simp [d1, d2, d3, q4, q6, b5, p6, a6]
        | some b =>
          obtain ⟨c3, d1, d2, d3, d4, d5⟩ := K.2 b hre2
          simp only [d1]
          by_cases hd : strncmp_eq b k4 4 = true
          · simp [hd, hc, d4, d5, q4, q6, b5, p6, a6]
          · simp [hd, hc, d4, d5, q4, q6, b5, p6, a6]
      · cases hre2 : reply_end k1 (after_reply k2 (after_reply k1 lines)) <;> simp [hc, b4, b5, p4, p6, a6]

/-- C11, instances of the amended claim: scenario S1 is accepted (the result is 0, and
`EHLO localhost` and `STARTTLS` are what the remote is sent); with `554 no` as the
last line the result is -1. -/
theorem smtp_client_dialogue_witness :
    (16 < 256 ∧ smtp_s1.remote_fd.input = send_lines s1_lines ∧
      (∀ l ∈ s1_lines, text_line 256 l) ∧
      (∀ l ∈ reply_lines (ascii "220-") s1_lines, relays 256 l = true) ∧
      smtp_s1.remote_fd.writable ∧ smtp_s1.local_wfd.writable) ∧
    (smtp_client 256 smtp_s1 []).1 = some 0 ∧
    (smtp_client 256 smtp_s1 []).2.remote_fd.written =
      ascii "EHLO localhost\r\nSTARTTLS\r\n" ∧
    (smtp_client 256 smtp_s1 []).2.local_wfd.written =
      ascii "220-one\r\r\n220 ready\r\r\n" ∧
    (smtp_client 256 smtp_s1_refused []).1 = some (-1) :=
  ⟨⟨by decide, by decide, by decide, by decide, by decide, by decide⟩,
    (smtp_client_dialogue 256 smtp_s1 [] s1_lines (by decide) (by decide) (by decide)
      (by decide) (by decide) (by decide)).1.trans (by decide),
    (smtp_client_dialogue 256 smtp_s1 [] s1_lines (by decide) (by decide) (by decide)
      (by decide) (by decide) (by decide)).2.1.trans (by decide),
    (smtp_client_dialogue 256 smtp_s1 [] s1_lines (by decide) (by decide) (by decide)
      (by decide) (by decide) (by decide)).2.2.trans (by decide),
    (smtp_client_dialogue 256 smtp_s1_refused [] s1_refused_lines (by decide) (by decide)
      (by decide) (by decide) (by decide) (by decide)).1.trans (by decide)⟩

set_option maxRecDepth 100000 in
/-- C11 as stated fails. The remote sends the greeting `220 ready`, then as its reply
to `EHLO` one line of 261 bytes that begins with `250-` and ends in `250 OK`, then
`220 go`.  The first line after `EHLO` that does not begin with `250-` is `220 go`,
which does not begin with `250 `; yet `smtp_client` sends `STARTTLS` and returns 0,
with every read and write succeeding: the first `fdscanf` after `EHLO` stops after 255
bytes, and the next one takes the rest of the line, `250 OK`, for a line. -/
theorem smtp_client_long_line_counterexample :
    smtp_long.remote_fd.input =
      send_lines [ascii "220 ready\r", long_line, ascii "220 go\r"] ∧
    long_line.length = 262 ∧ 10 ∉ long_line ∧
    reply_end (ascii "250-") [long_line, ascii "220 go\r"] = some (ascii "220 go\r") ∧
    strncmp_eq (ascii "220 go\r") (ascii "250 ") 4 = false ∧
    smtp_accepts [ascii "220 ready\r", long_line, ascii "220 go\r"] = false ∧
    (smtp_client 256 smtp_long []).1 = some 0 ∧
    (smtp_client 256 smtp_long []).2.remote_fd.written =
      ascii "EHLO localhost\r\nSTARTTLS\r\n" ∧
    (∀ a ∈ (smtp_client 256 smtp_long []).2.actions, a.ok) := by
  decide

/-! ## Negotiation: `nntp_client`, `smtp_server`, `negotiate` -/

/-- C17. For a session `cli` and a protocol name: `negotiate` returns -1 and leaves
the session untouched (no helper is called, no descriptor read or written) when the
name is none of `smtp`, `pop3`, `nntp` (so also for `smb` and `telnet`, in both
roles), and for `pop3` and `nntp` in the server role; hence a dialogue is started only
for `smtp`, for `pop3` as client and for `nntp` as client. -/
theorem negotiate_unsupported (S : Nat) (name : List Byte) (client : Bool) (cli : CLI)
    (line : List Byte) :
    (name ≠ ascii "smtp" → name ≠ ascii "pop3" → name ≠ ascii "nntp" →
      negotiate S (some name) client (some cli) line = (some (-1), some cli)) ∧
    (negotiate S (some (ascii "smb")) client (some cli) line = (some (-1), some cli)) ∧
    (negotiate S (some (ascii "telnet")) client (some cli) line = (some (-1), some cli)) ∧
    (negotiate S (some (ascii "pop3")) false (some cli) line = (some (-1), some cli)) ∧
    (negotiate S (some (ascii "nntp")) false (some cli) line = (some (-1), some cli)) ∧
    (negotiate S (some name) client (some cli) line ≠ (some (-1), some cli) →
      name = ascii "smtp" ∨ (name = ascii "pop3" ∧ client = true) ∨
        (name = ascii "nntp" ∧ client = true)) := by
  have key : ∀ (n : List Byte) (cl : Bool), n ≠ ascii "smtp" →
      (n = ascii "pop3" → cl = false) → (n = ascii "nntp" → cl = false) →
      negotiate S (some n) cl (some cli) line = (some (-1), some cli) := by
    intro n cl a b d
    unfold negotiate
    generalize ascii "smb" = smb at *
    generalize ascii "smtp" = smtp at *
    generalize ascii "pop3" = pop3 at *
    generalize ascii "nntp" = nntp at *
    generalize ascii "telnet" = telnet at *
    simp only [returned, unsupported]
    split_ifs <;> simp_all
  have h1 : ascii "smb" ≠ ascii "smtp" := by decide
  have h2 : ascii "smb" ≠ ascii "pop3" := by decide
  have h3 : ascii "smb" ≠ ascii "nntp" := by decide
  have h4 : ascii "telnet" ≠ ascii "smtp" := by decide
  have h5 : ascii "telnet" ≠ ascii "pop3" := by decide
  have h6 : ascii "telnet" ≠ ascii "nntp" := by decide
  have h7 : ascii "pop3" ≠ ascii "smtp" := by decide
  have h8 : ascii "pop3" ≠ ascii "nntp" := by decide
  have h9 : ascii "nntp" ≠ ascii "smtp" := by decide
  refine ⟨?_, ?_, ?_, ?_, ?_, ?_⟩
  · intro a b d
    exact key name client a (fun e => absurd e b) (fun e => absurd e d)
  · exact key _ client h1 (fun e => absurd e h2) (fun e => absurd e h3)
  · exact key _ client h4 (fun e => absurd e h5) (fun e => absurd e h6)
  · exact key _ false h7 (fun _ => rfl) (fun e => absurd e h8)
  · exact key _ false h9 (fun e => absurd e h8.symm) (fun _ => rfl)
  · intro hne
    by_contra hcon
    push_neg at hcon
    obtain ⟨a, b, d⟩ := hcon
    refine hne (key name client a ?_ ?_)
    · intro e
      cases hc : client
      · rfl
      · exact absurd hc (b e)
    · intro e
      cases hc : client
      · rfl
      · exact absurd hc (d e)

/-! ## Negotiation: runs on which the code departs from the specification -/

/-- C19, failing input. Receiving `220 ready` CR LF, the line `fdscanf` matches against
its format is the 10-character line that still ends in CR: the `continue` of line 375
runs the `ptr++` of the loop, so the CR is kept. -/
theorem fdscanf_keeps_CR :
    scanned_line 256 (feed "220 ready\r\n") = some (ascii "220 ready\r") ∧
    (ascii "220 ready\r").length = 10 := by
  decide

/-- C20, failing input. The line `ehlo example.org` does not match `EHLO %[^\n]` (a
matching failure, for which `sscanf` returns 0) while the lowercased line matches the
lowercased format with one field bound; `fdscanf` returns 0 without the retry and
leaves the buffer as it was. -/
theorem fdscanf_no_lowercase_retry :
    (sscanf (ascii "ehlo example.org") (ascii "EHLO %[^\n]") (ascii "old")).1 = 0 ∧
    sscanf ((ascii "ehlo example.org").map tolower) ((ascii "EHLO %[^\n]").map tolower)
      (ascii "old") = (1, ascii "example.org") ∧
    (fdscanf 256 { local_rfd := { input := feed "ehlo example.org\n" } } Fd.local_rfd
      (ascii "EHLO %[^\n]") (ascii "old")).1 = 0 ∧
    (fdscanf 256 { local_rfd := { input := feed "ehlo example.org\n" } } Fd.local_rfd
      (ascii "EHLO %[^\n]") (ascii "old")).2.1 = ascii "old" := by
  decide

/-- C12, failing input. After `STLS` the read of the reply meets the end of the
stream; `fdscanf` returns -1, which `pop3_client` does not look at, the array `line`
still holds the greeting `+OK ready`, and `pop3_client` returns 0. -/
theorem pop3_client_accepts_missing_reply :
    (pop3_client 256 pop3_no_reply []).1 = 0 ∧
    (pop3_client 256 pop3_no_reply []).2.remote_fd.written = ascii "STLS\r\n" ∧
    (pop3_client 256 pop3_no_reply []).2.actions.getLast? =
      some (Action.fdscanf Fd.remote_fd (ascii "%[^\n]") (-1) (ascii "+OK ready\r")) := by
  decide

/-- C15, failing input. The client answers the 250 reply with `QUIT`: `sscanf` of that
line against `STARTTLS` returns 0, the test `< 0` of line 144 lets it pass, and
`smtp_server` writes `220 Go ahead` and returns 0. -/
theorem smtp_server_accepts_QUIT :
    (smtp_server 256 smtp_quit []).1 = 0 ∧
    (fdscanf 256 { local_rfd := { input := feed "QUIT\r\n" } } Fd.local_rfd
      (ascii "STARTTLS") []).1 = 0 ∧
    (smtp_server 256 smtp_quit []).2.local_wfd.written =
      ascii ("220 mail ready\r + stunnel\r\n250-example.org\r Welcome\r\n" ++
        "250 STARTTLS\r\n220 Go ahead\r\n") := by
  decide

/-- C16, failing input. The client sends `EHLO example.org` CR LF: the reply written
to the client has a CR between the domain and ` Welcome`, because the line read by
`fdscanf` still ends in CR. -/
theorem smtp_server_echoes_CR :
    (smtp_server 256 smtp_dialogue []).1 = 0 ∧
    (smtp_server 256 smtp_dialogue []).2.local_wfd.written =
      ascii "220 mail ready\r + stunnel\r\n" ++
        (ascii "250-example.org\r Welcome\r\n250 STARTTLS\r\n" ++
          ascii "220 Go ahead\r\n") := by
  decide

/-- C18, failing input. The greeting `+OK 100%% up` is handed to `fdprintf` as the
format: the bytes relayed to the local side are `+OK 100% up` CR LF, one `%` short. -/
theorem pop3_client_greeting_is_format :
    (pop3_client 256 pop3_percent []).1 = 0 ∧
    (pop3_client 256 pop3_percent []).2.actions.head? =
      some (Action.fdscanf Fd.remote_fd (ascii "%[^\n]") 1 (ascii "+OK 100%% up")) ∧
    (pop3_client 256 pop3_percent []).2.local_wfd.written = ascii "+OK 100% up\r\n" := by
  decide

/-! ## Runs of `transfer()`: length of the TLS data calls, state at `SSL_shutdown` -/

/-- C29, failing runs. (1) `SSL_read` ends in `WANT_READ`; in the next iteration TLS is
readable and `SSL_want_read` answers yes, so the test of lines 475-481 passes with
`sock_ptr == 0` and `SSL_write` is called with length 0.  (2) The TLS-side buffer is
full (`ssl_ptr == BUFFSIZE == 8`), TLS is writable and `SSL_want_write` answers yes, so
the test of lines 563-571 passes and `SSL_read` is called with length 0. -/
theorem tls_call_with_length_zero :
    (transfer 8 session8 want_read_answers).trace.map Event.call =
      [ Call.s_poll_wait ⟨true, true, false, false⟩ true 1,
        Call.SSL_read 8 SSLResult.WANT_READ,
        Call.s_poll_wait ⟨true, true, false, false⟩ true 1,
        Call.SSL_write 0 SSLResult.WANT_READ ] ∧
    (transfer 8 session8 want_read_answers).trace.getLast?.map
      (fun ev => ev.pre.sock_ptr) = some 0 ∧
    (transfer 8 session8 want_write_answers).trace.map Event.call =
      [ Call.s_poll_wait ⟨true, true, false, false⟩ true 2,
        Call.readsocket 8 (ReadResult.bytes [1, 2, 3, 4, 5]),
        Call.SSL_read 8 (SSLResult.NONE [11, 12, 13, 14, 15, 16, 17, 18]),
        Call.s_poll_wait ⟨true, false, true, true⟩ true 1,
        Call.SSL_write 5 SSLResult.WANT_WRITE,
        Call.SSL_read 0 SSLResult.WANT_WRITE ] ∧
    (transfer 8 session8 want_write_answers).trace.getLast?.map
      (fun ev => ev.pre.ssl_ptr) = some 8 := by
  decide

/-- C30, failing run. 2 bytes from TLS wait in the TLS-side buffer; the plaintext side
reports end of file (`ssl_closing` becomes 1) and, in the same iteration, `SSL_read`
reports the end of the TLS connection (`ssl_rd = ssl_wr = 0`).  The loop goes on for the
2 buffered bytes, and the next iteration calls `SSL_shutdown` with `ssl_wr == 0`; its
failure ends `transfer()` with -1 at line 432, the 2 bytes unwritten. -/
theorem ssl_shutdown_after_tls_eof :
    (transfer 8 session8 dead_tls_answers).trace.map Event.call =
      [ Call.s_poll_wait ⟨true, true, false, false⟩ true 1,
        Call.SSL_read 8 (SSLResult.NONE [7, 8]),
        Call.s_poll_wait ⟨true, true, true, false⟩ true 2,
        Call.readsocket 8 (ReadResult.bytes []),
        Call.SSL_read 6 (SSLResult.SYSCALL 0 Errno.other),
        Call.s_poll_wait ⟨false, false, true, false⟩ true 1,
        Call.SSL_shutdown (-1) ] ∧
    (transfer 8 session8 dead_tls_answers).trace.getLast?.map
      (fun ev => (ev.pre.ssl_wr, ev.pre.ssl_closing, ev.pre.ssl_ptr)) =
        some (false, 1, 2) ∧
    (transfer 8 session8 dead_tls_answers).pc = PC.returned (-1) 432 ∧
    (transfer 8 session8 dead_tls_answers).sock_bytes = 0 := by
  decide

/-! ## The blocking write and the line writer -/

/-- C21, failing input. `write_blocking` is given the two bytes `AB`; the descriptor is
reported writable and the first `writesocket` fails with `EINTR` (or `EWOULDBLOCK`):
`write_blocking` returns -1 with no byte accepted, although the next attempt would have
accepted both bytes.  The same failure of `writesocket` inside `transfer()` is retried:
the phase goes on to the next one. -/
theorem write_blocking_fails_on_EINTR :
    write_blocking [{ writesocket := WriteResult.error Errno.EINTR }, {}] (ascii "AB") 2 []
      = ⟨-1, [], [{}]⟩ ∧
    write_blocking [{ writesocket := WriteResult.error Errno.EWOULDBLOCK }, {}]
      (ascii "AB") 2 [] = ⟨-1, [], [{}]⟩ ∧
    write_blocking [] (ascii "AB") 2 [] = ⟨0, ascii "AB", []⟩ ∧
    (phase_sock_write 8
      { toVars := { session8 with sock_wr := true, sock_can_wr := true, ssl_ptr := 2 },
        pc := PC.sock_write, trace := [] }
      { writesocket := WriteResult.error Errno.EINTR }).pc = PC.ssl_write := by
  decide

/-- C22. For a format and arguments with the formatted text `text` of length `L`: if
`L + 2 < STRLEN`, `fdprintf` hands `write_blocking` the bytes of `text` followed by CR
LF with the length `L + 2`, returns -1 exactly when `write_blocking` fails and `L + 2`
otherwise, the descriptor accepts a prefix of those bytes and all of them when the call
succeeds; if `L + 2 ≥ STRLEN` it returns -1 and leaves every descriptor as it was. -/
theorem fdprintf_line (S : Nat) (c : CLI) (fd : Fd) (format : List Byte)
    (args : List (List Byte)) (text : List Byte) (h : vsnprintf format args = some text) :
    (text.length + 2 < S →
      (fdprintf S c fd format args).2.actions = c.actions ++
        [Action.fdprintf fd format args (some (text ++ [13, 10]))
          (fdprintf S c fd format args).1] ∧
      ((fdprintf S c fd format args).1 = -1 ↔
        (write_blocking (c.get fd).script (text ++ [13, 10]) (text.length + 2) []).ret
          < 0) ∧
      ((fdprintf S c fd format args).1 ≠ -1 →
        (fdprintf S c fd format args).1 = text.length + 2 ∧
        ((fdprintf S c fd format args).2.get fd).written =
          (c.get fd).written ++ (text ++ [13, 10])) ∧
      (∃ p, p <+: text ++ [13, 10] ∧
        ((fdprintf S c fd format args).2.get fd).written = (c.get fd).written ++ p)) ∧
    (S ≤ text.length + 2 →
      (fdprintf S c fd format args).1 = -1 ∧
      ∀ d, (fdprintf S c fd format args).2.get d = c.get d) := by
  have hw := write_blocking_spec (c.get fd).script (text ++ [13, 10])
    ((text.length : Int) + 2) [] (by simp; omega)
  constructor
  · intro hS
    have hlt : ¬ ((text.length : Int) + 2 ≥ (S : Int)) := by omega
    unfold fdprintf
    simp only [h, hlt, if_false]
    generalize write_blocking (c.get fd).script (text ++ [13, 10])
      ((text.length : Int) + 2) [] = wr at hw ⊢
    obtain ⟨h1, ⟨p, hp, h2⟩, h3⟩ := hw
    split_ifs with hr
    · have hne : wr.ret ≠ 0 := by omega
      refine ⟨by cases fd <;> rfl, ⟨fun _ => hr, fun _ => by simp⟩,
        fun hc => absurd (by simp) hc, p, hp, ?_⟩
      rw [cli_get_set, h2]
      simp
    · have h0 : wr.ret = 0 := by omega
      refine ⟨by cases fd <;> rfl, ⟨fun hc => ?_, fun hc => absurd hc hr⟩,
        fun _ => ⟨by simp, ?_⟩, p, hp, ?_⟩
      · simp only at hc
        omega
      · rw [cli_get_set, h3 h0]
        simp
      · rw [cli_get_set, h2]
        simp
  · intro hS
    have hge : (text.length : Int) + 2 ≥ (S : Int) := by omega
    unfold fdprintf
    simp only [h, hge, if_true]
    exact ⟨by simp, fun d => by cases d <;> rfl⟩

/-- C22 on the line `EHLO localhost`: 16 bytes reach a descriptor that takes whatever
it is given. -/
theorem fdprintf_line_witness :
    vsnprintf (ascii "EHLO %s") [ascii "localhost"] = some (ascii "EHLO localhost") ∧
    (fdprintf 256 {} Fd.remote_fd (ascii "EHLO %s") [ascii "localhost"]).1 = 16 :=
  ⟨by decide,
    by
      have h := (fdprintf_line 256 {} Fd.remote_fd (ascii "EHLO %s") [ascii "localhost"]
        (ascii "EHLO localhost") (by decide)).1 (by decide)
      exact (h.2.2.1 (by decide)).1⟩

/-! ## The timeout of `s_poll_wait` -/

theorem s_poll_wait_timeouts (timeout : Int) (answers : List PollAnswer) (made : List Int) :
    ∃ n, (Poll.s_poll_wait timeout answers made).timeouts =
      made ++ List.replicate n (if timeout < 0 then -1 else int32 (1000 * timeout)) := by
  induction answers generalizing made with
  | nil => exact ⟨0, by simp [Poll.s_poll_wait]⟩
  | cons a answers ih =>
    unfold Poll.s_poll_wait
    dsimp only
    generalize (if timeout < 0 then (-1 : Int) else int32 (1000 * timeout)) = ms at ih ⊢
    split_ifs with h1
    · obtain ⟨n, hn⟩ := ih (made ++ [ms])
      exact ⟨n + 1, by rw [hn]; simp [List.replicate_succ]⟩
    · exact ⟨1, by simp⟩

/-- Timeouts for which the product does not overflow are handed over unchanged, a
negative timeout as -1. -/
theorem s_poll_wait_timeout_in_range (timeout : Int) (answers : List PollAnswer) :
    (0 ≤ timeout → timeout ≤ 2147483 →
      ∀ ms ∈ (Poll.s_poll_wait timeout answers []).timeouts, ms = 1000 * timeout) ∧
    (timeout < 0 → ∀ ms ∈ (Poll.s_poll_wait timeout answers []).timeouts, ms = -1) := by
  obtain ⟨n, hn⟩ := s_poll_wait_timeouts timeout answers []
  rw [hn]
  constructor
  · intro h0 h1 ms hms
    have hlt : ¬ timeout < 0 := by omega
    simp only [hlt, if_false, List.nil_append] at hms
    rw [List.eq_of_mem_replicate hms]
    unfold int32
    omega
  · intro h0 ms hms
    simp only [h0, if_true, List.nil_append] at hms
    exact List.eq_of_mem_replicate hms

/-- C27, failing inputs. The timeout 2147484 seconds is a non-negative `int` of 32
bits, but the product `1000*timeout` made in `int` arithmetic is not 2147484000: `poll`
is handed -2147483296, a negative value, for which it waits without limit.  For 4294968
seconds `poll` is handed 704 milliseconds.  The variant built on `select` hands the
seconds over unchanged. -/
theorem s_poll_wait_timeout_overflow :
    (2147484 : Int) ≤ 2147483647 ∧
    Poll.s_poll_wait 2147484 [{ retval := 0 }] [] = ⟨some 0, [-2147483296]⟩ ∧
    Poll.s_poll_wait 4294968 [{ retval := 0 }] [] = ⟨some 0, [704]⟩ ∧
    Select.timeval 2147484 = some (2147484, 0) := by
  decide

/-! ## The descriptor-array poll set -/

theorem poll_scan_spec (fds : Poll.s_poll_set) (fd : Int) (k : Nat) :
    ∀ i, i + k = fds.nfds →
      i ≤ Poll.scan fds fd k i ∧ Poll.scan fds fd k i ≤ fds.nfds ∧
      (∀ j, i ≤ j → j < Poll.scan fds fd k i → (fds.ufds j).fd ≠ fd) ∧
      (Poll.scan fds fd k i < fds.nfds → (fds.ufds (Poll.scan fds fd k i)).fd = fd) := by
  induction k with
  | zero =>
    intro i hi
    simp only [Poll.scan]
    exact ⟨le_refl _, by omega, fun j h1 h2 => by omega, fun h => by omega⟩
  | succ k ih =>
    intro i hi
    unfold Poll.scan
    split_ifs with h
    · obtain ⟨a1, a2, a3, a4⟩ := ih (i + 1) (by omega)
      refine ⟨by omega, a2, fun j h1 h2 => ?_, a4⟩
      by_cases hj : j = i
      · subst hj; exact h.2
      · exact a3 j (by omega) h2
    · refine ⟨le_refl _, by omega, fun j h1 h2 => by omega, fun hlt => ?_⟩
      by_contra hne
      exact h ⟨hlt, hne⟩

theorem poll_scan_slot (fds : Poll.s_poll_set) (fd : Int) :
    Poll.scan fds fd fds.nfds 0 ≤ fds.nfds ∧
    (∀ j, j < Poll.scan fds fd fds.nfds 0 → (fds.ufds j).fd ≠ fd) ∧
    (Poll.scan fds fd fds.nfds 0 < fds.nfds →
      (fds.ufds (Poll.scan fds fd fds.nfds 0)).fd = fd) ∧
    (Poll.has_slot fds fd ↔ Poll.scan fds fd fds.nfds 0 < fds.nfds) := by
  obtain ⟨_, a2, a3, a4⟩ := poll_scan_spec fds fd fds.nfds 0 (by omega)
  refine ⟨a2, fun j hj => a3 j (by omega) hj, a4, ?_⟩
  constructor
  · rintro ⟨i, hi, hfd⟩
    by_contra hge
    exact a3 i (by omega) (by omega) hfd
  · intro h
    exact ⟨_, h, a4 h⟩

theorem poll_add_existing (M : Nat) (fds : Poll.s_poll_set) (fd rd wr : Int)
    (h : Poll.scan fds fd fds.nfds 0 < fds.nfds) (hM : Poll.scan fds fd fds.nfds 0 < M) :
    Poll.s_poll_add M fds fd rd wr =
      { ufds := Function.update fds.ufds (Poll.scan fds fd fds.nfds 0)
          { fd := (fds.ufds (Poll.scan fds fd fds.nfds 0)).fd,
            events :=
              { POLLIN := (fds.ufds (Poll.scan fds fd fds.nfds 0)).events.POLLIN ||
                  decide (rd ≠ 0),
                POLLOUT := (fds.ufds (Poll.scan fds fd fds.nfds 0)).events.POLLOUT ||
                  decide (wr ≠ 0) } },
        nfds := fds.nfds } := by
  unfold Poll.s_poll_add
  generalize Poll.scan fds fd fds.nfds 0 = r at h hM
  have h1 : ¬ r ≥ M := by omega
  have h2 : ¬ r = fds.nfds := by omega
  simp only [h1, h2, if_false]
  by_cases hr : rd = 0 <;> by_cases hw : wr = 0 <;>
    simp [hr, hw, pollfd.or_POLLIN, pollfd.or_POLLOUT, Function.update_idem]

theorem poll_add_new (M : Nat) (fds : Poll.s_poll_set) (fd rd wr : Int)
    (h : Poll.scan fds fd fds.nfds 0 = fds.nfds) (hM : fds.nfds < M) :
    Poll.s_poll_add M fds fd rd wr =
      { ufds := Function.update fds.ufds fds.nfds
          { fd := fd, events := { POLLIN := decide (rd ≠ 0), POLLOUT := decide (wr ≠ 0) } },
        nfds := fds.nfds + 1 } := by
  unfold Poll.s_poll_add
  rw [h]
  have h1 : ¬ fds.nfds ≥ M := by omega
  simp only [h1, if_false, if_true]
  by_cases hr : rd = 0 <;> by_cases hw : wr = 0 <;>
    simp [hr, hw, pollfd.or_POLLIN, pollfd.or_POLLOUT, Function.update_idem]

theorem poll_add_full (M : Nat) (fds : Poll.s_poll_set) (fd rd wr : Int)
    (h : M ≤ Poll.scan fds fd fds.nfds 0) :
    Poll.s_poll_add M fds fd rd wr = fds := by
  unfold Poll.s_poll_add
  simp [h]

theorem poll_add_effect (M : Nat) (fds : Poll.s_poll_set) (fd rd wr : Int)
    (hinv : Poll.Inv M fds) (hcap : Poll.has_slot fds fd ∨ fds.nfds < M) :
    Poll.Inv M (Poll.s_poll_add M fds fd rd wr) ∧
    (∀ x, Poll.has_slot (Poll.s_poll_add M fds fd rd wr) x ↔ Poll.has_slot fds x ∨ x = fd) ∧
    (∀ x, Poll.read_set (Poll.s_poll_add M fds fd rd wr) x ↔
      Poll.read_set fds x ∨ (x = fd ∧ rd ≠ 0)) ∧
    (∀ x, Poll.write_set (Poll.s_poll_add M fds fd rd wr) x ↔
      Poll.write_set fds x ∨ (x = fd ∧ wr ≠ 0)) ∧
    (Poll.has_slot fds fd → (Poll.s_poll_add M fds fd rd wr).nfds = fds.nfds) ∧
    (¬ Poll.has_slot fds fd → (Poll.s_poll_add M fds fd rd wr).nfds = fds.nfds + 1) := by
  obtain ⟨s1, s2, s3, s4⟩ := poll_scan_slot fds fd
  obtain ⟨hle, hdist⟩ := hinv
  by_cases hs : Poll.has_slot fds fd
  · have hr := s4.mp hs
    have hfd := s3 hr
    rw [poll_add_existing M fds fd rd wr hr (by omega)]
    generalize Poll.scan fds fd fds.nfds 0 = r at hr hfd
    have hfds : ∀ j, ((Function.update fds.ufds r
        { fd := (fds.ufds r).fd,
          events := { POLLIN := (fds.ufds r).events.POLLIN || decide (rd ≠ 0),
                      POLLOUT := (fds.ufds r).events.POLLOUT || decide (wr ≠ 0) } }) j).fd =
        (fds.ufds j).fd := by
      intro j
      by_cases hj : j = r
      · subst hj; simp
      · simp [Function.update_noteq hj]
    refine ⟨⟨hle, fun i j hi hj he => ?_⟩, fun x => ?_, fun x => ?_, fun x => ?_,
      fun _ => rfl, fun h => absurd hs h⟩
    · simp only [hfds] at he
      exact hdist i j hi hj he
    · unfold Poll.has_slot
      simp only [hfds]
      constructor
      · exact fun h => Or.inl h
      · rintro (h | rfl)
        · exact h
        · exact ⟨r, hr, hfd⟩
    · unfold Poll.read_set
      simp only [hfds]
      constructor
      · rintro ⟨j, hj, hx, hp⟩
        by_cases hjr : j = r
        · subst hjr
          simp only [Function.update_same, Bool.or_eq_true, decide_eq_true_eq] at hp
          rcases hp with hp | hp
          · exact Or.inl ⟨j, hj, hx, hp⟩
          · exact Or.inr ⟨by rw [← hx, hfd], hp⟩
        · rw [Function.update_noteq hjr] at hp
          exact Or.inl ⟨j, hj, hx, hp⟩
      · rintro (⟨j, hj, hx, hp⟩ | ⟨rfl, hp⟩)
        · refine ⟨j, hj, hx, ?_⟩
          by_cases hjr : j = r
          · subst hjr; simp [hp]
          · rw [Function.update_noteq hjr]; exact hp
        · exact ⟨r, hr, hfd, by simp [hp]⟩
    · unfold Poll.write_set
      simp only [hfds]
      constructor
      · rintro ⟨j, hj, hx, hp⟩
        by_cases hjr : j = r
        · subst hjr
          simp only [Function.update_same, Bool.or_eq_true, decide_eq_true_eq] at hp
          rcases hp with hp | hp
          · exact Or.inl ⟨j, hj, hx, hp⟩
          · exact Or.inr ⟨by rw [← hx, hfd], hp⟩
        · rw [Function.update_noteq hjr] at hp
          exact Or.inl ⟨j, hj, hx, hp⟩
      · rintro (⟨j, hj, hx, hp⟩ | ⟨rfl, hp⟩)
        · refine ⟨j, hj, hx, ?_⟩
          by_cases hjr : j = r
          · subst hjr; simp [hp]
          · rw [Function.update_noteq hjr]; exact hp
        · exact ⟨r, hr, hfd, by simp [hp]⟩
  · have hr : Poll.scan fds fd fds.nfds 0 = fds.nfds := by
      have := mt s4.mpr hs
      omega
    have hM : fds.nfds < M := by
      rcases hcap with h | h
      · exact absurd h hs
      · exact h
    rw [hr] at s2
    rw [poll_add_new M fds fd rd wr hr hM]
    have hold : ∀ j, j < fds.nfds → (Function.update fds.ufds fds.nfds
        { fd := fd, events := { POLLIN := decide (rd ≠ 0), POLLOUT := decide (wr ≠ 0) } }) j =
        fds.ufds j := by
      intro j hj
      exact Function.update_noteq (by omega) _ _
    refine ⟨⟨by dsimp only; omega, fun i j hi hj he => ?_⟩, fun x => ?_, fun x => ?_,
      fun x => ?_, fun h => absurd h hs, fun _ => rfl⟩
    · dsimp only at hi hj he
      by_cases hi2 : i = fds.nfds <;> by_cases hj2 : j = fds.nfds
      · omega
      · subst hi2
        rw [Function.update_same, hold j (by omega)] at he
        exact absurd he.symm (s2 j (by omega))
      · subst hj2
        rw [Function.update_same, hold i (by omega)] at he
        exact absurd he (s2 i (by omega))
      · rw [hold i (by omega), hold j (by omega)] at he
        exact hdist i j (by omega) (by omega) he
    · unfold Poll.has_slot
      constructor
      · rintro ⟨j, hj, hx⟩
        dsimp only at hj hx
        by_cases hj2 : j = fds.nfds
        · subst hj2
          rw [Function.update_same] at hx
          exact Or.inr hx.symm
        · rw [hold j (by omega)] at hx
          exact Or.inl ⟨j, by omega, hx⟩
      · rintro (⟨j, hj, hx⟩ | rfl)
        · exact ⟨j, by dsimp only; omega, by dsimp only; rw [hold j hj]; exact hx⟩
        · exact ⟨fds.nfds, by dsimp only; omega, by dsimp only; rw [Function.update_same]⟩
    · unfold Poll.read_set
      constructor
      · rintro ⟨j, hj, hx, hp⟩
        dsimp only at hj hx hp
        by_cases hj2 : j = fds.nfds
        · subst hj2
          rw [Function.update_same] at hx hp
          exact Or.inr ⟨hx.symm, by simpa using hp⟩
        · rw [hold j (by omega)] at hx hp
          exact Or.inl ⟨j, by omega, hx, hp⟩
      · rintro (⟨j, hj, hx, hp⟩ | ⟨rfl, hp⟩)
        · exact ⟨j, by dsimp only; omega, by dsimp only; rw [hold j hj]; exact hx,
            by dsimp only; rw [hold j hj]; exact hp⟩
        · exact ⟨fds.nfds, by dsimp only; omega, by dsimp only; rw [Function.update_same],
            by dsimp only; rw [Function.update_same]; simpa using hp⟩
    · unfold Poll.write_set
      constructor
      · rintro ⟨j, hj, hx, hp⟩
        dsimp only at hj hx hp
        by_cases hj2 : j = fds.nfds
        · subst hj2
          rw [Function.update_same] at hx hp
          exact Or.inr ⟨hx.symm, by simpa using hp⟩
        · rw [hold j (by omega)] at hx hp
          exact Or.inl ⟨j, by omega, hx, hp⟩
      · rintro (⟨j, hj, hx, hp⟩ | ⟨rfl, hp⟩)
        · exact ⟨j, by dsimp only; omega, by dsimp only; rw [hold j hj]; exact hx,
            by dsimp only; rw [hold j hj]; exact hp⟩
        · exact ⟨fds.nfds, by dsimp only; omega, by dsimp only; rw [Function.update_same],
            by dsimp only; rw [Function.update_same]; simpa using hp⟩

theorem poll_add_inv (M : Nat) (fds : Poll.s_poll_set) (fd rd wr : Int)
    (hinv : Poll.Inv M fds) : Poll.Inv M (Poll.s_poll_add M fds fd rd wr) := by
  by_cases hcap : Poll.has_slot fds fd ∨ fds.nfds < M
  · exact (poll_add_effect M fds fd rd wr hinv hcap).1
  · obtain ⟨_, _, _, s4⟩ := poll_scan_slot fds fd
    have h1 : ¬ Poll.has_slot fds fd := fun h => hcap (Or.inl h)
    have h2 : ¬ Poll.scan fds fd fds.nfds 0 < fds.nfds := fun h => h1 (s4.mpr h)
    rw [poll_add_full M fds fd rd wr (by omega)]
    exact hinv

theorem poll_calls_inv (M : Nat) (l : List SetCall) :
    ∀ fds, Poll.Inv M fds → Poll.Inv M (Poll.calls M fds l) := by
  induction l with
  | nil => exact fun fds h => h
  | cons c l ih =>
    intro fds h
    unfold Poll.calls
    rw [List.foldl_cons]
    apply ih
    cases c with
    | s_poll_zero => exact ⟨Nat.zero_le _, fun i j hi => absurd hi (Nat.not_lt_zero _)⟩
    | s_poll_add a => exact poll_add_inv M fds a.fd a.rd a.wr h

/-- C24. In the descriptor-array implementation: after an `s_poll_zero`, and from any
set with `nfds <= MAX_FD` and pairwise distinct descriptors in `ufds[0..nfds)`, every
sequence of `s_poll_zero` and `s_poll_add` calls keeps both properties.  An
`s_poll_add` of a descriptor without a slot when `nfds == MAX_FD` leaves the set as it
was; no `s_poll_add` changes a slot at index `MAX_FD` or beyond; and an `s_poll_add` of
a descriptor that has a slot keeps `nfds` and adds the requested bits to its `events`. -/
theorem poll_set_bounded (M : Nat) (s0 : Poll.s_poll_set) (l : List SetCall) :
    Poll.Inv M (Poll.calls M (Poll.s_poll_zero s0) l) ∧
    (∀ fds, Poll.Inv M fds → Poll.Inv M (Poll.calls M fds l)) ∧
    (∀ fds fd rd wr, fds.nfds = M → ¬ Poll.has_slot fds fd →
      Poll.s_poll_add M fds fd rd wr = fds) ∧
    (∀ fds fd rd wr j, M ≤ j → (Poll.s_poll_add M fds fd rd wr).ufds j = fds.ufds j) ∧
    (∀ fds fd rd wr i, Poll.Inv M fds → i < fds.nfds → (fds.ufds i).fd = fd →
      (Poll.s_poll_add M fds fd rd wr).nfds = fds.nfds ∧
      (Poll.s_poll_add M fds fd rd wr).ufds i =
        { fd := fd,
          events := { POLLIN := (fds.ufds i).events.POLLIN || decide (rd ≠ 0),
                      POLLOUT := (fds.ufds i).events.POLLOUT || decide (wr ≠ 0) } }) := by
  refine ⟨?_, poll_calls_inv M l, ?_, ?_, ?_⟩
  · exact poll_calls_inv M l _
      ⟨Nat.zero_le _, fun i j hi => absurd hi (Nat.not_lt_zero _)⟩
  · intro fds fd rd wr hfull hnew
    obtain ⟨_, _, _, s4⟩ := poll_scan_slot fds fd
    have h2 : ¬ Poll.scan fds fd fds.nfds 0 < fds.nfds := fun h => hnew (s4.mpr h)
    exact poll_add_full M fds fd rd wr (by omega)
  · intro fds fd rd wr j hj
    unfold Poll.s_poll_add
    generalize Poll.scan fds fd fds.nfds 0 = r
    dsimp only
    have hne : ∀ r, ¬ r ≥ M → j ≠ r := fun r h => by omega
    split_ifs with h1 h2 h3 h4 h5 h6 h7 <;> dsimp only <;>
      simp [Function.update_noteq (hne r h1)]
  · intro fds fd rd wr i hinv hi hfd
    obtain ⟨_, s2, s3, s4⟩ := poll_scan_slot fds fd
    have hr := s4.mp ⟨i, hi, hfd⟩
    have heq : Poll.scan fds fd fds.nfds 0 = i := by
      apply hinv.2 _ _ hr hi
      rw [s3 hr, hfd]
    have hM : Poll.scan fds fd fds.nfds 0 < M := by
      have := hinv.1
      omega
    rw [poll_add_existing M fds fd rd wr hr hM, heq]
    exact ⟨rfl, by dsimp only; rw [Function.update_same, hfd]⟩

theorem poll_adds_sets (M : Nat) (s0 : Poll.s_poll_set) (l : List Add) :
    (l.map Add.fd).toFinset.card ≤ M →
      Poll.Inv M (Poll.adds M (Poll.s_poll_zero s0) l) ∧
      (Poll.adds M (Poll.s_poll_zero s0) l).nfds = (l.map Add.fd).toFinset.card ∧
      (∀ x, Poll.has_slot (Poll.adds M (Poll.s_poll_zero s0) l) x ↔ x ∈ l.map Add.fd) ∧
      (∀ x, Poll.read_set (Poll.adds M (Poll.s_poll_zero s0) l) x ↔
        ∃ a ∈ l, a.fd = x ∧ a.rd ≠ 0) ∧
      (∀ x, Poll.write_set (Poll.adds M (Poll.s_poll_zero s0) l) x ↔
        ∃ a ∈ l, a.fd = x ∧ a.wr ≠ 0) := by
  induction l using List.reverseRecOn with
  | nil =>
    intro _
    refine ⟨⟨Nat.zero_le _, fun i j hi => absurd hi (Nat.not_lt_zero _)⟩, rfl, ?_, ?_, ?_⟩
    · intro x
      simp [Poll.has_slot, Poll.adds, Poll.s_poll_zero]
    · intro x
      simp [Poll.read_set, Poll.adds, Poll.s_poll_zero]
    · intro x
      simp [Poll.write_set, Poll.adds, Poll.s_poll_zero]
  | append_singleton l a ih =>
    intro hcap
    have hF : ((l ++ [a]).map Add.fd).toFinset = insert a.fd (l.map Add.fd).toFinset := by
      ext x
      simp only [List.map_append, List.map_cons, List.map_nil, List.toFinset_append,
        List.toFinset_cons, List.toFinset_nil, Finset.mem_union, Finset.mem_insert,
        List.mem_toFinset, insert_emptyc_eq, Finset.mem_singleton]
      tauto
    rw [hF] at hcap ⊢
    have hle : (l.map Add.fd).toFinset.card ≤ M :=
      le_trans (Finset.card_le_card (Finset.subset_insert _ _)) hcap
    obtain ⟨i1, i2, i3, i4, i5⟩ := ih hle
    have hadd : Poll.adds M (Poll.s_poll_zero s0) (l ++ [a]) =
        Poll.s_poll_add M (Poll.adds M (Poll.s_poll_zero s0) l) a.fd a.rd a.wr := by
      simp [Poll.adds, List.foldl_append]
    rw [hadd]
    generalize Poll.adds M (Poll.s_poll_zero s0) l = s at i1 i2 i3 i4 i5 ⊢
    have hc : Poll.has_slot s a.fd ∨ s.nfds < M := by
      by_cases hm : a.fd ∈ l.map Add.fd
      · exact Or.inl ((i3 _).mpr hm)
      · right
        rw [Finset.card_insert_of_not_mem (by simpa using hm)] at hcap
        omega
    obtain ⟨e1, e2, e3, e4, e5, e6⟩ := poll_add_effect M s a.fd a.rd a.wr i1 hc
    refine ⟨e1, ?_, ?_, ?_, ?_⟩
    · by_cases hm : a.fd ∈ l.map Add.fd
      · rw [e5 ((i3 _).mpr hm), i2, Finset.insert_eq_of_mem (by simpa using hm)]
      · rw [e6 (fun h => hm ((i3 _).mp h)), i2,
          Finset.card_insert_of_not_mem (by simpa using hm)]
    · intro x
      rw [e2, i3]
      simp only [List.map_append, List.map_cons, List.map_nil, List.mem_append,
        List.mem_singleton]
    · intro x
      rw [e3, i4]
      simp only [List.mem_append, List.mem_singleton]
      constructor
      · rintro (⟨b, hb, h⟩ | ⟨rfl, h⟩)
        · exact ⟨b, Or.inl hb, h⟩
        · exact ⟨a, Or.inr rfl, rfl, h⟩
      · rintro ⟨b, (hb | rfl), h⟩
        · exact Or.inl ⟨b, hb, h⟩
        · exact Or.inr ⟨h.1.symm, h.2⟩
    · intro x
      rw [e4, i5]
      simp only [List.mem_append, List.mem_singleton]
      constructor
      · rintro (⟨b, hb, h⟩ | ⟨rfl, h⟩)
        · exact ⟨b, Or.inl hb, h⟩
        · exact ⟨a, Or.inr rfl, rfl, h⟩
      · rintro ⟨b, (hb | rfl), h⟩
        · exact Or.inl ⟨b, hb, h⟩
        · exact Or.inr ⟨h.1.symm, h.2⟩

theorem select_adds_sets (S : Nat) (l : List Add) :
    ∀ t0 : Select.s_poll_set, (∀ a ∈ l, 0 ≤ a.fd ∧ a.fd < S) →
      ∃ t, Select.adds S t0 l = some t ∧
        (∀ x, FD_ISSET x t.irfds = true ↔
          FD_ISSET x t0.irfds = true ∨ ∃ a ∈ l, a.fd = x ∧ a.rd ≠ 0) ∧
        (∀ x, FD_ISSET x t.iwfds = true ↔
          FD_ISSET x t0.iwfds = true ∨ ∃ a ∈ l, a.fd = x ∧ a.wr ≠ 0) := by
  induction l with
  | nil =>
    intro t0 _
    exact ⟨t0, rfl, by simp, by simp⟩
  | cons a l ih =>
    intro t0 hr
    have ha := hr a (List.mem_cons_self _ _)
    have hstep : ∃ t1, Select.s_poll_add S t0 a.fd a.rd a.wr = some t1 ∧
        (∀ x, FD_ISSET x t1.irfds = true ↔
          FD_ISSET x t0.irfds = true ∨ (a.fd = x ∧ a.rd ≠ 0)) ∧
        (∀ x, FD_ISSET x t1.iwfds = true ↔
          FD_ISSET x t0.iwfds = true ∨ (a.fd = x ∧ a.wr ≠ 0)) := by
      unfold Select.s_poll_add FD_SET FD_ISSET
      simp only [ha, and_self, if_true]
      have hsymm : ∀ (x : Int) (p : Prop), (x = a.fd ∨ p ↔ p ∨ a.fd = x) := by
        intro x p
        constructor
        · rintro (h | h)
          · exact Or.inr h.symm
          · exact Or.inl h
        · rintro (h | h)
          · exact Or.inr h
          · exact Or.inl h.symm
      by_cases hrd : a.rd = 0 <;> by_cases hwr : a.wr = 0 <;>
        simp [hrd, hwr, Function.update_apply, hsymm]
    obtain ⟨t1, h1, h2, h3⟩ := hstep
    obtain ⟨t, g1, g2, g3⟩ := ih t1 (fun b hb => hr b (List.mem_cons_of_mem _ hb))
    refine ⟨t, ?_, ?_, ?_⟩
    · unfold Select.adds
      rw [h1]
      exact g1
    · intro x
      rw [g2, h2]
      simp only [List.mem_cons, exists_eq_or_imp, or_assoc]
    · intro x
      rw [g3, h3]
      simp only [List.mem_cons, exists_eq_or_imp, or_assoc]

/-- C23. After `s_poll_zero`, for a sequence of `s_poll_add` calls on at most `MAX_FD`
distinct descriptors: a descriptor is watched for reading (for writing) exactly when
one of the calls made for it had `rd` (`wr`) set; each descriptor has one slot, `nfds`
being the number of distinct descriptors; a longer sequence never loses an interest of
a shorter one; the calls made in another order register the same interests; and the
bit-set implementation, for descriptors below `FD_SETSIZE`, ends with the same read set
and write set. -/
theorem s_poll_add_union (M : Nat) (s0 : Poll.s_poll_set) (l : List Add)
    (hcap : (l.map Add.fd).dedup.length ≤ M) :
    (∀ x, Poll.read_set (Poll.adds M (Poll.s_poll_zero s0) l) x ↔
      ∃ a ∈ l, a.fd = x ∧ a.rd ≠ 0) ∧
    (∀ x, Poll.write_set (Poll.adds M (Poll.s_poll_zero s0) l) x ↔
      ∃ a ∈ l, a.fd = x ∧ a.wr ≠ 0) ∧
    (Poll.Inv M (Poll.adds M (Poll.s_poll_zero s0) l) ∧
      (Poll.adds M (Poll.s_poll_zero s0) l).nfds = (l.map Add.fd).dedup.length) ∧
    (∀ l1 l2, l = l1 ++ l2 → ∀ x,
      (Poll.read_set (Poll.adds M (Poll.s_poll_zero s0) l1) x →
        Poll.read_set (Poll.adds M (Poll.s_poll_zero s0) l) x) ∧
      (Poll.write_set (Poll.adds M (Poll.s_poll_zero s0) l1) x →
        Poll.write_set (Poll.adds M (Poll.s_poll_zero s0) l) x)) ∧
    (∀ l2, l.Perm l2 → ∀ x,
      (Poll.read_set (Poll.adds M (Poll.s_poll_zero s0) l2) x ↔
        Poll.read_set (Poll.adds M (Poll.s_poll_zero s0) l) x) ∧
      (Poll.write_set (Poll.adds M (Poll.s_poll_zero s0) l2) x ↔
        Poll.write_set (Poll.adds M (Poll.s_poll_zero s0) l) x)) ∧
    (∀ FD_SETSIZE : Nat, (∀ a ∈ l, 0 ≤ a.fd ∧ a.fd < FD_SETSIZE) →
      ∃ t, Select.adds FD_SETSIZE Select.s_poll_zero l = some t ∧
        ∀ x, (FD_ISSET x t.irfds = true ↔
            Poll.read_set (Poll.adds M (Poll.s_poll_zero s0) l) x) ∧
          (FD_ISSET x t.iwfds = true ↔
            Poll.write_set (Poll.adds M (Poll.s_poll_zero s0) l) x)) := by
  rw [← List.card_toFinset] at hcap ⊢
  obtain ⟨i1, i2, _, i4, i5⟩ := poll_adds_sets M s0 l hcap
  refine ⟨i4, i5, ⟨i1, i2⟩, ?_, ?_, ?_⟩
  · intro l1 l2 hl x
    have hsub : (l1.map Add.fd).toFinset ⊆ (l.map Add.fd).toFinset := by
      intro y hy
      rw [List.mem_toFinset] at hy ⊢
      rw [hl, List.map_append]
      exact List.mem_append_left _ hy
    obtain ⟨_, _, _, j4, j5⟩ :=
      poll_adds_sets M s0 l1 (le_trans (Finset.card_le_card hsub) hcap)
    rw [i4, i5, j4, j5]
    constructor
    · rintro ⟨a, ha, h⟩
      exact ⟨a, by rw [hl]; exact List.mem_append_left _ ha, h⟩
    · rintro ⟨a, ha, h⟩
      exact ⟨a, by rw [hl]; exact List.mem_append_left _ ha, h⟩
  · intro l2 hp x
    have heq : (l2.map Add.fd).toFinset = (l.map Add.fd).toFinset :=
      List.toFinset_eq_of_perm _ _ (hp.symm.map Add.fd)
    obtain ⟨_, _, _, j4, j5⟩ := poll_adds_sets M s0 l2 (by rw [heq]; exact hcap)
    rw [i4, i5, j4, j5]
    constructor
    · constructor
      · rintro ⟨a, ha, h⟩
        exact ⟨a, hp.mem_iff.mpr ha, h⟩
      · rintro ⟨a, ha, h⟩
        exact ⟨a, hp.mem_iff.mp ha, h⟩
    · constructor
      · rintro ⟨a, ha, h⟩
        exact ⟨a, hp.mem_iff.mpr ha, h⟩
      · rintro ⟨a, ha, h⟩
        exact ⟨a, hp.mem_iff.mp ha, h⟩
  · intro S hr
    obtain ⟨t, g1, g2, g3⟩ := select_adds_sets S l Select.s_poll_zero hr
    refine ⟨t, g1, fun x => ⟨?_, ?_⟩⟩
    · rw [g2, i4]
      simp [Select.s_poll_zero, FD_ISSET, FD_ZERO]
    · rw [g3, i5]
      simp [Select.s_poll_zero, FD_ISSET, FD_ZERO]

/-- C23 on the adds that watch the plaintext socket 5 for reading and for writing and
the TLS socket 7 for reading, the set being taken over with 9 stale slots. -/
theorem s_poll_add_union_witness :
    ([⟨5, 1, 0⟩, ⟨7, 1, 0⟩, ⟨5, 0, 1⟩].map Add.fd).dedup.length ≤ 4 ∧
    (Poll.write_set (Poll.adds 4 (Poll.s_poll_zero ⟨fun _ => ⟨0, {}⟩, 9⟩)
        [⟨5, 1, 0⟩, ⟨7, 1, 0⟩, ⟨5, 0, 1⟩]) 5 ↔
      ∃ a ∈ [(⟨5, 1, 0⟩ : Add), ⟨7, 1, 0⟩, ⟨5, 0, 1⟩], a.fd = 5 ∧ a.wr ≠ 0) :=
  ⟨by decide,
    (s_poll_add_union 4 ⟨fun _ => ⟨0, {}⟩, 9⟩ [⟨5, 1, 0⟩, ⟨7, 1, 0⟩, ⟨5, 0, 1⟩]
      (by decide)).2.1 5⟩

/-! ## `connect_remote`: the cursor of the address list -/

theorem mod_lt_two (x n : Nat) (h : x < 2 * n) : x % n = if x < n then x else x - n := by
  split_ifs with h1
  · exact Nat.mod_eq_of_lt h1
  · rw [Nat.mod_eq_sub_mod (by omega)]
    exact Nat.mod_eq_of_lt (by omega)

theorem connect_loop_all_fail (bind_num num : Nat) (env : Nat → ConnectEnv) (k : Nat) :
    ∀ i cur tried, cur < num →
      (∀ j, i ≤ j → j < i + k → (env j).fails_at_connect bind_num) →
      connect_loop bind_num num env k i cur tried =
        ⟨-1, (cur + k) % num, tried ++ (List.range k).map (fun j => (cur + j) % num)⟩ := by
  induction k with
  | zero =>
    intro i cur tried hcur _
    simp [connect_loop, Nat.mod_eq_of_lt hcur]
  | succ k ih =>
    intro i cur tried hcur hfail
    obtain ⟨f1, f2, f3, f4, f5⟩ := hfail i (le_refl i) (by omega)
    have hnext := ih (i + 1) ((cur + 1) % num) (tried ++ [cur])
      (Nat.mod_lt _ (by omega)) (fun j h1 h2 => hfail j (by omega) (by omega))
    have hfin : ((cur + 1) % num + k) % num = (cur + (k + 1)) % num := by
      rw [Nat.mod_add_mod]
      congr 1
      omega
    have hmap : (List.range (k + 1)).map (fun j => (cur + j) % num) =
        cur :: (List.range k).map (fun j => ((cur + 1) % num + j) % num) := by
      rw [List.range_succ_eq_map, List.map_cons, List.map_map]
      congr 1
      · simp [Nat.mod_eq_of_lt hcur]
      · apply List.map_congr_left
        intro j _
        simp only [Function.comp, Nat.mod_add_mod]
        congr 1
        omega
    unfold connect_loop
    have g1 : ¬ (env i).socket < 0 := by omega
    have g3 : ¬ (bind_num ≠ 0 ∧ (env i).bind < 0) := by
      intro h
      have := f3 h.1
      omega
    simp only [g1, f2, g3, f4, if_false, ne_eq, not_true_eq_false]
    rw [hmap, ← hfin]
    split_ifs with h1 h2
    · rw [hnext]; simp
    · rcases f5 with h | h
      · exact absurd h h1
      · exact absurd h2 h
    · rw [hnext]; simp

theorem connect_loop_cursor (bind_num num : Nat) (env : Nat → ConnectEnv) (k : Nat) :
    ∀ i cur tried, cur < num →
      ∃ m, (connect_loop bind_num num env k i cur tried).tried.length = tried.length + m ∧
        (connect_loop bind_num num env k i cur tried).cur = (cur + m) % num ∧
        (∀ a ∈ (connect_loop bind_num num env k i cur tried).tried, a ∈ tried ∨ a < num) := by
  induction k with
  | zero =>
    intro i cur tried hcur
    exact ⟨0, by simp [connect_loop], by simp [connect_loop, Nat.mod_eq_of_lt hcur],
      fun a ha => Or.inl (by simpa [connect_loop] using ha)⟩
  | succ k ih =>
    intro i cur tried hcur
    obtain ⟨m, h1, h2, h3⟩ := ih (i + 1) ((cur + 1) % num) (tried ++ [cur])
      (Nat.mod_lt _ (by omega))
    have hstop : ∃ m, (tried ++ [cur]).length = tried.length + m ∧
        (cur + 1) % num = (cur + m) % num ∧ ∀ a ∈ tried ++ [cur], a ∈ tried ∨ a < num :=
      ⟨1, by simp, rfl, fun a ha => by
        rcases List.mem_append.mp ha with h | h
        · exact Or.inl h
        · exact Or.inr (by simp at h; omega)⟩
    have hgo : ∃ m, (connect_loop bind_num num env k (i + 1) ((cur + 1) % num)
          (tried ++ [cur])).tried.length = tried.length + m ∧
        (connect_loop bind_num num env k (i + 1) ((cur + 1) % num) (tried ++ [cur])).cur =
          (cur + m) % num ∧
        ∀ a ∈ (connect_loop bind_num num env k (i + 1) ((cur + 1) % num)
          (tried ++ [cur])).tried, a ∈ tried ∨ a < num := by
      refine ⟨m + 1, ?_, ?_, ?_⟩
      · rw [h1]; simp; omega
      · rw [h2, Nat.mod_add_mod]; congr 1; omega
      · intro a ha
        rcases h3 a ha with h | h
        · rcases List.mem_append.mp h with h | h
          · exact Or.inl h
          · exact Or.inr (by simp at h; omega)
        · exact Or.inr h
    unfold connect_loop
    dsimp only
    split_ifs <;> first | exact hstop | exact hgo

theorem connect_remote_first_ends (bind_num num cur : Nat) (env : Nat → ConnectEnv)
    (hcur : cur < num) (h : (env 0).ends bind_num) :
    (connect_remote false none ⟨cur, num⟩ bind_num env).remote_addr = ⟨(cur + 1) % num, num⟩ ∧
    (connect_remote false none ⟨cur, num⟩ bind_num env).tried = [cur] := by
  obtain ⟨n, rfl⟩ : ∃ n, num = n + 1 := ⟨num - 1, by omega⟩
  unfold ConnectEnv.ends at h
  unfold connect_remote
  simp only [Bool.false_eq_true, if_false]
  unfold connect_loop
  dsimp only
  split_ifs with h1 h2 h3 h4 h5 h6
  all_goals first
    | exact ⟨rfl, rfl⟩
    | (exfalso
       rcases h with h | h | h | h | h
       · exact h1 h
       · exact h2 h
       · exact h3 h
       · exact h4 h
       · first
          | (rcases h.1 with h7 | h7
             · exact h5.1 h7
             · exact h5.2 h7)
          | exact h6 h.2)

theorem starting_candidates_count (bind_num num a : Nat) (ha : a < num)
    (envs : List (Nat → ConnectEnv)) :
    ∀ cur, cur < num → (∀ env ∈ envs, (env 0).ends bind_num) →
      starting_candidates bind_num num cur envs =
        (List.range envs.length).map (fun k => (cur + k) % num) ∧
      envs.length ≤ num * (starting_candidates bind_num num cur envs).count a +
        (if cur ≤ a then a - cur else a + num - cur) ∧
      num * (starting_candidates bind_num num cur envs).count a +
        (if cur ≤ a then a - cur else a + num - cur) ≤ envs.length + num - 1 := by
  induction envs with
  | nil =>
    intro cur hcur _
    refine ⟨by simp [starting_candidates], ?_⟩
    simp only [starting_candidates, List.count_nil, List.length_nil]
    split_ifs <;> omega
  | cons env envs ih =>
    intro cur hcur hends
    have hstep := (connect_remote_first_ends bind_num num cur env hcur
      (hends env (List.mem_cons_self _ _))).1
    have hc : (connect_remote false none ⟨cur, num⟩ bind_num env).remote_addr.cur =
        (cur + 1) % num := by rw [hstep]
    obtain ⟨i0, i1, i2⟩ := ih ((cur + 1) % num) (Nat.mod_lt _ (by omega))
      (fun e he => hends e (List.mem_cons_of_mem _ he))
    have hm := mod_lt_two (cur + 1) num (by omega)
    unfold starting_candidates
    rw [hc]
    refine ⟨?_, ?_⟩
    · rw [i0, List.length_cons, List.range_succ_eq_map, List.map_cons, List.map_map]
      congr 1
      · simp [Nat.mod_eq_of_lt hcur]
      · apply List.map_congr_left
        intro j _
        simp only [Function.comp, Nat.mod_add_mod]
        congr 1
        omega
    · rw [List.count_cons, List.length_cons]
      generalize (starting_candidates bind_num num ((cur + 1) % num) envs).count a = n
        at i1 i2 ⊢
      rw [hm] at i1 i2
      have hmul : num * (n + 1) = num * n + num := by ring
      by_cases hca : cur = a
      · subst hca
        simp only [beq_self_eq_true, if_true, le_refl] at i1 i2 ⊢
        rw [hmul]
        split_ifs at i1 i2 <;> omega
      · have hb : (cur == a) = false := by simpa using hca
        simp only [hb, Bool.false_eq_true, if_false, Nat.add_zero] at i1 i2 ⊢
        split_ifs at i1 i2 ⊢ <;> omega

/-- C25, as amended. On a pre-resolved list of `num` addresses with the cursor below
`num`, whatever the outcomes of the connect attempts: a session leaves the cursor
advanced by one position (mod `num`) for every address it tried.  Across successive
sessions each of which ends at its first address, the starting position advances by
exactly one per session, and every address is the starting candidate `⌊K/num⌋` or
`⌈K/num⌉` times, `K` being the number of sessions. -/
theorem connect_remote_round_robin (bind_num cur num : Nat)
    (envs : List (Nat → ConnectEnv)) (hcur : cur < num) :
    (∀ env : Nat → ConnectEnv,
      (connect_remote false none ⟨cur, num⟩ bind_num env).remote_addr.cur =
        (cur + (connect_remote false none ⟨cur, num⟩ bind_num env).tried.length) % num) ∧
    ((∀ env ∈ envs, (env 0).ends bind_num) →
      starting_candidates bind_num num cur envs =
        (List.range envs.length).map (fun k => (cur + k) % num) ∧
      ∀ a, a < num →
        (starting_candidates bind_num num cur envs).count a = envs.length / num ∨
        (starting_candidates bind_num num cur envs).count a =
          (envs.length + num - 1) / num) := by
  constructor
  · intro env
    obtain ⟨m, h1, h2, _⟩ := connect_loop_cursor bind_num num env num 0 cur [] hcur
    unfold connect_remote
    simp only [Bool.false_eq_true, if_false]
    rw [h2, h1]
    simp
  · intro hends
    refine ⟨(starting_candidates_count bind_num num cur hcur envs cur hcur hends).1, ?_⟩
    intro a ha
    obtain ⟨_, h1, h2⟩ := starting_candidates_count bind_num num a ha envs cur hcur hends
    generalize (starting_candidates bind_num num cur envs).count a = n at h1 h2 ⊢
    generalize envs.length = K at h1 h2 ⊢
    have hpos : 0 < num := by omega
    have b1 : K / num < n + 1 := by
      rw [Nat.div_lt_iff_lt_mul hpos]
      have : (n + 1) * num = num * n + num := by ring
      rw [this]
      split_ifs at h1 <;> omega
    have b2 : n ≤ (K + num - 1) / num := by
      rw [Nat.le_div_iff_mul_le hpos]
      have : n * num = num * n := by ring
      rw [this]
      omega
    have b3 : (K + num - 1) / num ≤ K / num + 1 := by
      rw [← Nat.add_div_right K hpos]
      exact Nat.div_le_div_right (by omega)
    omega

/-- C25 as amended, on three addresses with the cursor at 1 and four sessions that
connect at their first address: the sessions start at 1, 2, 0, 1. -/
theorem connect_remote_round_robin_witness :
    1 < 3 ∧
    starting_candidates 0 3 1 (List.replicate 4 (fun _ => completes)) = [1, 2, 0, 1] :=
  ⟨by decide,
    by
      have h := ((connect_remote_round_robin 0 1 3 (List.replicate 4 (fun _ => completes))
        (by decide)).2 (by decide)).1
      rw [h]
      decide⟩

/-- C25 as stated fails: on two addresses with the cursor at 0, the first address
refusing and the second one connecting, a session tries both addresses and leaves the
cursor at 0 again; two such sessions both start at address 0, and address 1 is the
starting candidate 0 times, neither `⌊2/2⌋` nor `⌈2/2⌉`. -/
theorem connect_remote_round_robin_counterexample :
    connect_remote false none ⟨0, 2⟩ 0 second_connects = ⟨3, ⟨0, 2⟩, [0, 1]⟩ ∧
    starting_candidates 0 2 0 [second_connects, second_connects] = [0, 0] ∧
    (starting_candidates 0 2 0 [second_connects, second_connects]).count 1 ≠ 2 / 2 ∧
    (starting_candidates 0 2 0 [second_connects, second_connects]).count 1 ≠
      (2 + 2 - 1) / 2 := by
  decide

/-! ## `cleanup` -/

theorem mem_cleanup_ssl (c : Session) (x : CleanupCall) :
    x ∈ cleanup_ssl c ↔ c.ssl = true ∧
      (x = CleanupCall.SSL_set_shutdown_SENT_RECEIVED ∨ x = CleanupCall.SSL_free ∨
        x = CleanupCall.ERR_remove_state) := by
  unfold cleanup_ssl
  split_ifs with h <;> simp [h]

theorem mem_cleanup_remote (c : Session) (error : Int) (x : CleanupCall) :
    x ∈ cleanup_remote c error ↔ 0 ≤ c.remote_fd.fd ∧
      ((error ≠ 0 ∧ c.remote_fd.is_socket ≠ 0 ∧
          x = CleanupCall.setsockopt_SO_LINGER c.remote_fd.fd 1 0) ∨
        x = CleanupCall.closesocket c.remote_fd.fd) := by
  unfold cleanup_remote reset
  split_ifs with h h1 <;> simp_all

theorem mem_cleanup_local (c : Session) (error : Int) (x : CleanupCall) :
    x ∈ cleanup_local c error ↔ 0 ≤ c.local_rfd.fd ∧
      ((error ≠ 0 ∧ c.local_rfd.is_socket ≠ 0 ∧
          x = CleanupCall.setsockopt_SO_LINGER c.local_rfd.fd 1 0) ∨
        (c.local_rfd.fd = c.local_wfd.fd ∧ x = CleanupCall.closesocket c.local_rfd.fd) ∨
        (c.local_rfd.fd ≠ c.local_wfd.fd ∧ error ≠ 0 ∧ c.local_wfd.is_socket ≠ 0 ∧
          x = CleanupCall.setsockopt_SO_LINGER c.local_wfd.fd 1 0)) := by
  unfold cleanup_local reset
  split_ifs with h h1 h2 h3 h4 <;> simp_all

theorem pairwise_cleanup_remote (c : Session) (error : Int) :
    (cleanup_remote c error).Pairwise close_is_last := by
  unfold cleanup_remote reset close_is_last
  split_ifs <;> simp

theorem pairwise_cleanup_local (c : Session) (error : Int) :
    (cleanup_local c error).Pairwise close_is_last := by
  unfold cleanup_local reset close_is_last
  split_ifs <;> simp

/-- C26. For a session whose two local descriptors are initialised together, are marked
alike when they are one descriptor, and differ from the remote descriptor: `cleanup`
frees the TLS object exactly when it is present, right after setting the shutdown hint;
closes the remote descriptor exactly when it is `>= 0`; sets `SO_LINGER` (on, 0), and
nothing else, on a descriptor exactly when `error != 0` and the descriptor belongs to
an endpoint that is initialised and marked a socket; never does so after closing that
descriptor; and with `error == 0` resets no descriptor. -/
theorem cleanup_calls (c : Session) (error : Int)
    (h1 : 0 ≤ c.local_rfd.fd ↔ 0 ≤ c.local_wfd.fd)
    (h2 : c.local_rfd.fd = c.local_wfd.fd →
      (c.local_rfd.is_socket ≠ 0 ↔ c.local_wfd.is_socket ≠ 0))
    (h3 : 0 ≤ c.remote_fd.fd →
      c.remote_fd.fd ≠ c.local_rfd.fd ∧ c.remote_fd.fd ≠ c.local_wfd.fd) :
    (CleanupCall.SSL_free ∈ cleanup c error ↔ c.ssl = true) ∧
    (c.ssl = true → (cleanup c error).take 3 =
      [CleanupCall.SSL_set_shutdown_SENT_RECEIVED, CleanupCall.SSL_free,
        CleanupCall.ERR_remove_state]) ∧
    (CleanupCall.closesocket c.remote_fd.fd ∈ cleanup c error ↔ 0 ≤ c.remote_fd.fd) ∧
    (∀ fd, CleanupCall.setsockopt_SO_LINGER fd 1 0 ∈ cleanup c error ↔
      error ≠ 0 ∧ ∃ e ∈ c.endpoints, e.fd = fd ∧ 0 ≤ e.fd ∧ e.is_socket ≠ 0) ∧
    (∀ fd a b, CleanupCall.setsockopt_SO_LINGER fd a b ∈ cleanup c error →
      a = 1 ∧ b = 0) ∧
    (cleanup c error).Pairwise close_is_last ∧
    (error = 0 → ∀ fd a b, CleanupCall.setsockopt_SO_LINGER fd a b ∉ cleanup c error) := by
  have hmem : ∀ x, x ∈ cleanup c error ↔
      x ∈ cleanup_ssl c ∨ x ∈ cleanup_remote c error ∨ x ∈ cleanup_local c error := by
    intro x
    unfold cleanup
    rw [List.mem_append, List.mem_append, or_assoc]
  refine ⟨?_, ?_, ?_, ?_, ?_, ?_, ?_⟩
  · rw [hmem, mem_cleanup_ssl, mem_cleanup_remote, mem_cleanup_local]
    simp
  · intro h
    simp [cleanup, cleanup_ssl, h]
  · rw [hmem, mem_cleanup_ssl, mem_cleanup_remote, mem_cleanup_local]
    simp only [CleanupCall.closesocket.injEq, false_or, and_false, or_false, reduceCtorEq]
    constructor
    · rintro (h | ⟨h, h4, h5⟩)
      · exact h.1
      · rw [h5]; exact h
    · intro h
      exact Or.inl ⟨h, trivial⟩
  · intro fd
    rw [hmem, mem_cleanup_ssl, mem_cleanup_remote, mem_cleanup_local]
    unfold Session.endpoints
    simp only [CleanupCall.setsockopt_SO_LINGER.injEq, false_or, and_false, or_false,
      reduceCtorEq, and_true, List.mem_cons, List.mem_singleton, List.not_mem_nil]
    constructor
    · rintro (⟨h, he, hs, rfl⟩ | ⟨h, (⟨he, hs, rfl⟩ | ⟨hne, he, hs, rfl⟩)⟩)
      · exact ⟨he, c.remote_fd, Or.inl rfl, rfl, h, hs⟩
      · exact ⟨he, c.local_rfd, Or.inr (Or.inl rfl), rfl, h, hs⟩
      · exact ⟨he, c.local_wfd, Or.inr (Or.inr rfl), rfl, h1.mp h, hs⟩
    · rintro ⟨he, e, (rfl | rfl | rfl), rfl, h, hs⟩
      · exact Or.inl ⟨h, he, hs, rfl⟩
      · exact Or.inr ⟨h, Or.inl ⟨he, hs, rfl⟩⟩
      · by_cases heq : c.local_rfd.fd = c.local_wfd.fd
        · exact Or.inr ⟨h1.mpr h, Or.inl ⟨he, (h2 heq).mpr hs, heq.symm⟩⟩
        · exact Or.inr ⟨h1.mpr h, Or.inr ⟨heq, he, hs, rfl⟩⟩
  · intro fd a b
    rw [hmem, mem_cleanup_ssl, mem_cleanup_remote, mem_cleanup_local]
    simp only [CleanupCall.setsockopt_SO_LINGER.injEq, false_or, and_false, or_false,
      reduceCtorEq]
    rintro (⟨_, _, _, _, rfl, rfl⟩ | ⟨_, (⟨_, _, _, rfl, rfl⟩ | ⟨_, _, _, _, rfl, rfl⟩)⟩) <;>
      exact ⟨rfl, rfl⟩
  · unfold cleanup
    rw [List.pairwise_append, List.pairwise_append]
    refine ⟨⟨?_, pairwise_cleanup_remote c error, ?_⟩, pairwise_cleanup_local c error, ?_⟩
    · unfold cleanup_ssl close_is_last
      split_ifs <;> simp
    · intro x hx y _ fd a b hxc
      rw [mem_cleanup_ssl] at hx
      subst hxc
      simp at hx
    · intro x hx y hy fd a b hxc hyc
      subst hxc hyc
      rw [List.mem_append, mem_cleanup_ssl, mem_cleanup_remote] at hx
      rw [mem_cleanup_local] at hy
      simp only [CleanupCall.closesocket.injEq, CleanupCall.setsockopt_SO_LINGER.injEq,
        false_or, and_false, or_false, reduceCtorEq, and_true] at hx hy
      obtain ⟨hr, rfl⟩ := hx
      have := h3 hr
      rcases hy with ⟨_, (⟨_, _, h⟩ | ⟨_, _, _, h⟩)⟩
      · exact this.1 h.1
      · exact this.2 h.1
  · intro h fd a b
    rw [hmem, mem_cleanup_ssl, mem_cleanup_remote, mem_cleanup_local]
    simp [h]

/-- C26 on a session that failed with TLS set up, remote socket 7 and local socket 5:
both sockets are reset and then closed. -/
theorem cleanup_calls_witness :
    cleanup socket_session 1 =
      [ CleanupCall.SSL_set_shutdown_SENT_RECEIVED, CleanupCall.SSL_free,
        CleanupCall.ERR_remove_state,
        CleanupCall.setsockopt_SO_LINGER 7 1 0, CleanupCall.closesocket 7,
        CleanupCall.setsockopt_SO_LINGER 5 1 0, CleanupCall.closesocket 5 ] ∧
    (CleanupCall.closesocket socket_session.remote_fd.fd ∈ cleanup socket_session 1 ↔
      0 ≤ socket_session.remote_fd.fd) :=
  ⟨by decide,
    (cleanup_calls socket_session 1 (by decide) (by decide) (by decide)).2.2.1⟩

end Stunnel
